import Mathlib

/-!
# Verification of the Geni genetic-report pipeline

A shallow embedding, in Lean 4, of the core of the Geni repository:

* the consumer-genomics file parser (`apps/geni-site/src/lib/domain/genetics/parser.ts`)
  and its older copy in `apps/geni-web/src/lib/genetics/parser.ts`;
* the static trait rule table (`apps/geni-site/src/lib/domain/genetics/traits.ts`);
* the AES-256-GCM encryption-at-rest wrapper (`apps/geni-site/src/lib/server/crypto.ts`);
* the JWT-like token signer (`apps/geni-site/src/lib/server/auth/jwt.server.ts`);
* the magic-link store (`magicLinks` database operations).

JavaScript strings are modelled by their lists of Unicode code points
(`JStr := List Nat`); all character arithmetic is plain `Nat` arithmetic.
JavaScript `Map`s are modelled by association lists with `Map.prototype.set`
semantics (update in place, insert at the end).  The Node `crypto` primitives
(SHA-256, HMAC, PBKDF2, AES-256, GCM) are implemented concretely below,
following their public specifications; the theorems never depend on the
values these primitives compute, only on both sides of each protocol calling
the same primitive on the same arguments.

Definitions keep the source's names.  Theorems about the frozen claims come
after all definitions.
-/

namespace Geni

/-- JavaScript strings, as lists of Unicode code points. -/
abbrev JStr := List Nat

/-- Embed a Lean string literal as a `JStr`. -/
def jstr (s : String) : JStr := s.toList.map Char.toNat

/-- A single character's code point. -/
def ch (c : Char) : Nat := c.toNat

/-! ## JavaScript string primitives -/

/-- The code points removed by `String.prototype.trim` (ASCII whitespace,
NBSP, BOM and the Unicode line separators). -/
def isJsWs (c : Nat) : Bool :=
  c = 9 ∨ c = 10 ∨ c = 11 ∨ c = 12 ∨ c = 13 ∨ c = 32 ∨ c = 160 ∨
  c = 0x2028 ∨ c = 0x2029 ∨ c = 0xFEFF

/-- `String.prototype.trim`. -/
def jsTrim (s : JStr) : JStr :=
  ((s.dropWhile isJsWs).reverse.dropWhile isJsWs).reverse

/-- `String.prototype.toLowerCase` (ASCII range; the repository's inputs are
ASCII identifiers). -/
def jsToLower (s : JStr) : JStr :=
  s.map fun c => if 65 ≤ c ∧ c ≤ 90 then c + 32 else c

/-- `String.prototype.toUpperCase` (ASCII range). -/
def jsToUpper (s : JStr) : JStr :=
  s.map fun c => if 97 ≤ c ∧ c ≤ 122 then c - 32 else c

/-- `String.prototype.startsWith`. -/
def jsStartsWith (p s : JStr) : Bool := p.isPrefixOf s

/-- `String.prototype.includes` (substring containment). -/
def jsIncludes (needle hay : JStr) : Bool := decide (needle <:+: hay)

/-- `str.split(/\r?\n/)`: cut at every `\n`, consuming a `\r` directly in
front of it.  A trailing separator yields a trailing empty piece, as in
JavaScript. -/
def splitLinesJs : JStr → List JStr
  | [] => [[]]
  | 13 :: 10 :: rest => [] :: splitLinesJs rest
  | 10 :: rest => [] :: splitLinesJs rest
  | c :: rest =>
    match splitLinesJs rest with
    | [] => [[c]]
    | h :: t => (c :: h) :: t

/-- `str.split(sep)` for a one-character separator (used with `'\t'` and
`'.'`): every occurrence delimits, empty pieces are kept. -/
def splitOnCharJs (sep : Nat) : JStr → List JStr
  | [] => [[]]
  | c :: rest =>
    if c = sep then [] :: splitOnCharJs sep rest
    else
      match splitOnCharJs sep rest with
      | [] => [[c]]
      | h :: t => (c :: h) :: t

/-- `str.split(/\s+/)`: pieces between maximal whitespace runs.  A leading or
trailing run produces a leading or trailing empty piece, as in JavaScript.
A whitespace character opens a new empty piece only when it is the first
character of its run (i.e. the next character is not also whitespace). -/
def splitWsJs : JStr → List JStr
  | [] => [[]]
  | c :: rest =>
    if isJsWs c then
      match rest with
      | [] => [] :: splitWsJs rest
      | d :: _ => if isJsWs d then splitWsJs rest else [] :: splitWsJs rest
    else
      match splitWsJs rest with
      | [] => [[c]]
      | h :: t => (c :: h) :: t

/-- Is `c` the code point of a decimal digit? -/
def isDigitCp (c : Nat) : Bool := 48 ≤ c ∧ c ≤ 57

/-- `parseInt(s, 10)`: skip leading whitespace, read an optional sign and
then a maximal run of decimal digits; `none` models `NaN` (no digits).
Trailing garbage is ignored, as in JavaScript. -/
def jsParseInt (s : JStr) : Option Int :=
  let t := s.dropWhile isJsWs
  let (neg, t) : Bool × JStr :=
    match t with
    | 45 :: r => (true, r)
    | 43 :: r => (false, r)
    | r => (false, r)
  let digits := t.takeWhile isDigitCp
  if digits = [] then none
  else
    let n : Nat := digits.foldl (fun a d => a * 10 + (d - 48)) 0
    some (if neg then -(n : Int) else (n : Int))

/-! ## JavaScript `Map` model

Association lists with `Map.prototype.set` semantics: `set` overwrites an
existing key in place and appends a fresh key at the end, preserving
insertion order.  `Map.prototype.size` is the number of (distinct) keys,
which for lists built from `mapSet` is the list length. -/

/-- `map.set(k, v)`. -/
def mapSet {α : Type} (l : List (JStr × α)) (k : JStr) (v : α) : List (JStr × α) :=
  if l.any (fun p => p.1 = k) then l.map (fun p => if p.1 = k then (k, v) else p)
  else l ++ [(k, v)]

/-- `map.get(k)`. -/
def mapGet {α : Type} (l : List (JStr × α)) (k : JStr) : Option α :=
  (l.find? (fun p => p.1 = k)).map Prod.snd

/-- `map.has(k)`. -/
def mapHas {α : Type} (l : List (JStr × α)) (k : JStr) : Bool :=
  l.any (fun p => p.1 = k)

/-- Insert into a sorted list (helper for `sortJs`). -/
def sortInsert (c : Nat) : JStr → JStr
  | [] => [c]
  | d :: t => if c ≤ d then c :: d :: t else d :: sortInsert c t

/-- `arr.sort()` on an array of single characters: ascending by code point
(the JavaScript default comparator compares the one-character strings
lexicographically, i.e. by code unit). -/
def sortJs : JStr → JStr
  | [] => []
  | c :: t => sortInsert c (sortJs t)

/-- Fuel-driven digit extraction (structural recursion so that concrete
instances reduce in the kernel); `natDec` supplies enough fuel. -/
def natDecAux : Nat → Nat → JStr
  | 0, _ => []
  | fuel + 1, n =>
    if n < 10 then [48 + n]
    else natDecAux fuel (n / 10) ++ [48 + n % 10]

/-- Decimal digits of a natural number, as code points (helper for template
literals and `JSON.stringify`). -/
def natDec (n : Nat) : JStr := natDecAux (n + 1) n

/-- Decimal rendering of an integer (JavaScript `String(n)` for integral
numbers). -/
def intDec (n : Int) : JStr :=
  if n < 0 then 45 :: natDec n.natAbs else natDec n.natAbs

/-! ## The genetic-file parser (`apps/geni-site/src/lib/domain/genetics/parser.ts`)

Data model from `types.ts`. -/

structure SNPData where
  rsid : JStr
  chromosome : JStr
  position : Int
  genotype : JStr
deriving DecidableEq, Repr

abbrev GenotypeMap := List (JStr × SNPData)

inductive FileFormat
  | f23andme
  | ancestry
  | unknown
deriving DecidableEq, Repr

structure TargetStatus where
  found : Bool
  genotype : Option JStr
  line : Option Nat
deriving DecidableEq, Repr

structure ParseDebugInfo where
  sampleLines : List JStr
  sampleSNPs : List JStr
  targetSNPsStatus : List (JStr × TargetStatus)
  totalLines : Nat
  skippedLines : Nat
deriving DecidableEq, Repr

structure ParseResult where
  data : GenotypeMap
  snpCount : Nat
  warnings : List JStr
  format : FileFormat
  debug : ParseDebugInfo
deriving DecidableEq, Repr

def TARGET_SNPS : List JStr :=
  [jstr "rs4988235", jstr "rs762551", jstr "rs671", jstr "rs713598",
   jstr "rs602662", jstr "rs1815739", jstr "rs7181866", jstr "rs1800012",
   jstr "rs679620", jstr "rs2282679", jstr "rs1801260", jstr "rs6265",
   jstr "rs1800795", jstr "rs174546", jstr "rs1801133", jstr "rs1800562"]

/-- `normalizeGenotype` (geni-site `parser.ts`, lines 22–27). -/
def normalizeGenotype (genotype : JStr) : JStr :=
  let upper := jsTrim (jsToUpper genotype)
  if upper.length = 1 then upper ++ upper
  else if upper.length = 2 then sortJs upper
  else upper

/-- The scan inside `detectFormat` over the first 50 lines. -/
def detectFormatGo : List JStr → FileFormat
  | [] => .unknown
  | line :: rest =>
    if jsIncludes (jstr "23andMe") line then .f23andme
    else if jsIncludes (jstr "AncestryDNA") line then .ancestry
    else detectFormatGo rest

/-- `detectFormat` (geni-site `parser.ts`, lines 29–35). -/
def detectFormat (lines : List JStr) : FileFormat :=
  detectFormatGo (lines.take 50)

/-- `parseLine` (geni-site `parser.ts`, lines 37–62).  The caller passes a
trimmed line; the `_lineIndex` parameter of the source is unused. -/
def parseLine (line : JStr) : Option SNPData :=
  if line = [] ∨ jsStartsWith (jstr "#") line then none
  else
    let parts0 := splitOnCharJs 9 line
    let parts := if parts0.length < 4 then splitWsJs line else parts0
    if parts.length < 4 then none
    else
      let rsid := parts.getD 0 []
      let chromosome := parts.getD 1 []
      let positionStr := parts.getD 2 []
      let genotype := parts.getD 3 []
      let rsidLower := jsToLower rsid
      if ¬ jsStartsWith (jstr "rs") rsidLower ∧ ¬ jsStartsWith (jstr "i") rsidLower then
        none
      else
        match jsParseInt positionStr with
        | none => none
        | some position =>
          if genotype = jstr "--" ∨ genotype = jstr "00" ∨ genotype = [] then none
          else
            some { rsid := rsidLower, chromosome := jsToUpper chromosome,
                   position := position, genotype := normalizeGenotype genotype }

/-- The mutable locals of the two parse loops. -/
structure LoopState where
  data : GenotypeMap
  sampleLines : List JStr
  sampleSNPs : List JStr
  targetSNPsStatus : List (JStr × TargetStatus)
  skippedLines : Nat
  is23andMe : Bool
deriving DecidableEq, Repr

/-- The loop locals at entry: empty collections, and `targetSNPsStatus`
initialized to `{ found: false, genotype: null, line: null }` for each of the
target SNPs. -/
def initState : LoopState :=
  { data := [], sampleLines := [], sampleSNPs := [],
    targetSNPsStatus := TARGET_SNPS.map (fun s => (s, ⟨false, none, none⟩)),
    skippedLines := 0, is23andMe := false }

/-- Store a successfully parsed SNP: `data.set`, the `sampleSNPs` probe, and
the target-SNP status update (shared tail of both loop bodies). -/
def storeSNP (st : LoopState) (i : Nat) (snpData : SNPData) : LoopState :=
  let st := { st with data := mapSet st.data snpData.rsid snpData }
  let st := { st with
    sampleSNPs :=
      if st.sampleSNPs.length < 10 then st.sampleSNPs ++ [snpData.rsid]
      else st.sampleSNPs }
  if TARGET_SNPS.contains snpData.rsid then
    { st with
      targetSNPsStatus :=
        mapSet st.targetSNPsStatus snpData.rsid
          ⟨true, some snpData.genotype, some (i + 1)⟩ }
  else st

/-- One iteration of the `parseAncestry` loop (geni-site `parser.ts`,
lines 78–105), on the `i`-th raw line. -/
def ancestryStep (st : LoopState) (p : Nat × JStr) : LoopState :=
  let line := jsTrim p.2
  if line = [] ∨ jsStartsWith (jstr "#") line then
    { st with skippedLines := st.skippedLines + 1 }
  else
    let st := { st with
      sampleLines :=
        if st.sampleLines.length < 5 then st.sampleLines ++ [line]
        else st.sampleLines }
    match parseLine line with
    | none => { st with skippedLines := st.skippedLines + 1 }
    | some snpData => storeSNP st p.1 snpData

/-- `parseAncestry` (geni-site `parser.ts`, lines 64–114). -/
def parseAncestry (fileContent : JStr) : ParseResult :=
  let lines := splitLinesJs fileContent
  let st := (lines.enum).foldl ancestryStep initState
  { data := st.data, snpCount := st.data.length, warnings := [],
    format := .ancestry,
    debug := { sampleLines := st.sampleLines, sampleSNPs := st.sampleSNPs,
               targetSNPsStatus := st.targetSNPsStatus,
               totalLines := lines.length, skippedLines := st.skippedLines } }

/-- One iteration of the `parse23andMe` loop (geni-site `parser.ts`,
lines 131–169): like `ancestryStep`, but a line containing `23andMe` sets the
format flag and is skipped before the comment check. -/
def c23Step (st : LoopState) (p : Nat × JStr) : LoopState :=
  let line := jsTrim p.2
  if line = [] then { st with skippedLines := st.skippedLines + 1 }
  else if jsIncludes (jstr "23andMe") line then
    { st with is23andMe := true, skippedLines := st.skippedLines + 1 }
  else if jsStartsWith (jstr "#") line then
    { st with skippedLines := st.skippedLines + 1 }
  else
    let st := { st with
      sampleLines :=
        if st.sampleLines.length < 5 then st.sampleLines ++ [line]
        else st.sampleLines }
    match parseLine line with
    | none => { st with skippedLines := st.skippedLines + 1 }
    | some snpData => storeSNP st p.1 snpData

/-- `parse23andMe` (geni-site `parser.ts`, lines 116–178). -/
def parse23andMe (fileContent : JStr) : ParseResult :=
  let lines := splitLinesJs fileContent
  let st := (lines.enum).foldl c23Step initState
  { data := st.data, snpCount := st.data.length, warnings := [],
    format := if st.is23andMe then .f23andme else .unknown,
    debug := { sampleLines := st.sampleLines, sampleSNPs := st.sampleSNPs,
               targetSNPsStatus := st.targetSNPsStatus,
               totalLines := lines.length, skippedLines := st.skippedLines } }

/-- `parseGeneticFile` (geni-site `parser.ts`, lines 180–186). -/
def parseGeneticFile (fileContent : JStr) : ParseResult :=
  let lines := splitLinesJs fileContent
  let format := detectFormat lines
  if format = .ancestry then parseAncestry fileContent
  else parse23andMe fileContent

/-- `getSNP` (geni-site `parser.ts`, lines 188–190). -/
def getSNP (map : GenotypeMap) (rsid : JStr) : Option SNPData :=
  mapGet map (jsToLower rsid)

/-- `hasSNP` (geni-site `parser.ts`, lines 192–194). -/
def hasSNP (map : GenotypeMap) (rsid : JStr) : Bool :=
  mapHas map (jsToLower rsid)

/-- `getGenotype` (geni-site `parser.ts`, lines 196–199); `none` models the
`null` result. -/
def getGenotype (map : GenotypeMap) (rsid : JStr) : Option JStr :=
  (getSNP map rsid).map SNPData.genotype

structure SerializedGenotype where
  rsid : JStr
  genotype : JStr
deriving DecidableEq, Repr

/-- `serializeGenotypes` (geni-site `parser.ts`, lines 201–211).  The
`if (genotype)` guard drops both `null` and the empty string. -/
def serializeGenotypes (map : GenotypeMap) (rsids : List JStr) :
    List SerializedGenotype :=
  rsids.filterMap fun rsid =>
    match getGenotype map rsid with
    | none => none
    | some genotype =>
      if genotype = [] then none
      else some { rsid := jsToLower rsid, genotype := genotype }

/-- `deserializeGenotypes` (geni-site `parser.ts`, lines 213–221). -/
def deserializeGenotypes (serialized : List SerializedGenotype) : GenotypeMap :=
  serialized.foldl
    (fun map s =>
      mapSet map s.rsid
        { rsid := s.rsid, chromosome := [], position := 0, genotype := s.genotype })
    []

/-! ## The older parser copy (`apps/geni-web/src/lib/genetics/parser.ts`)

Same data model; its own `TARGET_SNPS`, warnings for invalid positions, and
no `'00'` no-call check. -/

namespace web

def TARGET_SNPS : List JStr := [jstr "rs4988235"]

/-- `normalizeGenotype` (geni-web `parser.ts`, lines 153–169); textually a
copy of the geni-site one. -/
def normalizeGenotype (genotype : JStr) : JStr :=
  let upper := jsTrim (jsToUpper genotype)
  if upper.length = 1 then upper ++ upper
  else if upper.length = 2 then sortJs upper
  else upper

/-- The mutable locals of the geni-web parse loop. -/
structure WLoopState where
  data : GenotypeMap
  warnings : List JStr
  sampleLines : List JStr
  sampleSNPs : List JStr
  targetSNPsStatus : List (JStr × TargetStatus)
  skippedLines : Nat
  is23andMe : Bool
deriving DecidableEq, Repr

def initWState : WLoopState :=
  { data := [], warnings := [], sampleLines := [], sampleSNPs := [],
    targetSNPsStatus := TARGET_SNPS.map (fun s => (s, ⟨false, none, none⟩)),
    skippedLines := 0, is23andMe := false }

/-- One iteration of the geni-web `parse23andMe` loop (geni-web `parser.ts`,
lines 39–131), with the line parsing inlined as in the source. -/
def webStep (st : WLoopState) (p : Nat × JStr) : WLoopState :=
  let i := p.1
  let line := jsTrim p.2
  if line = [] then { st with skippedLines := st.skippedLines + 1 }
  else if jsIncludes (jstr "23andMe") line then
    { st with is23andMe := true, skippedLines := st.skippedLines + 1 }
  else if jsStartsWith (jstr "#") line then
    { st with skippedLines := st.skippedLines + 1 }
  else
    let st := { st with
      sampleLines :=
        if st.sampleLines.length < 5 then st.sampleLines ++ [line]
        else st.sampleLines }
    let parts0 := splitOnCharJs 9 line
    let partsOpt : Option (List JStr) :=
      if parts0.length < 4 then
        let spaceParts := splitWsJs line
        if spaceParts.length ≥ 4 then some spaceParts else none
      else some parts0
    match partsOpt with
    | none => { st with skippedLines := st.skippedLines + 1 }
    | some parts =>
      let rsid := parts.getD 0 []
      let chromosome := parts.getD 1 []
      let positionStr := parts.getD 2 []
      let genotype := parts.getD 3 []
      let rsidLower := jsToLower rsid
      if ¬ jsStartsWith (jstr "rs") rsidLower ∧ ¬ jsStartsWith (jstr "i") rsidLower then
        { st with skippedLines := st.skippedLines + 1 }
      else
        match jsParseInt positionStr with
        | none =>
          { st with
            warnings := st.warnings ++
              [jstr "Invalid position at line " ++ natDec (i + 1) ++ jstr ": " ++ positionStr],
            skippedLines := st.skippedLines + 1 }
        | some position =>
          if genotype = jstr "--" ∨ genotype = [] then
            { st with skippedLines := st.skippedLines + 1 }
          else
            let normalizedGenotype := normalizeGenotype genotype
            let normalizedRsid := jsToLower rsid
            let snpData : SNPData :=
              { rsid := normalizedRsid, chromosome := jsToUpper chromosome,
                position := position, genotype := normalizedGenotype }
            let st := { st with data := mapSet st.data snpData.rsid snpData }
            let st := { st with
              sampleSNPs :=
                if st.sampleSNPs.length < 10 then st.sampleSNPs ++ [normalizedRsid]
                else st.sampleSNPs }
            if TARGET_SNPS.contains normalizedRsid then
              { st with
                targetSNPsStatus :=
                  mapSet st.targetSNPsStatus normalizedRsid
                    ⟨true, some normalizedGenotype, some (i + 1)⟩ }
            else st

/-- `parse23andMe` (geni-web `parser.ts`, lines 20–146). -/
def parse23andMe (fileContent : JStr) : ParseResult :=
  let lines := splitLinesJs fileContent
  let st := (lines.enum).foldl webStep initWState
  { data := st.data, snpCount := st.data.length, warnings := st.warnings,
    format := if st.is23andMe then .f23andme else .unknown,
    debug := { sampleLines := st.sampleLines, sampleSNPs := st.sampleSNPs,
               targetSNPsStatus := st.targetSNPsStatus,
               totalLines := lines.length, skippedLines := st.skippedLines } }

end web

/-! ## Derived views of the parse loops (used to state and prove claims)

These repackage the loop bodies above; each is proved equal to the
corresponding projection of the loop step. -/

/-- The four-column split both parsers perform: tab-separated, falling back to
whitespace-separated when tabs give fewer than four fields. -/
def lineFields (t : JStr) : List JStr :=
  let parts0 := splitOnCharJs 9 t
  if parts0.length < 4 then splitWsJs t else parts0

/-- The raw genotype field of a (trimmed) line, when it has four fields. -/
def rawGenotypeField (t : JStr) : Option JStr :=
  if (lineFields t).length < 4 then none else some ((lineFields t).getD 3 [])

/-- Does the `parseAncestry` loop incorporate this raw line into the map? -/
def keptLineAncestry (l : JStr) : Bool :=
  let t := jsTrim l
  ¬ t = [] ∧ ¬ jsStartsWith (jstr "#") t ∧ (parseLine t).isSome

/-- Does the `parse23andMe` loop incorporate this raw line into the map? -/
def keptLine23 (l : JStr) : Bool :=
  let t := jsTrim l
  ¬ t = [] ∧ ¬ jsIncludes (jstr "23andMe") t ∧ ¬ jsStartsWith (jstr "#") t ∧
    (parseLine t).isSome

/-- The kept-line predicate of the branch `parseGeneticFile` dispatches to. -/
def keptLineFile (fileContent : JStr) (l : JStr) : Bool :=
  if detectFormat (splitLinesJs fileContent) = .ancestry then keptLineAncestry l
  else keptLine23 l

/-- The geni-web loop's line parsing (geni-web `parser.ts`, lines 66–114) as a
pure function of the trimmed line: identical to the geni-site `parseLine`
except that the `'00'` no-call genotype is not excluded.  The blank, `23andMe`
and `#` cases are handled by the loop before this point. -/
def webLineSNP (t : JStr) : Option SNPData :=
  let parts0 := splitOnCharJs 9 t
  let partsOpt : Option (List JStr) :=
    if parts0.length < 4 then
      let spaceParts := splitWsJs t
      if spaceParts.length ≥ 4 then some spaceParts else none
    else some parts0
  match partsOpt with
  | none => none
  | some parts =>
    let rsid := parts.getD 0 []
    let chromosome := parts.getD 1 []
    let positionStr := parts.getD 2 []
    let genotype := parts.getD 3 []
    let rsidLower := jsToLower rsid
    if ¬ jsStartsWith (jstr "rs") rsidLower ∧ ¬ jsStartsWith (jstr "i") rsidLower then
      none
    else
      match jsParseInt positionStr with
      | none => none
      | some position =>
        if genotype = jstr "--" ∨ genotype = [] then none
        else
          some { rsid := rsidLower, chromosome := jsToUpper chromosome,
                 position := position, genotype := normalizeGenotype genotype }

/-- The effect of one loop iteration on the genotype map alone: skip blank
lines, optionally lines containing `23andMe`, and comment lines; otherwise
insert whatever `parse` makes of the trimmed line. -/
def lineDataEffect (parse : JStr → Option SNPData) (skip23 : Bool)
    (d : GenotypeMap) (rawLine : JStr) : GenotypeMap :=
  let t := jsTrim rawLine
  if t = [] then d
  else if skip23 ∧ jsIncludes (jstr "23andMe") t then d
  else if jsStartsWith (jstr "#") t then d
  else
    match parse t with
    | none => d
    | some s => mapSet d s.rsid s

/-! ## The trait rule table (`apps/geni-site/src/lib/domain/genetics/traits.ts`)

Interpretation texts are embedded verbatim as Lean strings; the genotype being
matched stays a `JStr`. -/

inductive ConfidenceLevel
  | high
  | moderate
  | low
deriving DecidableEq, Repr

inductive RiskLevel
  | low
  | optimal
  | high
deriving DecidableEq, Repr

inductive TraitCategory
  | diet
  | fitness
  | wellness
  | supplements
deriving DecidableEq, Repr

/-- `Omit<InsightResult, 'traitId' | 'title' | 'genotype' | 'category'>`: what
an `interpret` rule returns. -/
structure Interpretation where
  summary : String
  confidence : ConfidenceLevel
  confidenceNote : String
  whatToDoNext : List String
  riskLevel : RiskLevel
deriving DecidableEq, Repr

structure InsightResult where
  traitId : String
  title : String
  genotype : JStr
  summary : String
  confidence : ConfidenceLevel
  confidenceNote : String
  whatToDoNext : List String
  riskLevel : RiskLevel
  category : TraitCategory
deriving DecidableEq, Repr

structure TraitDefinition where
  id : String
  title : String
  rsid : JStr
  category : TraitCategory
  interpret : JStr → Option Interpretation

def lactoseTolerance : TraitDefinition :=
  { id := "lactose-tolerance", title := "Lactose Tolerance",
    rsid := jstr "rs4988235", category := .diet,
    interpret := fun genotype =>
      let g := jsToUpper genotype
      if g = jstr "AA" ∨ g = jstr "AG" then
        some { summary := "You likely produce lactase throughout adulthood, meaning you can digest dairy without issues.",
               confidence := .high,
               confidenceNote := "Well-studied genetic variant with strong scientific evidence.",
               whatToDoNext := ["Dairy products should be well-tolerated",
                 "No genetic reason to avoid milk, cheese, or yogurt"],
               riskLevel := .optimal }
      else if g = jstr "GG" then
        some { summary := "You likely stop producing lactase after childhood. Dairy may cause digestive discomfort.",
               confidence := .high,
               confidenceNote := "Well-established genetic association.",
               whatToDoNext := ["Consider lactose-free alternatives", "Lactase supplements can help",
                 "Fermented dairy may be better tolerated"],
               riskLevel := .high }
      else none }

def caffeineMetabolism : TraitDefinition :=
  { id := "caffeine-metabolism", title := "Caffeine Metabolism",
    rsid := jstr "rs762551", category := .diet,
    interpret := fun genotype =>
      let g := jsToUpper genotype
      if g = jstr "AA" then
        some { summary := "You are a fast caffeine metabolizer. Coffee is cleared quickly from your system.",
               confidence := .high,
               confidenceNote := "CYP1A2 gene variant well-studied for caffeine processing.",
               whatToDoNext := ["Moderate coffee intake generally safe", "Less likely to experience jitters",
                 "May need more caffeine for alertness effect"],
               riskLevel := .optimal }
      else if g = jstr "AC" ∨ g = jstr "CC" then
        some { summary := "You are a slow caffeine metabolizer. Caffeine stays in your system longer.",
               confidence := .high,
               confidenceNote := "Strong evidence linking this variant to slower caffeine clearance.",
               whatToDoNext := ["Limit caffeine intake, especially afternoon",
                 "May experience more anxiety from coffee", "Consider switching to half-caf or decaf"],
               riskLevel := if g = jstr "CC" then .high else .low }
      else none }

def alcoholFlush : TraitDefinition :=
  { id := "alcohol-flush", title := "Alcohol Flush Reaction",
    rsid := jstr "rs671", category := .diet,
    interpret := fun genotype =>
      let g := jsToUpper genotype
      if g = jstr "GG" then
        some { summary := "You have normal ALDH2 enzyme activity. Less likely to experience alcohol flush.",
               confidence := .high,
               confidenceNote := "ALDH2 variant well-documented in alcohol metabolism.",
               whatToDoNext := ["Normal alcohol metabolism expected", "Standard drinking guidelines apply",
                 "Stay mindful of overall alcohol consumption"],
               riskLevel := .optimal }
      else if g = jstr "AG" ∨ g = jstr "AA" then
        some { summary := "You may experience facial flushing when drinking alcohol due to reduced ALDH2 activity.",
               confidence := .high,
               confidenceNote := "Strong genetic association with Asian flush reaction.",
               whatToDoNext := ["Limit alcohol consumption",
                 "Increased risk of esophageal issues with heavy drinking",
                 "Consider avoiding alcohol or drinking very moderately"],
               riskLevel := if g = jstr "AA" then .high else .low }
      else none }

def bitterTaste : TraitDefinition :=
  { id := "bitter-taste", title := "Bitter Taste Sensitivity",
    rsid := jstr "rs713598", category := .diet,
    interpret := fun genotype =>
      let g := jsToUpper genotype
      if g = jstr "CC" then
        some { summary := "You are likely a \"supertaster\" who perceives bitter compounds strongly.",
               confidence := .moderate,
               confidenceNote := "TAS2R38 gene influences perception of bitter compounds like PTC.",
               whatToDoNext := ["May dislike cruciferous vegetables naturally",
                 "Try cooking methods that reduce bitterness", "Dark leafy greens may taste very bitter"],
               riskLevel := .low }
      else if g = jstr "CG" ∨ g = jstr "GG" then
        some { summary := "You have reduced bitter taste sensitivity compared to supertasters.",
               confidence := .moderate,
               confidenceNote := "Associated with lower sensitivity to bitter compounds.",
               whatToDoNext := ["Bitter vegetables may be more palatable", "Can enjoy a wider range of foods",
                 "May need to be mindful of sugar intake"],
               riskLevel := .optimal }
      else none }

def vitaminB12 : TraitDefinition :=
  { id := "vitamin-b12", title := "Vitamin B12 Absorption",
    rsid := jstr "rs602662", category := .diet,
    interpret := fun genotype =>
      let g := jsToUpper genotype
      if g = jstr "GG" then
        some { summary := "You likely have optimal B12 absorption from dietary sources.",
               confidence := .moderate,
               confidenceNote := "FUT2 gene affects B12 bioavailability.",
               whatToDoNext := ["Standard B12 intake should be sufficient",
                 "Good sources: meat, fish, dairy, eggs", "Annual blood test can confirm levels"],
               riskLevel := .optimal }
      else if g = jstr "AG" ∨ g = jstr "AA" then
        some { summary := "You may have reduced B12 absorption from food sources.",
               confidence := .moderate,
               confidenceNote := "Associated with lower circulating B12 levels.",
               whatToDoNext := ["Consider B12 supplementation", "Get B12 levels tested regularly",
                 "Sublingual or injectable B12 may be more effective"],
               riskLevel := if g = jstr "AA" then .high else .low }
      else none }

def muscleFiberType : TraitDefinition :=
  { id := "muscle-fiber-type", title := "Muscle Fiber Type",
    rsid := jstr "rs1815739", category := .fitness,
    interpret := fun genotype =>
      let g := jsToUpper genotype
      if g = jstr "CC" then
        some { summary := "You likely have more fast-twitch muscle fibers, favoring power and sprint activities.",
               confidence := .high,
               confidenceNote := "ACTN3 R577X variant well-studied in athletic performance.",
               whatToDoNext := ["May excel at sprinting, jumping, weightlifting",
                 "Focus on explosive power training", "Recovery between intense sets important"],
               riskLevel := .optimal }
      else if g = jstr "CT" then
        some { summary := "You have a mix of muscle fiber types, suited for varied activities.",
               confidence := .high,
               confidenceNote := "Intermediate ACTN3 expression.",
               whatToDoNext := ["Versatile athletic potential", "Can train for both power and endurance",
                 "Listen to your body for best results"],
               riskLevel := .optimal }
      else if g = jstr "TT" then
        some { summary := "You likely have more slow-twitch fibers, favoring endurance activities.",
               confidence := .high,
               confidenceNote := "No functional alpha-actinin-3 protein.",
               whatToDoNext := ["May excel at running, cycling, swimming",
                 "Endurance training may feel natural", "Building explosive power may require more focus"],
               riskLevel := .optimal }
      else none }

def endurancePotential : TraitDefinition :=
  { id := "endurance-potential", title := "Endurance vs Power",
    rsid := jstr "rs7181866", category := .fitness,
    interpret := fun genotype =>
      let g := jsToUpper genotype
      if g = jstr "GG" then
        some { summary := "Your genetics suggest a tendency toward endurance-type performance.",
               confidence := .moderate,
               confidenceNote := "Associated with aerobic capacity markers.",
               whatToDoNext := ["Consider endurance sports like running or cycling",
                 "Zone 2 training may be especially effective", "Build aerobic base before intensity"],
               riskLevel := .optimal }
      else if g = jstr "AG" ∨ g = jstr "AA" then
        some { summary := "Your genetics suggest balanced or power-leaning athletic traits.",
               confidence := .moderate,
               confidenceNote := "Mixed endurance/power genetic indicators.",
               whatToDoNext := ["Experiment with different training styles", "HIIT may work well for you",
                 "Strength training can complement cardio"],
               riskLevel := .optimal }
      else none }

def recoverySpeed : TraitDefinition :=
  { id := "recovery-speed", title := "Recovery Speed",
    rsid := jstr "rs1800012", category := .fitness,
    interpret := fun genotype =>
      let g := jsToUpper genotype
      if g = jstr "GG" then
        some { summary := "You likely have standard collagen production supporting normal recovery.",
               confidence := .moderate,
               confidenceNote := "COL1A1 gene affects connective tissue.",
               whatToDoNext := ["Standard rest between workouts sufficient", "Include mobility work in routine",
                 "Adequate protein supports recovery"],
               riskLevel := .optimal }
      else if g = jstr "AG" ∨ g = jstr "AA" then
        some { summary := "You may have slightly reduced collagen integrity, potentially affecting recovery.",
               confidence := .moderate,
               confidenceNote := "Associated with altered collagen structure.",
               whatToDoNext := ["Prioritize adequate rest between intense sessions",
                 "Consider collagen supplementation", "Focus on proper warm-up and cool-down"],
               riskLevel := .low }
      else none }

def achillesInjuryRisk : TraitDefinition :=
  { id := "achilles-injury-risk", title := "Achilles Tendon Risk",
    rsid := jstr "rs679620", category := .fitness,
    interpret := fun genotype =>
      let g := jsToUpper genotype
      if g = jstr "AA" then
        some { summary := "You have a lower genetic risk for Achilles tendon injuries.",
               confidence := .moderate,
               confidenceNote := "MMP3 gene variant linked to tendon injury risk.",
               whatToDoNext := ["Standard injury prevention applies", "Still warm up thoroughly",
                 "Eccentric exercises good for tendon health"],
               riskLevel := .optimal }
      else if g = jstr "AG" ∨ g = jstr "GG" then
        some { summary := "You may have elevated risk for Achilles tendon issues.",
               confidence := .moderate,
               confidenceNote := "Associated with altered matrix metalloproteinase activity.",
               whatToDoNext := ["Extra attention to calf stretching", "Gradual training load increases",
                 "Consider heel drops for tendon strengthening"],
               riskLevel := if g = jstr "GG" then .high else .low }
      else none }

def vitaminDLevels : TraitDefinition :=
  { id := "vitamin-d-levels", title := "Vitamin D Levels",
    rsid := jstr "rs2282679", category := .wellness,
    interpret := fun genotype =>
      let g := jsToUpper genotype
      if g = jstr "GG" then
        some { summary := "You likely maintain healthy vitamin D levels more easily.",
               confidence := .high,
               confidenceNote := "GC gene variant affects vitamin D binding protein.",
               whatToDoNext := ["Standard sun exposure and diet may suffice", "Still get levels tested annually",
                 "Fatty fish and fortified foods are good sources"],
               riskLevel := .optimal }
      else if g = jstr "GT" ∨ g = jstr "TT" then
        some { summary := "You may have lower baseline vitamin D levels and need more attention to intake.",
               confidence := .high,
               confidenceNote := "Strong association with lower circulating vitamin D.",
               whatToDoNext := ["Get vitamin D levels tested",
                 "Consider D3 supplementation (2000-4000 IU daily)", "More sun exposure may be needed"],
               riskLevel := if g = jstr "TT" then .high else .low }
      else none }

def sleepDepth : TraitDefinition :=
  { id := "sleep-depth", title := "Sleep Quality",
    rsid := jstr "rs1801260", category := .wellness,
    interpret := fun genotype =>
      let g := jsToUpper genotype
      if g = jstr "AA" then
        some { summary := "You likely have a natural tendency for earlier sleep-wake cycles.",
               confidence := .moderate,
               confidenceNote := "CLOCK gene influences circadian rhythm.",
               whatToDoNext := ["Morning person tendencies likely", "Align schedule with natural rhythm",
                 "Avoid late-night activities when possible"],
               riskLevel := .optimal }
      else if g = jstr "AG" ∨ g = jstr "GG" then
        some { summary := "You may naturally lean toward later sleep times (night owl tendency).",
               confidence := .moderate,
               confidenceNote := "Associated with evening chronotype.",
               whatToDoNext := ["May function better with later schedule",
                 "Light exposure in morning helps reset rhythm", "Consistent sleep schedule important"],
               riskLevel := .optimal }
      else none }

def stressResponse : TraitDefinition :=
  { id := "stress-response", title := "Stress Response",
    rsid := jstr "rs6265", category := .wellness,
    interpret := fun genotype =>
      let g := jsToUpper genotype
      if g = jstr "CC" then
        some { summary := "You have the Val/Val variant associated with better stress resilience.",
               confidence := .moderate,
               confidenceNote := "BDNF Val66Met variant affects brain plasticity.",
               whatToDoNext := ["Generally good stress coping", "Exercise enhances BDNF benefits",
                 "Maintain healthy lifestyle for best function"],
               riskLevel := .optimal }
      else if g = jstr "CT" ∨ g = jstr "TT" then
        some { summary := "You carry the Met variant, which may affect stress resilience and memory.",
               confidence := .moderate,
               confidenceNote := "Associated with altered BDNF secretion.",
               whatToDoNext := ["Prioritize stress management techniques",
                 "Regular exercise especially important", "Meditation and mindfulness beneficial"],
               riskLevel := if g = jstr "TT" then .low else .optimal }
      else none }

def inflammationTendency : TraitDefinition :=
  { id := "inflammation-tendency", title := "Inflammation Response",
    rsid := jstr "rs1800795", category := .wellness,
    interpret := fun genotype =>
      let g := jsToUpper genotype
      if g = jstr "GG" then
        some { summary := "You may have higher baseline IL-6 levels, associated with more inflammation.",
               confidence := .moderate,
               confidenceNote := "IL-6 gene promoter variant affects cytokine production.",
               whatToDoNext := ["Anti-inflammatory diet beneficial", "Regular exercise reduces inflammation",
                 "Omega-3s and turmeric may help"],
               riskLevel := .high }
      else if g = jstr "CG" ∨ g = jstr "CC" then
        some { summary := "You likely have lower baseline inflammatory markers.",
               confidence := .moderate,
               confidenceNote := "Associated with reduced IL-6 production.",
               whatToDoNext := ["Lower genetic inflammation risk", "Still maintain anti-inflammatory habits",
                 "Regular exercise and good sleep help"],
               riskLevel := .optimal }
      else none }

def omega3Conversion : TraitDefinition :=
  { id := "omega3-conversion", title := "Omega-3 Conversion",
    rsid := jstr "rs174546", category := .supplements,
    interpret := fun genotype =>
      let g := jsToUpper genotype
      if g = jstr "CC" then
        some { summary := "You efficiently convert plant omega-3s (ALA) to active forms (EPA/DHA).",
               confidence := .high,
               confidenceNote := "FADS1 gene variant affects fatty acid desaturase activity.",
               whatToDoNext := ["Plant sources like flax and chia beneficial",
                 "Fish oil still helpful but less critical",
                 "Balanced omega-6 to omega-3 ratio important"],
               riskLevel := .optimal }
      else if g = jstr "CT" ∨ g = jstr "TT" then
        some { summary := "You have reduced ability to convert plant omega-3s to EPA/DHA.",
               confidence := .high,
               confidenceNote := "Lower desaturase enzyme activity.",
               whatToDoNext := ["Direct EPA/DHA sources important (fish, algae oil)",
                 "Consider fish oil or algae-based supplements", "Plant omega-3s alone may not suffice"],
               riskLevel := if g = jstr "TT" then .high else .low }
      else none }

def folateMetabolism : TraitDefinition :=
  { id := "folate-metabolism", title := "Folate Metabolism (MTHFR)",
    rsid := jstr "rs1801133", category := .supplements,
    interpret := fun genotype =>
      let g := jsToUpper genotype
      if g = jstr "GG" then
        some { summary := "You have normal MTHFR enzyme function for folate processing.",
               confidence := .high,
               confidenceNote := "C677T variant well-studied for methylation.",
               whatToDoNext := ["Standard folic acid supplementation works",
                 "Leafy greens provide good folate", "No special methylfolate needed"],
               riskLevel := .optimal }
      else if g = jstr "AG" then
        some { summary := "You have one copy of reduced MTHFR function (about 65% activity).",
               confidence := .high,
               confidenceNote := "Heterozygous C677T.",
               whatToDoNext := ["Methylfolate may be more effective than folic acid",
                 "Eat plenty of leafy greens", "B12 also important for methylation"],
               riskLevel := .low }
      else if g = jstr "AA" then
        some { summary := "You have two copies of reduced MTHFR function (about 30% activity).",
               confidence := .high,
               confidenceNote := "Homozygous C677T significantly reduces enzyme activity.",
               whatToDoNext := ["Methylfolate (5-MTHF) recommended over folic acid",
                 "Consider B-complex with active forms", "Get homocysteine levels tested"],
               riskLevel := .high }
      else none }

def ironAbsorption : TraitDefinition :=
  { id := "iron-absorption", title := "Iron Absorption (HFE)",
    rsid := jstr "rs1800562", category := .supplements,
    interpret := fun genotype =>
      let g := jsToUpper genotype
      if g = jstr "GG" then
        some { summary := "You have normal iron absorption regulation.",
               confidence := .high,
               confidenceNote := "HFE C282Y variant affects iron homeostasis.",
               whatToDoNext := ["Standard iron intake guidelines apply", "Get ferritin tested if fatigued",
                 "Vitamin C enhances iron absorption"],
               riskLevel := .optimal }
      else if g = jstr "AG" then
        some { summary := "You carry one copy of a variant associated with increased iron absorption.",
               confidence := .high,
               confidenceNote := "Heterozygous for hemochromatosis variant.",
               whatToDoNext := ["Monitor ferritin levels periodically", "Avoid unnecessary iron supplements",
                 "Blood donation can help if levels high"],
               riskLevel := .low }
      else if g = jstr "AA" then
        some { summary := "You have genetic risk for iron overload (hereditary hemochromatosis).",
               confidence := .high,
               confidenceNote := "Homozygous C282Y strongly associated with iron overload.",
               whatToDoNext := ["Get iron panel and ferritin tested",
                 "Avoid iron supplements and fortified foods",
                 "Regular blood donation often recommended", "Consult with doctor about monitoring"],
               riskLevel := .high }
      else none }

/-- The `TRAITS` record, as an association list in declaration order. -/
def TRAITS : List (String × TraitDefinition) :=
  [("lactose-tolerance", lactoseTolerance),
   ("caffeine-metabolism", caffeineMetabolism),
   ("alcohol-flush", alcoholFlush),
   ("bitter-taste", bitterTaste),
   ("vitamin-b12", vitaminB12),
   ("muscle-fiber-type", muscleFiberType),
   ("endurance-potential", endurancePotential),
   ("recovery-speed", recoverySpeed),
   ("achilles-injury-risk", achillesInjuryRisk),
   ("vitamin-d-levels", vitaminDLevels),
   ("sleep-depth", sleepDepth),
   ("stress-response", stressResponse),
   ("inflammation-tendency", inflammationTendency),
   ("omega3-conversion", omega3Conversion),
   ("folate-metabolism", folateMetabolism),
   ("iron-absorption", ironAbsorption)]

def TRAIT_ORDER : List String :=
  ["lactose-tolerance", "caffeine-metabolism", "alcohol-flush", "bitter-taste",
   "vitamin-b12", "muscle-fiber-type", "endurance-potential", "recovery-speed",
   "achilles-injury-risk", "vitamin-d-levels", "sleep-depth", "stress-response",
   "inflammation-tendency", "omega3-conversion", "folate-metabolism",
   "iron-absorption"]

/-- Property access `TRAITS[traitId]`. -/
def getTrait (traitId : String) : Option TraitDefinition :=
  (TRAITS.find? (fun p => p.1 = traitId)).map Prod.snd

/-- `analyzeTrait` (`traits.ts`, lines 678–695); `if (!genotype)` drops both
`null` and the empty string. -/
def analyzeTrait (genotypeMap : GenotypeMap) (traitId : String) : Option InsightResult :=
  match getTrait traitId with
  | none => none
  | some trait =>
    match getGenotype genotypeMap trait.rsid with
    | none => none
    | some genotype =>
      if genotype = [] then none
      else
        match trait.interpret genotype with
        | none => none
        | some interpretation =>
          some { traitId := trait.id, title := trait.title, genotype := genotype,
                 category := trait.category,
                 summary := interpretation.summary,
                 confidence := interpretation.confidence,
                 confidenceNote := interpretation.confidenceNote,
                 whatToDoNext := interpretation.whatToDoNext,
                 riskLevel := interpretation.riskLevel }

/-- `analyzeAllTraits` (`traits.ts`, lines 697–704): the accumulation loop
over `TRAIT_ORDER`. -/
def analyzeAllTraits (genotypeMap : GenotypeMap) : List InsightResult :=
  TRAIT_ORDER.foldl
    (fun results traitId =>
      match analyzeTrait genotypeMap traitId with
      | some result => results ++ [result]
      | none => results)
    []

/-! ## Byte-string codecs (base64 and UTF-8)

Node `Buffer` conversions used by `crypto.ts` and `jwt.server.ts`.  Bytes are
`Nat`s below 256; encoders are defined chunk-wise so that concrete instances
reduce in the kernel. -/

/-- The standard base64 alphabet, as code points. -/
def b64Alphabet : JStr :=
  ((List.range 26).map (fun i => 65 + i)) ++ ((List.range 26).map (fun i => 97 + i)) ++
    ((List.range 10).map (fun i => 48 + i)) ++ [43, 47]

/-- The `i`-th base64 alphabet character. -/
def b64Char (i : Nat) : Nat := b64Alphabet.getD i 65

/-- `buf.toString('base64')`: three bytes per four characters, `=`-padded. -/
def b64Encode : List Nat → JStr
  | [] => []
  | [a] => [b64Char (a / 4), b64Char (a % 4 * 16), 61, 61]
  | [a, b] => [b64Char (a / 4), b64Char (a % 4 * 16 + b / 16), b64Char (b % 16 * 4), 61]
  | a :: b :: c :: rest =>
    [b64Char (a / 4), b64Char (a % 4 * 16 + b / 16), b64Char (b % 16 * 4 + c / 64),
     b64Char (c % 64)] ++ b64Encode rest

/-- The sextet value of a base64 character.  Node's decoder accepts both the
standard and the url-safe alphabet and skips everything else (including
padding). -/
def b64SextetOf (c : Nat) : Option Nat :=
  if 65 ≤ c ∧ c ≤ 90 then some (c - 65)
  else if 97 ≤ c ∧ c ≤ 122 then some (c - 71)
  else if 48 ≤ c ∧ c ≤ 57 then some (c + 4)
  else if c = 43 ∨ c = 45 then some 62
  else if c = 47 ∨ c = 95 then some 63
  else none

/-- Regroup sextets into bytes, dropping a trailing partial byte. -/
def b64Quads : List Nat → List Nat
  | x :: y :: z :: w :: rest =>
    (x * 4 + y / 16) :: (y % 16 * 16 + z / 4) :: (z % 4 * 64 + w) :: b64Quads rest
  | [x, y] => [x * 4 + y / 16]
  | [x, y, z] => [x * 4 + y / 16, y % 16 * 16 + z / 4]
  | _ => []

/-- `Buffer.from(s, 'base64')`. -/
def b64Decode (s : JStr) : List Nat := b64Quads (s.filterMap b64SextetOf)

/-- The character rewriting of `base64UrlEncode` (`jwt.server.ts`,
lines 23–29): `+ → -`, `/ → _`, `=` removed. -/
def urlOfB64Char (c : Nat) : Option Nat :=
  if c = 61 then none
  else some (if c = 43 then 45 else if c = 47 then 95 else c)

/-- The character rewriting of `base64UrlDecode` (`jwt.server.ts`, line 32):
`- → +`, `_ → /`. -/
def b64OfUrlChar (c : Nat) : Nat :=
  if c = 45 then 43 else if c = 95 then 47 else c

/-- The url-safe rewriting with `=` stripped, as performed character-wise by
`base64UrlEncode` in `jwt.server.ts`. -/
def b64UrlOfBytes (l : List Nat) : JStr :=
  (b64Encode l).filterMap urlOfB64Char

/-- The inverse rewriting plus re-padding of `base64UrlDecode`
(`jwt.server.ts`, lines 31–36), down to bytes. -/
def b64UrlDecodeBytes (s : JStr) : List Nat :=
  let base64 := s.map b64OfUrlChar
  let padding := 4 - base64.length % 4
  let padded := if padding ≠ 4 then base64 ++ List.replicate padding 61 else base64
  b64Decode padded

/-! ### UTF-8 -/

/-- UTF-8 encoding of one Unicode scalar value. -/
def utf8EncodeChar (c : Nat) : List Nat :=
  if c < 0x80 then [c]
  else if c < 0x800 then [192 + c / 64, 128 + c % 64]
  else if c < 0x10000 then [224 + c / 4096, 128 + c / 64 % 64, 128 + c % 64]
  else [240 + c / 0x40000, 128 + c / 4096 % 64, 128 + c / 64 % 64, 128 + c % 64]

/-- `Buffer.from(s, 'utf-8')`: the UTF-8 bytes of a string's scalars. -/
def utf8Encode (s : JStr) : List Nat := s.flatMap utf8EncodeChar

/-- Strict UTF-8 decoding (overlong forms, surrogates and out-of-range
scalars rejected); `none` models a buffer that is not valid UTF-8. -/
def utf8DecodeF : Nat → List Nat → Option JStr
  | _, [] => some []
  | 0, _ :: _ => none
  | fuel + 1, b :: rest =>
    if b < 0x80 then (utf8DecodeF fuel rest).map (fun t => b :: t)
    else if 0xC2 ≤ b ∧ b < 0xE0 then
      match rest with
      | b2 :: r2 =>
        if 0x80 ≤ b2 ∧ b2 < 0xC0 then
          (utf8DecodeF fuel r2).map (fun t => ((b - 0xC0) * 64 + (b2 - 0x80)) :: t)
        else none
      | [] => none
    else if 0xE0 ≤ b ∧ b < 0xF0 then
      match rest with
      | b2 :: b3 :: r3 =>
        if 0x80 ≤ b2 ∧ b2 < 0xC0 ∧ 0x80 ≤ b3 ∧ b3 < 0xC0 then
          if 0x800 ≤ (b - 0xE0) * 4096 + (b2 - 0x80) * 64 + (b3 - 0x80) ∧
              ¬ (0xD800 ≤ (b - 0xE0) * 4096 + (b2 - 0x80) * 64 + (b3 - 0x80) ∧
                 (b - 0xE0) * 4096 + (b2 - 0x80) * 64 + (b3 - 0x80) ≤ 0xDFFF) then
            (utf8DecodeF fuel r3).map
              (fun t => ((b - 0xE0) * 4096 + (b2 - 0x80) * 64 + (b3 - 0x80)) :: t)
          else none
        else none
      | _ => none
    else if 0xF0 ≤ b ∧ b < 0xF5 then
      match rest with
      | b2 :: b3 :: b4 :: r4 =>
        if 0x80 ≤ b2 ∧ b2 < 0xC0 ∧ 0x80 ≤ b3 ∧ b3 < 0xC0 ∧ 0x80 ≤ b4 ∧ b4 < 0xC0 then
          if 0x10000 ≤ (b - 0xF0) * 0x40000 + (b2 - 0x80) * 4096 + (b3 - 0x80) * 64 +
                (b4 - 0x80) ∧
              (b - 0xF0) * 0x40000 + (b2 - 0x80) * 4096 + (b3 - 0x80) * 64 +
                (b4 - 0x80) < 0x110000 then
            (utf8DecodeF fuel r4).map
              (fun t => ((b - 0xF0) * 0x40000 + (b2 - 0x80) * 4096 + (b3 - 0x80) * 64 +
                (b4 - 0x80)) :: t)
          else none
        else none
      | _ => none
    else none

def utf8Decode (l : List Nat) : Option JStr := utf8DecodeF l.length l

/-- A valid Unicode scalar value (in range, not a surrogate). -/
def validScalar (c : Nat) : Prop := c < 0x110000 ∧ ¬ (0xD800 ≤ c ∧ c ≤ 0xDFFF)

instance (c : Nat) : Decidable (validScalar c) := by
  unfold validScalar
  infer_instance

/-! ## JSON (`JSON.stringify` / `JSON.parse` as used by the crypto and JWT code)

JSON values are modelled by a single inductive with its own list spine
(`arrNil`/`arrCons`, `objNil`/`objCons`), so that all functions over it are
plain structural recursions.  Numbers are integers: the only numbers this
code base ever serializes or parses are the integral `iat`/`exp` timestamps
and SNP positions. -/

inductive Json where
  | null : Json
  | bool (b : Bool) : Json
  | num (n : Int) : Json
  | str (s : JStr) : Json
  | arrNil : Json
  | arrCons (hd tl : Json) : Json
  | objNil : Json
  | objCons (k : JStr) (v tl : Json) : Json
deriving DecidableEq

/-- Code points of the two-digit lowercase hex used in `\u00XX` escapes. -/
def hexDigit (n : Nat) : Nat := if n < 10 then 48 + n else 87 + n

/-- `JSON.stringify` escaping of one string character. -/
def jsonEscapeChar (c : Nat) : JStr :=
  if c = 34 then [92, 34]
  else if c = 92 then [92, 92]
  else if c = 8 then [92, 98]
  else if c = 9 then [92, 116]
  else if c = 10 then [92, 110]
  else if c = 12 then [92, 102]
  else if c = 13 then [92, 114]
  else if c < 32 then [92, 117, 48, 48, hexDigit (c / 16), hexDigit (c % 16)]
  else [c]

/-- A JSON string literal: quote, escaped characters, quote. -/
def jsonStrLit (s : JStr) : JStr := 34 :: (s.flatMap jsonEscapeChar ++ [34])

/-- `JSON.stringify` (no spacing argument, hence no whitespace).  `tail = false`
serializes a value; `tail = true` serializes the continuation of an array or
object chain, emitting the separating comma and the closing bracket. -/
def jsonStr : Bool → Json → JStr
  | false, .null => [110, 117, 108, 108]
  | false, .bool true => [116, 114, 117, 101]
  | false, .bool false => [102, 97, 108, 115, 101]
  | false, .num n => intDec n
  | false, .str s => jsonStrLit s
  | false, .arrNil => [91, 93]
  | false, .arrCons hd tl => 91 :: (jsonStr false hd ++ jsonStr true tl)
  | false, .objNil => [123, 125]
  | false, .objCons k v tl =>
    123 :: (jsonStrLit k ++ 58 :: (jsonStr false v ++ jsonStr true tl))
  | true, .arrNil => [93]
  | true, .arrCons hd tl => 44 :: (jsonStr false hd ++ jsonStr true tl)
  | true, .objNil => [125]
  | true, .objCons k v tl =>
    44 :: (jsonStrLit k ++ 58 :: (jsonStr false v ++ jsonStr true tl))
  | true, _ => []

def jsonStringify (j : Json) : JStr := jsonStr false j

/-- Well-formed JSON values in a given mode (`0` value, `1` array tail,
`2` object tail): chain spines are properly terminated and every string is a
sequence of Unicode scalar values. -/
def jsonValidM : Nat → Json → Bool
  | 0, .null => true
  | 0, .bool _ => true
  | 0, .num _ => true
  | 0, .str s => s.all (fun c => decide (validScalar c))
  | 0, .arrNil => true
  | 0, .objNil => true
  | 0, .arrCons hd tl => jsonValidM 0 hd && jsonValidM 1 tl
  | 0, .objCons k v tl =>
    k.all (fun c => decide (validScalar c)) && jsonValidM 0 v && jsonValidM 2 tl
  | 1, .arrNil => true
  | 1, .arrCons hd tl => jsonValidM 0 hd && jsonValidM 1 tl
  | 2, .objNil => true
  | 2, .objCons k v tl =>
    k.all (fun c => decide (validScalar c)) && jsonValidM 0 v && jsonValidM 2 tl
  | _, _ => false

def jsonValid (j : Json) : Bool := jsonValidM 0 j

/-- The JSON whitespace characters skipped by `JSON.parse`. -/
def isJsonWs (c : Nat) : Bool := c == 32 || c == 9 || c == 10 || c == 13

def skipWs (s : JStr) : JStr := s.dropWhile isJsonWs

/-- Value of a hex digit, `16` when the character is not one. -/
def hexVal (c : Nat) : Nat :=
  if 48 ≤ c ∧ c ≤ 57 then c - 48
  else if 97 ≤ c ∧ c ≤ 102 then c - 87
  else if 65 ≤ c ∧ c ≤ 70 then c - 55
  else 16

/-- Parse the body of a JSON string literal (after the opening quote) up to and
including the closing quote; raw control characters and stray backslashes are
rejected, as in `JSON.parse`. -/
def pStrF : Nat → JStr → Option (JStr × JStr)
  | 0, _ => none
  | _ + 1, [] => none
  | fuel + 1, c :: r =>
    if c = 34 then some ([], r)
    else if c = 92 then
      match r with
      | [] => none
      | e :: r1 =>
        if e = 34 ∨ e = 92 ∨ e = 47 then (pStrF fuel r1).map (fun p => (e :: p.1, p.2))
        else if e = 98 then (pStrF fuel r1).map (fun p => (8 :: p.1, p.2))
        else if e = 102 then (pStrF fuel r1).map (fun p => (12 :: p.1, p.2))
        else if e = 110 then (pStrF fuel r1).map (fun p => (10 :: p.1, p.2))
        else if e = 114 then (pStrF fuel r1).map (fun p => (13 :: p.1, p.2))
        else if e = 116 then (pStrF fuel r1).map (fun p => (9 :: p.1, p.2))
        else if e = 117 then
          match r1 with
          | h1 :: h2 :: h3 :: h4 :: r2 =>
            if hexVal h1 < 16 ∧ hexVal h2 < 16 ∧ hexVal h3 < 16 ∧ hexVal h4 < 16 then
              (pStrF fuel r2).map (fun p =>
                ((hexVal h1 * 4096 + hexVal h2 * 256 + hexVal h3 * 16 + hexVal h4) :: p.1,
                 p.2))
            else none
          | _ => none
        else none
    else if c < 32 then none
    else (pStrF fuel r).map (fun p => (c :: p.1, p.2))

def pStr (s : JStr) : Option (JStr × JStr) := pStrF (s.length + 1) s

/-- Longest prefix of decimal digits. -/
def spanDigits : JStr → JStr × JStr
  | [] => ([], [])
  | c :: r =>
    if isDigitCp c then
      match spanDigits r with
      | (a, b) => (c :: a, b)
    else ([], c :: r)

/-- Value of a string of decimal digits. -/
def digitsVal (s : JStr) : Nat := s.foldl (fun v d => v * 10 + (d - 48)) 0

/-- Whether a string starts with a decimal digit. -/
def digitLead : JStr → Bool
  | [] => false
  | d :: _ => isDigitCp d

/-- Parse a JSON natural-number literal (no leading zeros, per the JSON
grammar). -/
def pNat : JStr → Option (Nat × JStr)
  | [] => none
  | c :: r =>
    if c = 48 then if digitLead r then none else some (0, r)
    else if isDigitCp c then
      match spanDigits (c :: r) with
      | (a, b) => some (digitsVal a, b)
    else none

/-- Parse a JSON (integer) number literal. -/
def pNum : JStr → Option (Json × JStr)
  | [] => none
  | c :: r =>
    if c = 45 then (pNat r).map (fun p => (.num (-(p.1 : Int)), p.2))
    else (pNat (c :: r)).map (fun p => (.num (p.1 : Int), p.2))

/-- Fueled `JSON.parse` grammar: `mode 0` parses one value, `mode 1` parses the
items of an array (positioned at the first item), `mode 2` the members of an
object (positioned at the first key).  Fuel bounds the nesting recursion. -/
def pJ : Nat → Nat → JStr → Option (Json × JStr)
  | 0, _, _ => none
  | fuel + 1, 0, s =>
    match skipWs s with
    | [] => none
    | c :: r =>
      if c = 110 then
        (match r with | 117 :: 108 :: 108 :: r2 => some (.null, r2) | _ => none)
      else if c = 116 then
        (match r with | 114 :: 117 :: 101 :: r2 => some (.bool true, r2) | _ => none)
      else if c = 102 then
        (match r with | 97 :: 108 :: 115 :: 101 :: r2 => some (.bool false, r2) | _ => none)
      else if c = 34 then (pStr r).map (fun p => (.str p.1, p.2))
      else if c = 91 then
        (if (skipWs r).head? = some 93 then some (.arrNil, (skipWs r).tail)
         else pJ fuel 1 (skipWs r))
      else if c = 123 then
        (if (skipWs r).head? = some 125 then some (.objNil, (skipWs r).tail)
         else pJ fuel 2 (skipWs r))
      else if c = 45 ∨ isDigitCp c then pNum (c :: r)
      else none
  | fuel + 1, 1, s =>
    match pJ fuel 0 s with
    | some (v, r) =>
      (match skipWs r with
       | [] => none
       | c :: r2 =>
         if c = 44 then (pJ fuel 1 r2).map (fun p => (.arrCons v p.1, p.2))
         else if c = 93 then some (.arrCons v .arrNil, r2)
         else none)
    | none => none
  | fuel + 1, _, s =>
    match skipWs s with
    | [] => none
    | c :: r =>
      if c = 34 then
        (match pStr r with
         | some (k, r1) =>
           (match skipWs r1 with
            | [] => none
            | c2 :: r2 =>
              if c2 = 58 then
                (match pJ fuel 0 r2 with
                 | some (v, r3) =>
                   (match skipWs r3 with
                    | [] => none
                    | c3 :: r4 =>
                      if c3 = 44 then (pJ fuel 2 r4).map (fun p => (.objCons k v p.1, p.2))
                      else if c3 = 125 then some (.objCons k v .objNil, r4)
                      else none)
                 | none => none)
              else none)
         | none => none)
      else none

/-- `JSON.parse`: a full-string parse of one value (throwing modelled as
`none`). -/
def jsonParse (s : JStr) : Option Json :=
  match pJ (s.length + 1) 0 s with
  | some (j, r) => if skipWs r = [] then some j else none
  | none => none

/-- Size measure used as parser fuel in the round-trip proof. -/
def jsize : Json → Nat
  | .null => 1
  | .bool _ => 1
  | .num _ => 1
  | .str _ => 1
  | .arrNil => 1
  | .objNil => 1
  | .arrCons hd tl => 1 + jsize hd + jsize tl
  | .objCons _ v tl => 1 + jsize v + jsize tl

/-! ## Cryptographic primitives (Node `crypto`: SHA-256, HMAC, PBKDF2,
AES-256-GCM)

These model the library primitives invoked by `crypto.ts`, `jwt.server.ts` and
the magic-link store.  Words are naturals kept below `2^32` by explicit
reduction; byte strings are `List Nat` with every element below 256. -/

def w32 (x : Nat) : Nat := x % 4294967296

def rotr32 (n x : Nat) : Nat := w32 (x / 2 ^ n + x * 2 ^ (32 - n))

def bytesToWordsBE : List Nat → List Nat
  | b0 :: b1 :: b2 :: b3 :: rest =>
    (b0 * 16777216 + b1 * 65536 + b2 * 256 + b3) :: bytesToWordsBE rest
  | [] => []
  | [_] => []
  | [_, _] => []
  | [_, _, _] => []

def wordsToBytesBE (ws : List Nat) : List Nat :=
  ws.flatMap (fun w => [w / 16777216 % 256, w / 65536 % 256, w / 256 % 256, w % 256])

def sha256K : List Nat := [1116352408, 1899447441, 3049323471, 3921009573, 961987163, 1508970993,
  2453635748, 2870763221, 3624381080, 310598401, 607225278, 1426881987,
  1925078388, 2162078206, 2614888103, 3248222580, 3835390401, 4022224774,
  264347078, 604807628, 770255983, 1249150122, 1555081692, 1996064986,
  2554220882, 2821834349, 2952996808, 3210313671, 3336571891, 3584528711,
  113926993, 338241895, 666307205, 773529912, 1294757372, 1396182291,
  1695183700, 1986661051, 2177026350, 2456956037, 2730485921, 2820302411,
  3259730800, 3345764771, 3516065817, 3600352804, 4094571909, 275423344,
  430227734, 506948616, 659060556, 883997877, 958139571, 1322822218,
  1537002063, 1747873779, 1955562222, 2024104815, 2227730452, 2361852424,
  2428436474, 2756734187, 3204031479, 3329325298]

def sha256H0 : List Nat := [1779033703, 3144134277, 1013904242, 2773480762, 1359893119, 2600822924,
  528734635, 1541459225]

def shaCh (e f g : Nat) : Nat := (e &&& f) ^^^ ((e ^^^ 4294967295) &&& g)

def shaMaj (a b c : Nat) : Nat := (a &&& b) ^^^ (a &&& c) ^^^ (b &&& c)

def bsig0 (x : Nat) : Nat := rotr32 2 x ^^^ rotr32 13 x ^^^ rotr32 22 x

def bsig1 (x : Nat) : Nat := rotr32 6 x ^^^ rotr32 11 x ^^^ rotr32 25 x

def ssig0 (x : Nat) : Nat := rotr32 7 x ^^^ rotr32 18 x ^^^ (x / 2 ^ 3)

def ssig1 (x : Nat) : Nat := rotr32 17 x ^^^ rotr32 19 x ^^^ (x / 2 ^ 10)

def sha256Pad (msg : List Nat) : List Nat :=
  msg ++ 128 :: (List.replicate ((64 - (msg.length + 9) % 64) % 64) 0 ++
    wordsToBytesBE [w32 (msg.length * 8 / 4294967296), w32 (msg.length * 8)])

def schedStep (w : List Nat) (_ : Nat) : List Nat :=
  w ++ [w32 (ssig1 (w.getD (w.length - 2) 0) + w.getD (w.length - 7) 0 +
    ssig0 (w.getD (w.length - 15) 0) + w.getD (w.length - 16) 0)]

def sha256Schedule (w16 : List Nat) : List Nat := (List.range 48).foldl schedStep w16

def compStep (st : Nat × Nat × Nat × Nat × Nat × Nat × Nat × Nat) (kw : Nat × Nat) :
    Nat × Nat × Nat × Nat × Nat × Nat × Nat × Nat :=
  match st with
  | (a, b, c, d, e, f, g, h) =>
    let t1 := w32 (h + bsig1 e + shaCh e f g + kw.1 + kw.2)
    let t2 := w32 (bsig0 a + shaMaj a b c)
    (w32 (t1 + t2), a, b, c, w32 (d + t1), e, f, g)

def chunksOf (n : Nat) : List Nat → List (List Nat)
  | [] => []
  | c :: rest => ((c :: rest).take n) :: chunksOf n ((c :: rest).drop (max n 1))
termination_by l => l.length
decreasing_by
  simp only [List.length_drop]
  simp only [List.length_cons]
  omega

def sha256Compress (H : List Nat) (chunk : List Nat) : List Nat :=
  let w := sha256Schedule (bytesToWordsBE chunk)
  let f := (sha256K.zip w).foldl compStep
    (H.getD 0 0, H.getD 1 0, H.getD 2 0, H.getD 3 0,
     H.getD 4 0, H.getD 5 0, H.getD 6 0, H.getD 7 0)
  match f with
  | (a, b, c, d, e, f, g, h) =>
    [w32 (H.getD 0 0 + a), w32 (H.getD 1 0 + b), w32 (H.getD 2 0 + c),
     w32 (H.getD 3 0 + d), w32 (H.getD 4 0 + e), w32 (H.getD 5 0 + f),
     w32 (H.getD 6 0 + g), w32 (H.getD 7 0 + h)]

/-- SHA-256 of a byte string, as 32 bytes. -/
def sha256 (msg : List Nat) : List Nat :=
  wordsToBytesBE ((chunksOf 64 (sha256Pad msg)).foldl sha256Compress sha256H0)

/-- `createHash('sha256').update(s).digest('hex')`: lowercase hex string. -/
def sha256Hex (msg : List Nat) : JStr :=
  (sha256 msg).flatMap (fun b => [hexDigit (b / 16), hexDigit (b % 16)])

/-- HMAC-SHA256. -/
def hmacSha256 (key msg : List Nat) : List Nat :=
  let k0 :=
    if 64 < key.length then sha256 key ++ List.replicate 32 0
    else key ++ List.replicate (64 - key.length) 0
  sha256 ((k0.map (fun b => b ^^^ 92)) ++ sha256 ((k0.map (fun b => b ^^^ 54)) ++ msg))

/-- PBKDF2-HMAC-SHA256, first block (covers `dkLen ≤ 32`). -/
def pbkdf2Block (pw salt : List Nat) (iters : Nat) : List Nat :=
  let u1 := hmacSha256 pw (salt ++ [0, 0, 0, 1])
  ((List.range (iters - 1)).foldl
    (fun (acc : List Nat × List Nat) _ =>
      let u := hmacSha256 pw acc.2
      (List.zipWith (fun a b => a ^^^ b) acc.1 u, u))
    (u1, u1)).1

def pbkdf2Sha256 (pw salt : List Nat) (iters dkLen : Nat) : List Nat :=
  (pbkdf2Block pw salt iters).take dkLen

/-! ### AES-256 (forward cipher, as needed by GCM) -/

def sbox : List Nat := [99, 124, 119, 123, 242, 107, 111, 197, 48, 1, 103, 43,
  254, 215, 171, 118, 202, 130, 201, 125, 250, 89, 71, 240,
  173, 212, 162, 175, 156, 164, 114, 192, 183, 253, 147, 38,
  54, 63, 247, 204, 52, 165, 229, 241, 113, 216, 49, 21,
  4, 199, 35, 195, 24, 150, 5, 154, 7, 18, 128, 226,
  235, 39, 178, 117, 9, 131, 44, 26, 27, 110, 90, 160,
  82, 59, 214, 179, 41, 227, 47, 132, 83, 209, 0, 237,
  32, 252, 177, 91, 106, 203, 190, 57, 74, 76, 88, 207,
  208, 239, 170, 251, 67, 77, 51, 133, 69, 249, 2, 127,
  80, 60, 159, 168, 81, 163, 64, 143, 146, 157, 56, 245,
  188, 182, 218, 33, 16, 255, 243, 210, 205, 12, 19, 236,
  95, 151, 68, 23, 196, 167, 126, 61, 100, 93, 25, 115,
  96, 129, 79, 220, 34, 42, 144, 136, 70, 238, 184, 20,
  222, 94, 11, 219, 224, 50, 58, 10, 73, 6, 36, 92,
  194, 211, 172, 98, 145, 149, 228, 121, 231, 200, 55, 109,
  141, 213, 78, 169, 108, 86, 244, 234, 101, 122, 174, 8,
  186, 120, 37, 46, 28, 166, 180, 198, 232, 221, 116, 31,
  75, 189, 139, 138, 112, 62, 181, 102, 72, 3, 246, 14,
  97, 53, 87, 185, 134, 193, 29, 158, 225, 248, 152, 17,
  105, 217, 142, 148, 155, 30, 135, 233, 206, 85, 40, 223,
  140, 161, 137, 13, 191, 230, 66, 104, 65, 153, 45, 15,
  176, 84, 187, 22]

def aesRcon : List Nat := [1, 2, 4, 8, 16, 32, 64]

def subW (w : Nat) : Nat :=
  sbox.getD (w / 16777216 % 256) 0 * 16777216 + sbox.getD (w / 65536 % 256) 0 * 65536 +
    sbox.getD (w / 256 % 256) 0 * 256 + sbox.getD (w % 256) 0

def rotW (w : Nat) : Nat := w % 16777216 * 256 + w / 16777216 % 256

def aesExpandStep (ws : List Nat) (_ : Nat) : List Nat :=
  let prev := ws.getD (ws.length - 1) 0
  let old := ws.getD (ws.length - 8) 0
  let t :=
    if ws.length % 8 == 0 then
      subW (rotW prev) ^^^ aesRcon.getD (ws.length / 8 - 1) 0 * 16777216
    else if ws.length % 8 == 4 then subW prev
    else prev
  ws ++ [w32 (old ^^^ t)]

/-- AES-256 key expansion: 32 key bytes to 60 round-key words. -/
def aesExpand (key : List Nat) : List Nat :=
  (List.range 52).foldl aesExpandStep (bytesToWordsBE key)

def roundKeyBytes (ws : List Nat) (r : Nat) : List Nat :=
  wordsToBytesBE ((ws.drop (4 * r)).take 4)

def xtime (b : Nat) : Nat := ((2 * b) ^^^ (if 128 ≤ b then 27 else 0)) % 256

def shiftRows (s : List Nat) : List Nat :=
  [s.getD 0 0, s.getD 5 0, s.getD 10 0, s.getD 15 0,
   s.getD 4 0, s.getD 9 0, s.getD 14 0, s.getD 3 0,
   s.getD 8 0, s.getD 13 0, s.getD 2 0, s.getD 7 0,
   s.getD 12 0, s.getD 1 0, s.getD 6 0, s.getD 11 0]

def mixCol (c : List Nat) : List Nat :=
  let a0 := c.getD 0 0
  let a1 := c.getD 1 0
  let a2 := c.getD 2 0
  let a3 := c.getD 3 0
  [xtime a0 ^^^ (xtime a1 ^^^ a1) ^^^ a2 ^^^ a3,
   a0 ^^^ xtime a1 ^^^ (xtime a2 ^^^ a2) ^^^ a3,
   a0 ^^^ a1 ^^^ xtime a2 ^^^ (xtime a3 ^^^ a3),
   (xtime a0 ^^^ a0) ^^^ a1 ^^^ a2 ^^^ xtime a3]

def mixColumns (s : List Nat) : List Nat :=
  (List.range 4).flatMap (fun c => mixCol ((s.drop (4 * c)).take 4))

def subBytes (s : List Nat) : List Nat := s.map (fun b => sbox.getD b 0)

def addRoundKey (s rk : List Nat) : List Nat := List.zipWith (fun a b => a ^^^ b) s rk

/-- AES-256 block encryption (14 rounds). -/
def aesEncBlock (ws : List Nat) (inp : List Nat) : List Nat :=
  let stN := (List.range 13).foldl
    (fun st r => addRoundKey (mixColumns (shiftRows (subBytes st))) (roundKeyBytes ws (r + 1)))
    (addRoundKey inp (roundKeyBytes ws 0))
  addRoundKey (shiftRows (subBytes stN)) (roundKeyBytes ws 14)

/-! ### GCM -/

def natOfBytesBE (l : List Nat) : Nat := l.foldl (fun a b => a * 256 + b) 0

def bytesOfNatBE : Nat → Nat → List Nat
  | 0, _ => []
  | n + 1, x => bytesOfNatBE n (x / 256) ++ [x % 256]

def gf128R : Nat := 0xe1000000000000000000000000000000

def gf128Mul (x y : Nat) : Nat :=
  ((List.range 128).foldl
    (fun (zv : Nat × Nat) i =>
      (if y / 2 ^ (127 - i) % 2 == 1 then zv.1 ^^^ zv.2 else zv.1,
       if zv.2 % 2 == 1 then zv.2 / 2 ^^^ gf128R else zv.2 / 2))
    (0, x)).1

def ghashBlocks (h : Nat) (blocks : List Nat) : Nat :=
  blocks.foldl (fun y b => gf128Mul (y ^^^ b) h) 0

def padBlocks16 (l : List Nat) : List Nat :=
  (chunksOf 16 l).map (fun c => natOfBytesBE (c ++ List.replicate (16 - c.length) 0))

def gcmH (ws : List Nat) : Nat := natOfBytesBE (aesEncBlock ws (List.replicate 16 0))

/-- The pre-counter block `J0`; a 16-byte IV takes the GHASH path. -/
def gcmJ0 (ws : List Nat) (iv : List Nat) : Nat :=
  if iv.length == 12 then natOfBytesBE iv * 4294967296 + 1
  else ghashBlocks (gcmH ws) (padBlocks16 iv ++ [iv.length * 8])

def inc32 (x : Nat) : Nat := x / 4294967296 * 4294967296 + (x + 1) % 4294967296

def gcmKeystream (ws : List Nat) (j0 : Nat) (n : Nat) : List Nat :=
  ((List.range ((n + 15) / 16)).flatMap
    (fun i => aesEncBlock ws (bytesOfNatBE 16 (inc32^[i + 1] j0)))).take n

/-- The 16-byte GCM authentication tag over the ciphertext (no AAD). -/
def gcmTag (ws : List Nat) (j0 : Nat) (ct : List Nat) : List Nat :=
  bytesOfNatBE 16
    (natOfBytesBE (aesEncBlock ws (bytesOfNatBE 16 j0)) ^^^
      ghashBlocks (gcmH ws) (padBlocks16 ct ++ [ct.length * 8]))

/-! ## `crypto.ts` (`apps/geni-site/src/lib/server/crypto.ts`)

`encryptData` draws a random 16-byte IV; the randomness is passed as the
`ivBytes` argument.  `decryptData` throwing (authentication failure) is
modelled as `none`. -/

structure EncryptedData where
  ciphertext : JStr
  iv : JStr
  authTag : JStr
deriving DecidableEq

/-- `env.JWT_SECRET || 'fallback-secret'` with the variable unset. -/
def cryptoSecret : JStr := jstr "fallback-secret"

/-- `pbkdf2Sync(secret, Buffer.from(userId, 'utf-8'), 310000, 32, 'sha256')`. -/
def deriveKey (userId : JStr) : List Nat :=
  pbkdf2Sha256 (utf8Encode cryptoSecret) (utf8Encode userId) 310000 32

def encryptData (data userId : JStr) (ivBytes : List Nat) : EncryptedData :=
  let ws := aesExpand (deriveKey userId)
  let pt := utf8Encode data
  let j0 := gcmJ0 ws ivBytes
  let ct := List.zipWith (fun a b => a ^^^ b) pt (gcmKeystream ws j0 pt.length)
  { ciphertext := b64Encode ct
    iv := b64Encode ivBytes
    authTag := b64Encode (gcmTag ws j0 ct) }

def decryptData (e : EncryptedData) (userId : JStr) : Option JStr :=
  let ws := aesExpand (deriveKey userId)
  let iv := b64Decode e.iv
  let ct := b64Decode e.ciphertext
  let tag := b64Decode e.authTag
  let j0 := gcmJ0 ws iv
  if tag = gcmTag ws j0 ct then
    utf8Decode (List.zipWith (fun a b => a ^^^ b) ct (gcmKeystream ws j0 ct.length))
  else none

def encryptReport (genotypes insights : Json) (userId : JStr) (iv1 iv2 : List Nat) :
    EncryptedData × EncryptedData :=
  (encryptData (jsonStringify genotypes) userId iv1,
   encryptData (jsonStringify insights) userId iv2)

def decryptReport (encryptedGenotypes encryptedInsights : EncryptedData) (userId : JStr) :
    Option Json × Option Json :=
  ((decryptData encryptedGenotypes userId).bind jsonParse,
   (decryptData encryptedInsights userId).bind jsonParse)

/-! ## `jwt.server.ts` (`apps/geni-site/src/lib/server/auth/jwt.server.ts`)

`Date.now()/1000` is passed as the `now` argument; `generateToken` throwing on
an empty userId or email is modelled as `none`.  `decoded.exp` is truthy for a
number exactly when it is nonzero, and a missing or non-numeric `exp` makes
`decoded.exp && decoded.exp < now` falsy, skipping the expiry check. -/

def JWT_SECRET : JStr := jstr "fallback-secret-change-in-production"

def base64UrlEncode (s : JStr) : JStr := b64UrlOfBytes (utf8Encode s)

def base64UrlDecode (s : JStr) : Option JStr := utf8Decode (b64UrlDecodeBytes s)

structure JwtPayloadIn where
  userId : JStr
  email : JStr
  plan : JStr
deriving DecidableEq

structure TokenUser where
  userId : Option Json
  email : Option Json
  plan : Option Json
deriving DecidableEq

structure TokenResponse where
  success : Bool
  message : Option JStr
  user : Option TokenUser
deriving DecidableEq

/-- `{ alg: 'HS256', typ: 'JWT' }`. -/
def jwtHeaderJson : Json :=
  .objCons (jstr "alg") (.str (jstr "HS256"))
    (.objCons (jstr "typ") (.str (jstr "JWT")) .objNil)

/-- `{ ...payload, iat: now, exp: now + 604800 }` (keys in insertion order). -/
def jwtPayloadJson (p : JwtPayloadIn) (now : Int) : Json :=
  .objCons (jstr "userId") (.str p.userId)
    (.objCons (jstr "email") (.str p.email)
      (.objCons (jstr "plan") (.str p.plan)
        (.objCons (jstr "iat") (.num now)
          (.objCons (jstr "exp") (.num (now + 604800)) .objNil))))

/-- `createHmac('sha256', JWT_SECRET).update(m).digest('base64')` with the
url-safe replacements and `=` stripped. -/
def jwtSig (message : JStr) : JStr :=
  b64UrlOfBytes (hmacSha256 (utf8Encode JWT_SECRET) (utf8Encode message))

def generateToken (p : JwtPayloadIn) (now : Int) : Option JStr :=
  if p.userId = [] ∨ p.email = [] then none
  else
    let eh := base64UrlEncode (jsonStringify jwtHeaderJson)
    let ep := base64UrlEncode (jsonStringify (jwtPayloadJson p now))
    let msg := eh ++ 46 :: ep
    some (msg ++ 46 :: jwtSig msg)

/-- Property access on a parsed JSON value (`undefined` is `none`); duplicate
keys resolve to the last occurrence, as in `JSON.parse`. -/
def jlookup : Json → JStr → Option Json
  | .objCons k v tl, key =>
    match jlookup tl key with
    | some x => some x
    | none => if k = key then some v else none
  | _, _ => none

/-- The truthiness-guarded expiry test `decoded.exp && decoded.exp < now`. -/
def jwtExpired (decoded : Json) (now : Int) : Bool :=
  match jlookup decoded (jstr "exp") with
  | some (.num e) => decide (e ≠ 0 ∧ e < now)
  | _ => false

def verifyToken (token : JStr) (now : Int) : TokenResponse :=
  if token = [] then ⟨false, some (jstr "Token is required"), none⟩
  else
    let parts := splitOnCharJs 46 token
    if parts.length ≠ 3 then ⟨false, some (jstr "Invalid token format"), none⟩
    else
      let eh := parts.getD 0 []
      let ep := parts.getD 1 []
      let sig := parts.getD 2 []
      if sig ≠ jwtSig (eh ++ 46 :: ep) then
        ⟨false, some (jstr "Invalid token signature"), none⟩
      else
        match base64UrlDecode ep with
        | none => ⟨false, some (jstr "Invalid token"), none⟩
        | some payloadStr =>
          match jsonParse payloadStr with
          | none => ⟨false, some (jstr "Invalid token"), none⟩
          | some decoded =>
            if jwtExpired decoded now then
              ⟨false, some (jstr "Token has expired"), none⟩
            else
              ⟨true, none,
               some ⟨jlookup decoded (jstr "userId"), jlookup decoded (jstr "email"),
                 jlookup decoded (jstr "plan")⟩⟩

/-! ## Magic links (`src/unnamed/part_006`)

The `magicLinks` table is a list of rows in insertion order; `Date.now()` and
the random token are passed as arguments.  `verifyMagicLink` selects the first
row matching (hash, unused, unexpired), and on success marks every row with
that token hash as used. -/

structure MagicLinkRecord where
  identifier : JStr
  tokenHash : JStr
  expiresAt : Int
  used : Bool
deriving DecidableEq

/-- `createHash('sha256').update(token).digest('hex')`. -/
def hashToken (token : JStr) : JStr := sha256Hex (utf8Encode token)

def createMagicLink (db : List MagicLinkRecord) (email token : JStr)
    (expiresInMinutes now : Int) : List MagicLinkRecord × JStr :=
  (db ++ [⟨jsToLower email, hashToken token, now + expiresInMinutes * 60 * 1000, false⟩],
   token)

def verifyMagicLink (db : List MagicLinkRecord) (token : JStr) (now : Int) :
    Option JStr × List MagicLinkRecord :=
  let h := hashToken token
  match db.find? (fun r => r.tokenHash == h && !r.used && decide (now < r.expiresAt)) with
  | none => (none, db)
  | some link =>
    (some link.identifier,
     db.map (fun r => if r.tokenHash == h then { r with used := true } else r))

def cleanupExpiredMagicLinks (db : List MagicLinkRecord) (now : Int) :
    List MagicLinkRecord :=
  db.filter (fun r => !decide (r.expiresAt < now))

/-- The store's operations, for stating the temporal single-use property. -/
inductive MagicOp where
  | create (email token : JStr) (expiresInMinutes now : Int)
  | verify (token : JStr) (now : Int)
  | cleanup (now : Int)

def applyOp (db : List MagicLinkRecord) : MagicOp → List MagicLinkRecord
  | .create email token m now => (createMagicLink db email token m now).1
  | .verify token now => (verifyMagicLink db token now).2
  | .cleanup now => cleanupExpiredMagicLinks db now

def runOps (db : List MagicLinkRecord) (ops : List MagicOp) : List MagicLinkRecord :=
  ops.foldl applyOp db

/-- Whether an operation inserts a fresh link with the given token hash. -/
def opCreatesHash (h : JStr) : MagicOp → Prop
  | .create _ token _ _ => hashToken token = h
  | _ => False

/-! ## Supporting lemmas -/

theorem foldl_inv {σ ι : Type} {inv : σ → Prop} {step : σ → ι → σ}
    (h : ∀ s x, inv s → inv (step s x)) :
    ∀ (l : List ι) (s : σ), inv s → inv (l.foldl step s) := by
  intro l
  induction l with
  | nil => intro s hs; exact hs
  | cons x t ih => intro s hs; exact ih (step s x) (h s x hs)

theorem mem_mapSet {α : Type} {d : List (JStr × α)} {k : JStr} {v : α}
    {p : JStr × α} (h : p ∈ mapSet d k v) : p ∈ d ∨ p = (k, v) := by
  unfold mapSet at h
  split at h
  · obtain ⟨q, hq, hfq⟩ := List.mem_map.1 h
    by_cases hq1 : q.1 = k
    · simp only [hq1, if_pos rfl] at hfq
      exact Or.inr hfq.symm
    · simp only [if_neg hq1] at hfq
      exact Or.inl (hfq ▸ hq)
  · rcases List.mem_append.1 h with h | h
    · exact Or.inl h
    · exact Or.inr (List.mem_singleton.1 h)

theorem jsToLower_idem (s : JStr) : jsToLower (jsToLower s) = jsToLower s := by
  unfold jsToLower
  rw [List.map_map]
  apply List.map_congr_left
  intro c _
  simp only [Function.comp_apply]
  split_ifs <;> omega

theorem jsToUpper_char_fix {s : JStr} {c : Nat} (h : c ∈ jsToUpper s) :
    (if 97 ≤ c ∧ c ≤ 122 then c - 32 else c) = c := by
  unfold jsToUpper at h
  obtain ⟨b, _, hb⟩ := List.mem_map.1 h
  subst hb
  split_ifs <;> omega

theorem jsTrim_sublist (s : JStr) : (jsTrim s).Sublist s := by
  unfold jsTrim
  have h1 : (((s.dropWhile isJsWs).reverse.dropWhile isJsWs).reverse).Sublist
      ((s.dropWhile isJsWs).reverse.reverse) := by
    rw [List.reverse_sublist]
    exact List.dropWhile_sublist isJsWs
  rw [List.reverse_reverse] at h1
  exact h1.trans (List.dropWhile_sublist isJsWs)

theorem mem_sortInsert {c x : Nat} {l : JStr} :
    x ∈ sortInsert c l ↔ x = c ∨ x ∈ l := by
  induction l with
  | nil => simp [sortInsert]
  | cons d t ih =>
    unfold sortInsert
    split_ifs
    · simp [List.mem_cons]
    · simp only [List.mem_cons, ih]
      tauto

theorem mem_sortJs {x : Nat} {l : JStr} : x ∈ sortJs l ↔ x ∈ l := by
  induction l with
  | nil => simp [sortJs]
  | cons c t ih => simp [sortJs, mem_sortInsert, ih]

/-- Every character of a normalized genotype is fixed by uppercasing. -/
theorem normalizeGenotype_upper (g : JStr) :
    jsToUpper (normalizeGenotype g) = normalizeGenotype g := by
  have hmem : ∀ c ∈ normalizeGenotype g,
      (if 97 ≤ c ∧ c ≤ 122 then c - 32 else c) = c := by
    intro c hc
    apply @jsToUpper_char_fix g c
    simp only [normalizeGenotype] at hc
    split_ifs at hc with h1 h2
    · rcases List.mem_append.1 hc with hc | hc <;>
        exact (jsTrim_sublist (jsToUpper g)).mem hc
    · exact (jsTrim_sublist (jsToUpper g)).mem (mem_sortJs.1 hc)
    · exact (jsTrim_sublist (jsToUpper g)).mem hc
  unfold jsToUpper
  rw [show normalizeGenotype g = (normalizeGenotype g).map id from
    (List.map_id _).symm]
  rw [List.map_map]
  exact List.map_congr_left fun c hc => hmem c hc

theorem normalizeGenotype_length_ne_one (g : JStr) :
    (normalizeGenotype g).length ≠ 1 := by
  simp only [normalizeGenotype]
  have hsi : ∀ (c : Nat) (l : JStr), (sortInsert c l).length = l.length + 1 := by
    intro c l
    induction l with
    | nil => rfl
    | cons d t ih =>
      unfold sortInsert
      split_ifs <;> simp [ih]
  have hs : ∀ l : JStr, (sortJs l).length = l.length := by
    intro l
    induction l with
    | nil => rfl
    | cons c t ih => simp [sortJs, hsi, ih]
  split_ifs with h1 h2
  · simp [List.length_append, h1]
  · rw [hs]
    omega
  · exact h1

theorem normalizeGenotype_sorted2 (g : JStr) :
    ∀ a b, normalizeGenotype g = [a, b] → a ≤ b := by
  simp only [normalizeGenotype]
  intro a b h
  split_ifs at h with h1 h2
  · obtain ⟨x, hx⟩ := List.length_eq_one.1 h1
    rw [hx] at h
    simp at h
    omega
  · obtain ⟨x, y, hxy⟩ := List.length_eq_two.1 h2
    rw [hxy] at h
    simp only [sortJs, sortInsert] at h
    split_ifs at h with hle
    · simp at h
      omega
    · simp at h
      omega
  · rw [h] at h2
    simp at h2

theorem storeSNP_data (st : LoopState) (i : Nat) (snp : SNPData) :
    (storeSNP st i snp).data = mapSet st.data snp.rsid snp := by
  unfold storeSNP
  split_ifs <;> rfl

/-- The `parseAncestry` loop body acts on `data` as `lineDataEffect` with the
geni-site `parseLine` and no `23andMe` skip. -/
theorem ancestryStep_data (st : LoopState) (p : Nat × JStr) :
    (ancestryStep st p).data = lineDataEffect parseLine false st.data p.2 := by
  simp only [ancestryStep, lineDataEffect, Bool.false_eq_true, false_and, if_false]
  by_cases h0 : jsTrim p.2 = []
  · rw [if_pos (Or.inl h0), if_pos h0]
  · by_cases hh : jsStartsWith (jstr "#") (jsTrim p.2) = true
    · rw [if_pos (Or.inr hh), if_neg h0, if_pos hh]
    · rw [if_neg (by simp [h0, hh]), if_neg h0, if_neg hh]
      cases hp : parseLine (jsTrim p.2) with
      | none => rfl
      | some snp => rw [storeSNP_data]

/-- The geni-site `parse23andMe` loop body acts on `data` as `lineDataEffect`
with `parseLine` and the `23andMe` skip. -/
theorem c23Step_data (st : LoopState) (p : Nat × JStr) :
    (c23Step st p).data = lineDataEffect parseLine true st.data p.2 := by
  simp only [c23Step, lineDataEffect, true_and]
  by_cases h0 : jsTrim p.2 = []
  · rw [if_pos h0, if_pos h0]
  · rw [if_neg h0, if_neg h0]
    by_cases hi : jsIncludes (jstr "23andMe") (jsTrim p.2) = true
    · rw [if_pos hi, if_pos hi]
    · rw [if_neg hi, if_neg hi]
      by_cases hh : jsStartsWith (jstr "#") (jsTrim p.2) = true
      · rw [if_pos hh, if_pos hh]
      · rw [if_neg hh, if_neg hh]
        cases hp : parseLine (jsTrim p.2) with
        | none => rfl
        | some snp => rw [storeSNP_data]

/-- The geni-web loop body acts on `data` as `lineDataEffect` with
`webLineSNP` and the `23andMe` skip. -/
theorem webStep_data (st : web.WLoopState) (p : Nat × JStr) :
    (web.webStep st p).data = lineDataEffect webLineSNP true st.data p.2 := by
  simp only [web.webStep, lineDataEffect, webLineSNP, true_and]
  by_cases h0 : jsTrim p.2 = []
  · rw [if_pos h0, if_pos h0]
  · rw [if_neg h0, if_neg h0]
    by_cases hi : jsIncludes (jstr "23andMe") (jsTrim p.2) = true
    · rw [if_pos hi, if_pos hi]
    · rw [if_neg hi, if_neg hi]
      by_cases hh : jsStartsWith (jstr "#") (jsTrim p.2) = true
      · rw [if_pos hh, if_pos hh]
      · rw [if_neg hh, if_neg hh]
        cases hps : (if (splitOnCharJs 9 (jsTrim p.2)).length < 4 then
            if (splitWsJs (jsTrim p.2)).length ≥ 4 then some (splitWsJs (jsTrim p.2))
            else none
          else some (splitOnCharJs 9 (jsTrim p.2))) with
        | none => simp only [hps]
        | some parts =>
          simp only [hps]
          by_cases h4 : ¬ jsStartsWith (jstr "rs") (jsToLower (parts.getD 0 [])) = true ∧
              ¬ jsStartsWith (jstr "i") (jsToLower (parts.getD 0 [])) = true
          · rw [if_pos h4, if_pos h4]
          · rw [if_neg h4, if_neg h4]
            cases hpi : jsParseInt (parts.getD 2 []) with
            | none => rfl
            | some position =>
              by_cases h5 : parts.getD 3 [] = jstr "--" ∨ parts.getD 3 [] = []
              · simp only [if_pos h5]
              · simp only [if_neg h5]
                split <;> rfl

theorem foldl_data_proj {σ : Type} (step : σ → Nat × JStr → σ) (proj : σ → GenotypeMap)
    (eff : GenotypeMap → JStr → GenotypeMap)
    (hstep : ∀ st p, proj (step st p) = eff (proj st) p.2) :
    ∀ (l : List (Nat × JStr)) (st : σ),
      proj (l.foldl step st) = l.foldl (fun d p => eff d p.2) (proj st) := by
  intro l
  induction l with
  | nil => intro st; rfl
  | cons x t ih => intro st; rw [List.foldl_cons, List.foldl_cons, ih, hstep]

/-- Every entry a `lineDataEffect` fold adds comes from a successful parse of
a trimmed line, keyed by the parsed rsid. -/
theorem lineDataEffect_fold_mem {parse : JStr → Option SNPData} {skip23 : Bool}
    {l : List (Nat × JStr)} {d : GenotypeMap} {k : JStr} {e : SNPData}
    (h : (k, e) ∈ l.foldl (fun d p => lineDataEffect parse skip23 d p.2) d) :
    (k, e) ∈ d ∨ ∃ t, parse t = some e ∧ k = e.rsid := by
  induction l generalizing d with
  | nil => exact Or.inl h
  | cons x t ih =>
    rw [List.foldl_cons] at h
    rcases ih h with h1 | h1
    · simp only [lineDataEffect] at h1
      split_ifs at h1
      · exact Or.inl h1
      · exact Or.inl h1
      · exact Or.inl h1
      · revert h1
        cases hp : parse (jsTrim x.2) with
        | none => exact fun h1 => Or.inl h1
        | some snp =>
          intro h1
          rcases mem_mapSet h1 with h2 | h2
          · exact Or.inl h2
          · refine Or.inr ⟨jsTrim x.2, ?_, ?_⟩
            · rw [hp]
              cases h2
              rfl
            · cases h2
              rfl
    · exact Or.inr h1

/-- Every entry of a parsed file's genotype map is the result of a successful
`parseLine` on some (trimmed) line, stored under its own rsid. -/
theorem parseGeneticFile_data_mem {fc : JStr} {k : JStr} {e : SNPData}
    (h : (k, e) ∈ (parseGeneticFile fc).data) :
    ∃ t, parseLine t = some e ∧ k = e.rsid := by
  simp only [parseGeneticFile] at h
  split_ifs at h with hfmt
  · unfold parseAncestry at h
    simp only at h
    rw [foldl_data_proj ancestryStep LoopState.data (lineDataEffect parseLine false)
      ancestryStep_data] at h
    rcases lineDataEffect_fold_mem h with h1 | h1
    · simp [initState] at h1
    · exact h1
  · unfold parse23andMe at h
    simp only at h
    rw [foldl_data_proj c23Step LoopState.data (lineDataEffect parseLine true)
      c23Step_data] at h
    rcases lineDataEffect_fold_mem h with h1 | h1
    · simp [initState] at h1
    · exact h1

/-- What a successful `parseLine` guarantees about the produced record: the
genotype is `normalizeGenotype` of a raw field, and the rsid is the
lowercasing of a raw field that then starts with `rs` or `i`. -/
theorem parseLine_some_props {t : JStr} {snp : SNPData} (h : parseLine t = some snp) :
    (∃ g, snp.genotype = normalizeGenotype g) ∧
    (∃ r, snp.rsid = jsToLower r) ∧
    (jsStartsWith (jstr "rs") snp.rsid ∨ jsStartsWith (jstr "i") snp.rsid) := by
  simp only [parseLine] at h
  by_cases h1 : t = [] ∨ jsStartsWith (jstr "#") t = true
  · rw [if_pos h1] at h
    exact absurd h (by simp)
  · rw [if_neg h1] at h
    generalize hparts : (if (splitOnCharJs 9 t).length < 4 then splitWsJs t
      else splitOnCharJs 9 t) = parts at h
    by_cases h2 : parts.length < 4
    · rw [if_pos h2] at h
      exact absurd h (by simp)
    · rw [if_neg h2] at h
      by_cases h3 : ¬ jsStartsWith (jstr "rs") (jsToLower (parts.getD 0 [])) = true ∧
          ¬ jsStartsWith (jstr "i") (jsToLower (parts.getD 0 [])) = true
      · rw [if_pos h3] at h
        exact absurd h (by simp)
      · rw [if_neg h3] at h
        cases hpi : jsParseInt (parts.getD 2 []) with
        | none =>
          rw [hpi] at h
          exact absurd h (by simp)
        | some position =>
          simp only [hpi] at h
          by_cases h4 : parts.getD 3 [] = jstr "--" ∨ parts.getD 3 [] = jstr "00" ∨
              parts.getD 3 [] = []
          · rw [if_pos h4] at h
            exact absurd h (by simp)
          · rw [if_neg h4] at h
            injection h with h5
            subst h5
            refine ⟨⟨_, rfl⟩, ⟨_, rfl⟩, ?_⟩
            rcases not_and_or.1 h3 with h5 | h5 <;> simp at h5 <;> simp [h5]

theorem storeSNP_skipped (st : LoopState) (i : Nat) (snp : SNPData) :
    (storeSNP st i snp).skippedLines = st.skippedLines := by
  unfold storeSNP
  split_ifs <;> rfl

/-- The `parseAncestry` loop body counts exactly the lines it does not keep. -/
theorem ancestryStep_skipped (st : LoopState) (p : Nat × JStr) :
    (ancestryStep st p).skippedLines =
      st.skippedLines + (if keptLineAncestry p.2 = true then 0 else 1) := by
  simp only [ancestryStep]
  by_cases h0 : jsTrim p.2 = []
  · rw [if_pos (Or.inl h0)]
    have hk : keptLineAncestry p.2 = false := by simp [keptLineAncestry, h0]
    simp [hk]
  · by_cases hh : jsStartsWith (jstr "#") (jsTrim p.2) = true
    · rw [if_pos (Or.inr hh)]
      have hk : keptLineAncestry p.2 = false := by simp [keptLineAncestry, hh]
      simp [hk]
    · rw [if_neg (by simp [h0, hh])]
      cases hp : parseLine (jsTrim p.2) with
      | none =>
        have hk : keptLineAncestry p.2 = false := by simp [keptLineAncestry, hp]
        simp [hk]
      | some snp =>
        have hk : keptLineAncestry p.2 = true := by simp [keptLineAncestry, h0, hh, hp]
        simp [hk, storeSNP_skipped]

/-- The geni-site `parse23andMe` loop body counts exactly the lines it does
not keep. -/
theorem c23Step_skipped (st : LoopState) (p : Nat × JStr) :
    (c23Step st p).skippedLines =
      st.skippedLines + (if keptLine23 p.2 = true then 0 else 1) := by
  simp only [c23Step]
  by_cases h0 : jsTrim p.2 = []
  · rw [if_pos h0]
    have hk : keptLine23 p.2 = false := by simp [keptLine23, h0]
    simp [hk]
  · rw [if_neg h0]
    by_cases hi : jsIncludes (jstr "23andMe") (jsTrim p.2) = true
    · rw [if_pos hi]
      have hk : keptLine23 p.2 = false := by simp [keptLine23, hi]
      simp [hk]
    · rw [if_neg hi]
      by_cases hh : jsStartsWith (jstr "#") (jsTrim p.2) = true
      · rw [if_pos hh]
        have hk : keptLine23 p.2 = false := by simp [keptLine23, hh]
        simp [hk]
      · rw [if_neg hh]
        cases hp : parseLine (jsTrim p.2) with
        | none =>
          have hk : keptLine23 p.2 = false := by simp [keptLine23, hp]
          simp [hk]
        | some snp =>
          have hk : keptLine23 p.2 = true := by simp [keptLine23, h0, hi, hh, hp]
          simp [hk, storeSNP_skipped]

/-- Folding a step whose skip counter adds one exactly on non-kept elements
counts the non-kept elements. -/
theorem foldl_skip_count {σ : Type} (step : σ → Nat × JStr → σ) (proj : σ → Nat)
    (q : JStr → Bool)
    (hstep : ∀ st p, proj (step st p) = proj st + (if q p.2 = true then 0 else 1)) :
    ∀ (l : List (Nat × JStr)) (st : σ),
      proj (l.foldl step st) + l.countP (fun p => q p.2) = proj st + l.length := by
  intro l
  induction l with
  | nil => intro st; simp
  | cons x t ih =>
    intro st
    rw [List.foldl_cons, List.countP_cons]
    have h := ih (step st x)
    rw [hstep] at h
    by_cases hq : q x.2 = true <;> simp [hq] at h ⊢ <;> omega

theorem countP_enum (q : JStr → Bool) (l : List JStr) :
    l.enum.countP (fun p => q p.2) = l.countP q := by
  conv_rhs => rw [← List.enum_map_snd l]
  rw [List.countP_map]
  rfl

theorem mapHas_mapSet_self {α : Type} (d : List (JStr × α)) (k : JStr) (v : α) :
    mapHas (mapSet d k v) k = true := by
  unfold mapHas mapSet
  split_ifs with h
  · simp only [List.any_map, List.any_eq_true] at h ⊢
    obtain ⟨p, hp, hpk⟩ := h
    refine ⟨p, hp, ?_⟩
    simp only [Function.comp_apply]
    simp only [decide_eq_true_eq] at hpk
    simp [hpk]
  · simp

theorem mapHas_mapSet_mono {α : Type} {d : List (JStr × α)} {k' : JStr}
    (k : JStr) (v : α) (h : mapHas d k' = true) :
    mapHas (mapSet d k v) k' = true := by
  unfold mapHas mapSet
  unfold mapHas at h
  split_ifs with hany
  · simp only [List.any_map, List.any_eq_true] at *
    obtain ⟨p, hp, hpk⟩ := h
    refine ⟨p, hp, ?_⟩
    simp only [Function.comp_apply, decide_eq_true_eq] at *
    split_ifs with hk
    · rw [← hpk, hk]
    · exact hpk
  · simp only [List.any_append, Bool.or_eq_true]
    exact Or.inl h

theorem mapHas_lineDataEffect_mono {parse : JStr → Option SNPData} {skip23 : Bool}
    {d : GenotypeMap} {k : JStr} (l : JStr) (h : mapHas d k = true) :
    mapHas (lineDataEffect parse skip23 d l) k = true := by
  simp only [lineDataEffect]
  split_ifs with h1 h2 h3
  · exact h
  · exact h
  · exact h
  · cases hp : parse (jsTrim l) with
    | none => exact h
    | some snp => exact mapHas_mapSet_mono _ _ h

theorem mapHas_fold_mono {parse : JStr → Option SNPData} {skip23 : Bool}
    {d : GenotypeMap} {k : JStr} (l : List (Nat × JStr)) (h : mapHas d k = true) :
    mapHas (l.foldl (fun d p => lineDataEffect parse skip23 d p.2) d) k = true := by
  induction l generalizing d with
  | nil => exact h
  | cons x t ih => exact ih (mapHas_lineDataEffect_mono _ h)

/-- A line the loop keeps leaves its rsid present in the final map. -/
theorem lineDataEffect_fold_has {parse : JStr → Option SNPData} {skip23 : Bool}
    {l : List (Nat × JStr)} {d : GenotypeMap} {p : Nat × JStr} {snp : SNPData}
    (hmem : p ∈ l) (hp : parse (jsTrim p.2) = some snp)
    (h0 : ¬ jsTrim p.2 = [])
    (hi : skip23 = true → ¬ jsIncludes (jstr "23andMe") (jsTrim p.2) = true)
    (hh : ¬ jsStartsWith (jstr "#") (jsTrim p.2) = true) :
    mapHas (l.foldl (fun d p => lineDataEffect parse skip23 d p.2) d) snp.rsid = true := by
  induction l generalizing d with
  | nil => cases hmem
  | cons x t ih =>
    rw [List.foldl_cons]
    rcases List.mem_cons.1 hmem with hx | hx
    · subst hx
      apply mapHas_fold_mono
      simp only [lineDataEffect]
      rw [if_neg h0]
      have hskip : ¬ (skip23 = true ∧ jsIncludes (jstr "23andMe") (jsTrim p.2) = true) := by
        rintro ⟨hs, hinc⟩
        exact hi hs hinc
      rw [if_neg hskip, if_neg hh, hp]
      exact mapHas_mapSet_self _ _ _
    · exact ih hx

theorem lineFields_eq (t : JStr) :
    (if (splitOnCharJs 9 t).length < 4 then splitWsJs t else splitOnCharJs 9 t) =
      lineFields t := by
  simp [lineFields]

/-- Each of the skip reasons listed in the spec makes `parseLine` fail. -/
theorem parseLine_none_of_reason {t : JStr}
    (h : ((splitOnCharJs 9 t).length < 4 ∧ (splitWsJs t).length < 4) ∨
      (¬ jsStartsWith (jstr "rs") (jsToLower ((lineFields t).getD 0 [])) = true ∧
       ¬ jsStartsWith (jstr "i") (jsToLower ((lineFields t).getD 0 [])) = true) ∨
      jsParseInt ((lineFields t).getD 2 []) = none ∨
      rawGenotypeField t = some (jstr "--") ∨ rawGenotypeField t = some (jstr "00") ∨
      rawGenotypeField t = some []) :
    parseLine t = none := by
  simp only [parseLine]
  by_cases h1 : t = [] ∨ jsStartsWith (jstr "#") t = true
  · rw [if_pos h1]
  · rw [if_neg h1, lineFields_eq]
    by_cases h2 : (lineFields t).length < 4
    · rw [if_pos h2]
    · rw [if_neg h2]
      have hraw : rawGenotypeField t = some ((lineFields t).getD 3 []) := by
        unfold rawGenotypeField
        rw [if_neg h2]
      rcases h with ⟨hf1, hf2⟩ | h
      · exfalso
        apply h2
        unfold lineFields
        rw [if_pos hf1]
        exact hf2
      rcases h with hrs | h
      · rw [if_pos hrs]
      by_cases h3 : ¬ jsStartsWith (jstr "rs") (jsToLower ((lineFields t).getD 0 [])) = true ∧
          ¬ jsStartsWith (jstr "i") (jsToLower ((lineFields t).getD 0 [])) = true
      · rw [if_pos h3]
      rw [if_neg h3]
      rcases h with hpos | h
      · rw [hpos]
      cases hpi : jsParseInt ((lineFields t).getD 2 []) with
      | none => rfl
      | some position =>
        simp only
        rw [if_pos ?_]
        rw [hraw] at h
        rcases h with h | h | h <;> simp only [Option.some.injEq] at h
        · exact Or.inl h
        · exact Or.inr (Or.inl h)
        · exact Or.inr (Or.inr h)

/-- Away from raw genotype `00`, the geni-site `parseLine` and the geni-web
inline line parsing agree. -/
theorem parseLine_eq_webLineSNP {t : JStr} (h0 : ¬ t = [])
    (hh : ¬ jsStartsWith (jstr "#") t = true)
    (hz : rawGenotypeField t ≠ some (jstr "00")) :
    parseLine t = webLineSNP t := by
  simp only [parseLine, webLineSNP]
  rw [if_neg (by simp [h0, hh])]
  have hbody : ∀ parts : List JStr, parts.getD 3 [] ≠ jstr "00" →
      ((if ¬ jsStartsWith (jstr "rs") (jsToLower (parts.getD 0 [])) = true ∧
          ¬ jsStartsWith (jstr "i") (jsToLower (parts.getD 0 [])) = true then none
       else
        match jsParseInt (parts.getD 2 []) with
        | none => none
        | some position =>
          if parts.getD 3 [] = jstr "--" ∨ parts.getD 3 [] = jstr "00" ∨
              parts.getD 3 [] = [] then none
          else
            some { rsid := jsToLower (parts.getD 0 []),
                   chromosome := jsToUpper (parts.getD 1 []),
                   position := position,
                   genotype := normalizeGenotype (parts.getD 3 []) }) : Option SNPData) =
      ((if ¬ jsStartsWith (jstr "rs") (jsToLower (parts.getD 0 [])) = true ∧
          ¬ jsStartsWith (jstr "i") (jsToLower (parts.getD 0 [])) = true then none
       else
        match jsParseInt (parts.getD 2 []) with
        | none => none
        | some position =>
          if parts.getD 3 [] = jstr "--" ∨ parts.getD 3 [] = [] then none
          else
            some { rsid := jsToLower (parts.getD 0 []),
                   chromosome := jsToUpper (parts.getD 1 []),
                   position := position,
                   genotype := normalizeGenotype (parts.getD 3 []) }) : Option SNPData) := by
    intro parts hz'
    by_cases hrs : ¬ jsStartsWith (jstr "rs") (jsToLower (parts.getD 0 [])) = true ∧
        ¬ jsStartsWith (jstr "i") (jsToLower (parts.getD 0 [])) = true
    · rw [if_pos hrs, if_pos hrs]
    · rw [if_neg hrs, if_neg hrs]
      cases hpi : jsParseInt (parts.getD 2 []) with
      | none => rfl
      | some position =>
        simp only
        by_cases hgg : parts.getD 3 [] = jstr "--" ∨ parts.getD 3 [] = []
        · rw [if_pos (by tauto), if_pos hgg]
        · rw [if_neg (by
            rintro (hc | hc | hc)
            · exact hgg (Or.inl hc)
            · exact hz' hc
            · exact hgg (Or.inr hc)), if_neg hgg]
  by_cases hp0 : (splitOnCharJs 9 t).length < 4
  · simp only [if_pos hp0]
    by_cases hws : (splitWsJs t).length ≥ 4
    · rw [if_neg (by omega), if_pos hws]
      simp only
      apply hbody
      intro hcon
      apply hz
      unfold rawGenotypeField lineFields
      simp only [if_pos hp0]
      rw [if_neg (by omega), hcon]
    · rw [if_pos (by omega), if_neg hws]
  · simp only [if_neg hp0]
    apply hbody
    intro hcon
    apply hz
    unfold rawGenotypeField lineFields
    simp only [if_neg hp0]
    rw [hcon]

/-- Away from raw genotype `00`, the two loops have the same effect on the
genotype map. -/
theorem c9_fold_eq {l : List (Nat × JStr)}
    (h : ∀ p ∈ l, rawGenotypeField (jsTrim p.2) ≠ some (jstr "00")) :
    ∀ d : GenotypeMap,
      l.foldl (fun d p => lineDataEffect parseLine true d p.2) d =
        l.foldl (fun d p => lineDataEffect webLineSNP true d p.2) d := by
  induction l with
  | nil => intro d; rfl
  | cons x t ih =>
    intro d
    rw [List.foldl_cons, List.foldl_cons]
    have hx : lineDataEffect parseLine true d x.2 = lineDataEffect webLineSNP true d x.2 := by
      simp only [lineDataEffect, eq_self_iff_true, true_and]
      by_cases h0 : jsTrim x.2 = []
      · rw [if_pos h0, if_pos h0]
      · rw [if_neg h0, if_neg h0]
        by_cases hi : jsIncludes (jstr "23andMe") (jsTrim x.2) = true
        · rw [if_pos hi, if_pos hi]
        · rw [if_neg hi, if_neg hi]
          by_cases hh : jsStartsWith (jstr "#") (jsTrim x.2) = true
          · rw [if_pos hh, if_pos hh]
          · rw [if_neg hh, if_neg hh]
            rw [parseLine_eq_webLineSNP h0 hh (h x (List.mem_cons_self x t))]
    rw [hx]
    exact ih (fun p hp => h p (List.mem_cons_of_mem x hp)) _

/-- An infix made of non-whitespace characters survives `dropWhile`. -/
theorem infix_dropWhile_of_no_ws {m : JStr} (hm : m ≠ [])
    (hmw : ∀ c ∈ m, ¬ isJsWs c = true) :
    ∀ l : JStr, m <:+: l → m <:+: l.dropWhile isJsWs := by
  intro l
  induction l with
  | nil =>
    intro h
    simpa using h
  | cons c rest ih =>
    intro h
    by_cases hc : isJsWs c = true
    · rw [List.dropWhile_cons_of_pos hc]
      rcases List.infix_cons_iff.1 h with hpre | hinf
      · exfalso
        cases m with
        | nil => exact hm rfl
        | cons mh mt =>
          obtain ⟨s, hs⟩ := hpre
          injection hs with hs1 _
          exact hmw mh (List.mem_cons_self mh mt) (hs1 ▸ hc)
      · exact ih hinf
    · rwa [List.dropWhile_cons_of_neg hc]

/-- The trimmed line is a contiguous segment of the raw line. -/
theorem jsTrim_inside (l : JStr) : jsTrim l <:+: l := by
  unfold jsTrim
  have h1 : ((l.dropWhile isJsWs).reverse.dropWhile isJsWs) <:+ (l.dropWhile isJsWs).reverse :=
    List.dropWhile_suffix isJsWs
  have h2 := List.reverse_prefix.2 h1
  rw [List.reverse_reverse] at h2
  exact h2.isInfix.trans (List.dropWhile_suffix isJsWs).isInfix

/-- Bool-level congruence for `List.any`. -/
theorem anyCongr {α : Type} {f g : α → Bool} :
    ∀ {l : List α}, (∀ x ∈ l, f x = g x) → l.any f = l.any g := by
  intro l
  induction l with
  | nil => intro _; rfl
  | cons x t ih =>
    intro h
    rw [List.any_cons, List.any_cons, h x (List.mem_cons_self x t),
      ih (fun y hy => h y (List.mem_cons_of_mem x hy))]

theorem anyMapGen {α β : Type} (f : α → β) (l : List α) (p : β → Bool) :
    (l.map f).any p = l.any (fun a => p (f a)) := by
  induction l with
  | nil => rfl
  | cons x t ih => simp [List.any_cons, ih]

theorem any_enum (q : JStr → Bool) (l : List JStr) :
    (l.enum.any (fun p => q p.2)) = l.any q := by
  conv_rhs => rw [← List.enum_map_snd l]
  rw [anyMapGen]

/-- Searching for a nonempty whitespace-free marker is unaffected by
trimming. -/
theorem jsIncludes_trim {m : JStr} (hm : m ≠ [])
    (hmw : ∀ c ∈ m, ¬ isJsWs c = true) (l : JStr) :
    jsIncludes m (jsTrim l) = jsIncludes m l := by
  unfold jsIncludes
  by_cases hinc : m <:+: l
  · have hrevm : m.reverse ≠ [] := by simpa using hm
    have hrevw : ∀ c ∈ m.reverse, ¬ isJsWs c = true := by
      intro c hc
      exact hmw c (List.mem_reverse.1 hc)
    have s1 : m <:+: l.dropWhile isJsWs := infix_dropWhile_of_no_ws hm hmw l hinc
    have s2 : m.reverse <:+: (l.dropWhile isJsWs).reverse :=
      List.reverse_infix.2 s1
    have s3 : m.reverse <:+: ((l.dropWhile isJsWs).reverse).dropWhile isJsWs :=
      infix_dropWhile_of_no_ws hrevm hrevw _ s2
    have s4 : m <:+: jsTrim l := by
      unfold jsTrim
      rw [← List.reverse_reverse m]
      exact List.reverse_infix.2 s3
    rw [decide_eq_true s4, decide_eq_true hinc]
  · have hntrim : ¬ m <:+: jsTrim l := fun hcon => hinc (hcon.trans (jsTrim_inside l))
    rw [decide_eq_false hntrim, decide_eq_false hinc]

theorem storeSNP_is23 (st : LoopState) (i : Nat) (snp : SNPData) :
    (storeSNP st i snp).is23andMe = st.is23andMe := by
  unfold storeSNP
  split_ifs <;> rfl

/-- The geni-site `parse23andMe` loop body ors the format flag with a
`23andMe` marker test on the trimmed line. -/
theorem c23Step_is23 (st : LoopState) (p : Nat × JStr) :
    (c23Step st p).is23andMe =
      (st.is23andMe || jsIncludes (jstr "23andMe") (jsTrim p.2)) := by
  simp only [c23Step]
  by_cases h0 : jsTrim p.2 = []
  · rw [if_pos h0, h0]
    have : jsIncludes (jstr "23andMe") [] = false := by decide
    rw [this]
    simp
  · rw [if_neg h0]
    by_cases hi : jsIncludes (jstr "23andMe") (jsTrim p.2) = true
    · rw [if_pos hi, hi]
      simp
    · rw [if_neg hi]
      rw [Bool.eq_false_iff.2 hi]
      by_cases hh : jsStartsWith (jstr "#") (jsTrim p.2) = true
      · rw [if_pos hh]
        simp
      · rw [if_neg hh]
        cases hp : parseLine (jsTrim p.2) with
        | none => simp
        | some snp =>
          rw [storeSNP_is23]
          simp

theorem foldl_flag {σ : Type} (step : σ → Nat × JStr → σ) (proj : σ → Bool)
    (q : JStr → Bool)
    (hstep : ∀ st p, proj (step st p) = (proj st || q p.2)) :
    ∀ (l : List (Nat × JStr)) (st : σ),
      proj (l.foldl step st) = (proj st || l.any (fun p => q p.2)) := by
  intro l
  induction l with
  | nil => intro st; simp
  | cons x t ih =>
    intro st
    rw [List.foldl_cons, ih, hstep, List.any_cons, Bool.or_assoc]

/-! ## Claim C5 -/

/-- **C5, counterexample.**  A file whose text identifies it as AncestryDNA
only on line 51 (after fifty blank lines) defeats the fifty-line sniff:
`parseGeneticFile` reports `unknown`, not `ancestry`. -/
theorem c5_counterexample :
    jsIncludes (jstr "AncestryDNA") (List.replicate 50 10 ++ jstr "AncestryDNA") = true ∧
    (parseGeneticFile (List.replicate 50 10 ++ jstr "AncestryDNA")).format =
      FileFormat.unknown := by
  constructor <;> rfl

/-- **C5 (amended).**  The dispatch is decided by the first marker within the
first fifty lines, with `23andMe` tested before `AncestryDNA` on each line:
the result has format `ancestry` exactly when that sniff reports AncestryDNA;
otherwise the format is `23andme` exactly when some line of the whole file
contains `23andMe`, and `unknown` otherwise. -/
theorem c5_format_dispatch (fc : JStr) :
    (parseGeneticFile fc).format =
      (if detectFormatGo ((splitLinesJs fc).take 50) = FileFormat.ancestry then
        FileFormat.ancestry
      else if (splitLinesJs fc).any (fun l => jsIncludes (jstr "23andMe") l) then
        FileFormat.f23andme
      else FileFormat.unknown) := by
  have hpg : parseGeneticFile fc =
      if detectFormat (splitLinesJs fc) = FileFormat.ancestry then parseAncestry fc
      else parse23andMe fc := rfl
  have hdet : detectFormat (splitLinesJs fc) =
      detectFormatGo ((splitLinesJs fc).take 50) := rfl
  by_cases hfmt : detectFormatGo ((splitLinesJs fc).take 50) = FileFormat.ancestry
  · rw [hpg, hdet, if_pos hfmt, if_pos hfmt]
    rfl
  · rw [hpg, hdet, if_neg hfmt, if_neg hfmt]
    have hflag : (parse23andMe fc).format =
        if ((splitLinesJs fc).enum.foldl c23Step initState).is23andMe then
          FileFormat.f23andme
        else FileFormat.unknown := rfl
    rw [hflag]
    have h1 : ((splitLinesJs fc).enum.foldl c23Step initState).is23andMe =
        ((splitLinesJs fc).enum.any
          (fun p => jsIncludes (jstr "23andMe") (jsTrim p.2))) := by
      rw [foldl_flag c23Step LoopState.is23andMe
        (fun l => jsIncludes (jstr "23andMe") (jsTrim l)) c23Step_is23]
      rfl
    have h2 : ((splitLinesJs fc).enum.any
        (fun p => jsIncludes (jstr "23andMe") (jsTrim p.2))) =
        ((splitLinesJs fc).any (fun l => jsIncludes (jstr "23andMe") l)) := by
      rw [any_enum (fun l => jsIncludes (jstr "23andMe") (jsTrim l))]
      exact anyCongr (fun l _ => jsIncludes_trim (by decide) (by decide) l)
    rw [h1, h2]

theorem foldlCongr {α β : Type} {f g : β → α → β} :
    ∀ (l : List α) (a : β), (∀ acc x, f acc x = g acc x) →
      l.foldl f a = l.foldl g a := by
  intro l
  induction l with
  | nil => intro a _; rfl
  | cons x t ih =>
    intro a h
    rw [List.foldl_cons, List.foldl_cons, h]
    exact ih _ h

theorem foldl_append_filterMap {α β : Type} (f : α → Option β) :
    ∀ (l : List α) (acc : List β),
      l.foldl (fun res x => res ++ (f x).toList) acc = acc ++ l.filterMap f := by
  intro l
  induction l with
  | nil => intro acc; simp
  | cons x t ih =>
    intro acc
    rw [List.foldl_cons, ih]
    cases hf : f x with
    | none => simp [List.filterMap_cons, hf]
    | some r => simp [List.filterMap_cons, hf]

theorem map_filterMap_eq_filter {α β : Type} (f : α → Option β) (g : β → α) :
    ∀ l : List α, (∀ x ∈ l, ∀ r, f x = some r → g r = x) →
      (l.filterMap f).map g = l.filter (fun x => (f x).isSome) := by
  intro l
  induction l with
  | nil => intro _; rfl
  | cons x t ih =>
    intro h
    rw [List.filterMap_cons, List.filter_cons]
    cases hf : f x with
    | none =>
      simp only [hf, Option.isSome_none, Bool.false_eq_true, if_false]
      exact ih (fun y hy => h y (List.mem_cons_of_mem x hy))
    | some r =>
      simp only [hf, Option.isSome_some, if_true, List.map_cons]
      rw [h x (List.mem_cons_self x t) r hf,
        ih (fun y hy => h y (List.mem_cons_of_mem x hy))]

/-- Each table entry's `id` equals its key. -/
theorem traits_id_eq : ∀ p ∈ TRAITS, (p.2 : TraitDefinition).id = p.1 := by
  intro p hp
  fin_cases hp <;> rfl

/-- No trait rule matches the empty genotype. -/
theorem traits_interpret_empty :
    ∀ p ∈ TRAITS, (p.2 : TraitDefinition).interpret [] = none := by
  intro p hp
  fin_cases hp <;> rfl

theorem getTrait_mem {tid : String} {t : TraitDefinition} (h : getTrait tid = some t) :
    (tid, t) ∈ TRAITS ∧ t.id = tid := by
  unfold getTrait at h
  obtain ⟨p, hfind, hsnd⟩ := Option.map_eq_some'.1 h
  have hmem := List.mem_of_find?_eq_some hfind
  have hpred : p.1 = tid := by simpa using List.find?_some hfind
  have hid := traits_id_eq p hmem
  constructor
  · have : p = (tid, t) := by
      rw [← hpred, ← hsnd]
    rw [← this]
    exact hmem
  · rw [← hsnd, hid, hpred]

theorem analyzeTrait_some_elim {m : GenotypeMap} {tid : String} {t : TraitDefinition}
    {r : InsightResult} (hgt : getTrait tid = some t)
    (h : analyzeTrait m tid = some r) :
    ∃ g intp, getGenotype m t.rsid = some g ∧ g ≠ [] ∧
      t.interpret g = some intp ∧
      r = { traitId := t.id, title := t.title, genotype := g,
            category := t.category, summary := intp.summary,
            confidence := intp.confidence, confidenceNote := intp.confidenceNote,
            whatToDoNext := intp.whatToDoNext, riskLevel := intp.riskLevel } := by
  unfold analyzeTrait at h
  simp only [hgt] at h
  cases hgg : getGenotype m t.rsid with
  | none =>
    simp only [hgg] at h
    exact Option.noConfusion h
  | some g =>
    simp only [hgg] at h
    by_cases hge : g = []
    · rw [if_pos hge] at h
      cases h
    · rw [if_neg hge] at h
      cases hint : t.interpret g with
      | none =>
        simp only [hint] at h
        exact Option.noConfusion h
      | some intp =>
        simp only [hint] at h
        injection h with h
        refine ⟨g, intp, ?_, hge, ?_, h.symm⟩
        · rfl
        · exact hint

theorem analyzeTrait_traitId {m : GenotypeMap} {tid : String} {r : InsightResult}
    (h : analyzeTrait m tid = some r) : r.traitId = tid := by
  cases hgt : getTrait tid with
  | none =>
    unfold analyzeTrait at h
    rw [hgt] at h
    cases h
  | some t =>
    obtain ⟨g, intp, -, -, -, hr⟩ := analyzeTrait_some_elim hgt h
    rw [hr]
    exact (getTrait_mem hgt).2

/-! ## Claim C2 -/

/-- **C2.**  Static rule-table matching: `analyzeAllTraits` returns exactly
the per-trait results, one per trait of the 16-entry table, in `TRAIT_ORDER`
order (it equals `filterMap` of `analyzeTrait` over `TRAIT_ORDER`, and the
returned trait ids are exactly the order-filtered matching ids, so each
matching trait contributes exactly one insight); a trait yields an insight
precisely when its rsID has a genotype in the map matched by one of its
rules; and each insight carries the map's genotype at the trait's rsID and
the matching rule's canned interpretation (summary, confidence, note,
recommendations, risk level) together with the trait's id, title and
category. -/
theorem c2_trait_rules (m : GenotypeMap) :
    analyzeAllTraits m = TRAIT_ORDER.filterMap (fun tid => analyzeTrait m tid) ∧
    (analyzeAllTraits m).map (fun r => r.traitId) =
      TRAIT_ORDER.filter (fun tid => (analyzeTrait m tid).isSome) ∧
    (∀ tid t, getTrait tid = some t →
      ((analyzeTrait m tid).isSome ↔
        ∃ g intp, getGenotype m t.rsid = some g ∧ t.interpret g = some intp)) ∧
    (∀ tid t r, getTrait tid = some t → analyzeTrait m tid = some r →
      getGenotype m t.rsid = some r.genotype ∧
      t.interpret r.genotype = some ⟨r.summary, r.confidence, r.confidenceNote,
        r.whatToDoNext, r.riskLevel⟩ ∧
      r.traitId = t.id ∧ r.title = t.title ∧ r.category = t.category) := by
  have hfm : analyzeAllTraits m = TRAIT_ORDER.filterMap (fun tid => analyzeTrait m tid) := by
    unfold analyzeAllTraits
    rw [foldlCongr TRAIT_ORDER ([] : List InsightResult)
      (g := fun res tid => res ++ (analyzeTrait m tid).toList) (fun acc tid => by
        cases h : analyzeTrait m tid with
        | none => simp [h]
        | some r => simp [h])]
    rw [foldl_append_filterMap (fun tid => analyzeTrait m tid) TRAIT_ORDER []]
    rw [List.nil_append]
  refine ⟨hfm, ?_, ?_, ?_⟩
  · rw [hfm]
    exact map_filterMap_eq_filter _ _ TRAIT_ORDER
      (fun tid _ r hr => analyzeTrait_traitId hr)
  · intro tid t hgt
    constructor
    · intro hsome
      obtain ⟨r, hr⟩ := Option.isSome_iff_exists.1 hsome
      obtain ⟨g, intp, hgg, -, hint, -⟩ := analyzeTrait_some_elim hgt hr
      exact ⟨g, intp, hgg, hint⟩
    · rintro ⟨g, intp, hgg, hint⟩
      have hge : g ≠ [] := by
        intro hcon
        rw [hcon] at hint
        rw [traits_interpret_empty (tid, t) (getTrait_mem hgt).1] at hint
        cases hint
      apply Option.isSome_iff_exists.2
      refine ⟨{ traitId := t.id, title := t.title, genotype := g,
                category := t.category, summary := intp.summary,
                confidence := intp.confidence, confidenceNote := intp.confidenceNote,
                whatToDoNext := intp.whatToDoNext, riskLevel := intp.riskLevel }, ?_⟩
      simp only [analyzeTrait, hgt, hgg]
      rw [if_neg hge]
      simp only [hint]
  · intro tid t r hgt hr
    obtain ⟨g, intp, hgg, hge, hint, hrec⟩ := analyzeTrait_some_elim hgt hr
    subst hrec
    exact ⟨hgg, by rw [hint], rfl, rfl, rfl⟩

/-- **C2, witness.**  The theorem applied to a concrete one-SNP map carrying
`AG` at rs4988235: the full result list is the order-filtered per-trait scan,
and the lactose-tolerance insight carries the map's genotype. -/
theorem c2_trait_rules_witness :
    analyzeAllTraits [(jstr "rs4988235", ⟨jstr "rs4988235", jstr "2", 1, jstr "AG"⟩)] =
      TRAIT_ORDER.filterMap (fun tid => analyzeTrait
        [(jstr "rs4988235", ⟨jstr "rs4988235", jstr "2", 1, jstr "AG"⟩)] tid) ∧
    getGenotype [(jstr "rs4988235", ⟨jstr "rs4988235", jstr "2", 1, jstr "AG"⟩)]
      lactoseTolerance.rsid = some (jstr "AG") :=
  ⟨(c2_trait_rules [(jstr "rs4988235", ⟨jstr "rs4988235", jstr "2", 1, jstr "AG"⟩)]).1,
   ((c2_trait_rules [(jstr "rs4988235", ⟨jstr "rs4988235", jstr "2", 1, jstr "AG"⟩)]).2.2.2
      "lactose-tolerance" lactoseTolerance
      { traitId := "lactose-tolerance", title := "Lactose Tolerance",
        genotype := jstr "AG", category := .diet,
        summary := "You likely produce lactase throughout adulthood, meaning you can digest dairy without issues.",
        confidence := .high,
        confidenceNote := "Well-studied genetic variant with strong scientific evidence.",
        whatToDoNext := ["Dairy products should be well-tolerated",
          "No genetic reason to avoid milk, cheese, or yogurt"],
        riskLevel := .optimal }
      (by rfl) (by rfl)).1⟩

/-! ## Claim C9 -/

/-- **C9, counterexample.**  The two copies of `parse23andMe` disagree on the
raw genotype `00`: the geni-site copy treats `00` as a no-call and skips the
line, while the geni-web copy (whose no-call check only tests `--` and empty)
stores it. -/
theorem c9_counterexample :
    (parse23andMe (jstr "rs1\t1\t1\t00")).data = [] ∧
    (web.parse23andMe (jstr "rs1\t1\t1\t00")).data =
      [(jstr "rs1", ⟨jstr "rs1", jstr "1", 1, jstr "00"⟩)] := by
  constructor <;> rfl

/-- **C9 (amended).**  On every input none of whose lines carries the raw
four-column genotype field `00`, the geni-site and geni-web `parse23andMe`
return the same genotype map (same keys, and the same rsid, chromosome,
position and genotype for each key). -/
theorem c9_parsers_agree (fc : JStr)
    (h : ∀ l ∈ splitLinesJs fc, rawGenotypeField (jsTrim l) ≠ some (jstr "00")) :
    (parse23andMe fc).data = (web.parse23andMe fc).data := by
  have hsite : (parse23andMe fc).data =
      (splitLinesJs fc).enum.foldl
        (fun d p => lineDataEffect parseLine true d p.2) initState.data :=
    foldl_data_proj c23Step LoopState.data _ c23Step_data _ _
  have hweb : (web.parse23andMe fc).data =
      (splitLinesJs fc).enum.foldl
        (fun d p => lineDataEffect webLineSNP true d p.2) web.initWState.data :=
    foldl_data_proj web.webStep web.WLoopState.data _ webStep_data _ _
  rw [hsite, hweb]
  exact c9_fold_eq
    (fun p hp => h p.2 (by
      rw [← List.enum_map_snd (splitLinesJs fc)]
      exact List.mem_map.2 ⟨p, hp, rfl⟩)) _

/-- **C9, witness.**  The amended equivalence applied to a concrete upload
with an ordinary line and a `--` no-call (no `00` genotype anywhere). -/
theorem c9_parsers_agree_witness :
    (parse23andMe (jstr "rs1\t1\t1\tga\nrs2\t2\t2\t--")).data =
      (web.parse23andMe (jstr "rs1\t1\t1\tga\nrs2\t2\t2\t--")).data :=
  c9_parsers_agree (jstr "rs1\t1\t1\tga\nrs2\t2\t2\t--") (by decide)

/-! ## Claim C3 -/

/-- **C3.**  Tolerant single-pass parsing is total (the embedding is a total
function by construction — no step of the parser can throw): for every input,
`totalLines` is the number of `\r?\n`-separated lines, `snpCount` is the size
of the returned map, every line is either kept (and its rsid is then present
in the returned map) or counted in `debug.skippedLines`
(`skippedLines + #kept = #lines`), and each skip reason listed in the claim —
blank line, `#`-comment, fewer than four fields under both splits, rsID not
starting with `rs`/`i`, non-numeric position, no-call genotype — makes a line
not kept. -/
theorem c3_parse_total (fc : JStr) :
    (parseGeneticFile fc).debug.totalLines = (splitLinesJs fc).length ∧
    (parseGeneticFile fc).snpCount = (parseGeneticFile fc).data.length ∧
    (parseGeneticFile fc).debug.skippedLines
        + (splitLinesJs fc).countP (keptLineFile fc) = (splitLinesJs fc).length ∧
    (∀ l ∈ splitLinesJs fc, keptLineFile fc l = true →
      ∃ snp, parseLine (jsTrim l) = some snp ∧
        mapHas (parseGeneticFile fc).data snp.rsid = true) ∧
    (∀ l ∈ splitLinesJs fc,
      (jsTrim l = [] ∨ jsStartsWith (jstr "#") (jsTrim l) = true ∨
        ((splitOnCharJs 9 (jsTrim l)).length < 4 ∧ (splitWsJs (jsTrim l)).length < 4) ∨
        (¬ jsStartsWith (jstr "rs") (jsToLower ((lineFields (jsTrim l)).getD 0 [])) = true ∧
         ¬ jsStartsWith (jstr "i") (jsToLower ((lineFields (jsTrim l)).getD 0 [])) = true) ∨
        jsParseInt ((lineFields (jsTrim l)).getD 2 []) = none ∨
        rawGenotypeField (jsTrim l) = some (jstr "--") ∨
        rawGenotypeField (jsTrim l) = some (jstr "00") ∨
        rawGenotypeField (jsTrim l) = some []) →
      keptLineFile fc l = false) := by
  have hpg : parseGeneticFile fc =
      if detectFormat (splitLinesJs fc) = FileFormat.ancestry then parseAncestry fc
      else parse23andMe fc := rfl
  by_cases hfmt : detectFormat (splitLinesJs fc) = FileFormat.ancestry
  · rw [hpg, if_pos hfmt]
    have hkept : ∀ l ∈ splitLinesJs fc, keptLineFile fc l = keptLineAncestry l := by
      intro l _
      simp [keptLineFile, hfmt]
    refine ⟨rfl, rfl, ?_, ?_, ?_⟩
    · rw [List.countP_congr (fun x hx => by rw [hkept x hx])]
      have hc := foldl_skip_count ancestryStep LoopState.skippedLines keptLineAncestry
        ancestryStep_skipped (splitLinesJs fc).enum initState
      rw [countP_enum, List.enum_length] at hc
      have hsk : (parseAncestry fc).debug.skippedLines =
          ((splitLinesJs fc).enum.foldl ancestryStep initState).skippedLines := rfl
      rw [hsk]
      simpa [initState] using hc
    · intro l hl hk
      rw [hkept l hl] at hk
      simp only [keptLineAncestry, decide_eq_true_eq] at hk
      obtain ⟨h0, hh, hsome⟩ := hk
      obtain ⟨snp, hsnp⟩ := Option.isSome_iff_exists.1 hsome
      refine ⟨snp, hsnp, ?_⟩
      have hd : (parseAncestry fc).data =
          (splitLinesJs fc).enum.foldl
            (fun d p => lineDataEffect parseLine false d p.2) initState.data :=
        foldl_data_proj ancestryStep LoopState.data _ ancestryStep_data _ _
      rw [hd]
      obtain ⟨p, hpmem, hpl⟩ := List.mem_map.1 (by rw [List.enum_map_snd]; exact hl)
      refine lineDataEffect_fold_has hpmem ?_ ?_ ?_ ?_
      · rw [hpl]; exact hsnp
      · rw [hpl]; exact h0
      · intro hfalse; cases hfalse
      · rw [hpl]; exact hh
    · intro l hl hreason
      rw [hkept l hl]
      simp only [keptLineAncestry, decide_eq_false_iff_not]
      rintro ⟨h0, hh, hsome⟩
      rcases hreason with hr | hr | hr
      · exact h0 hr
      · exact hh hr
      · rw [parseLine_none_of_reason hr] at hsome
        cases hsome
  · rw [hpg, if_neg hfmt]
    have hkept : ∀ l ∈ splitLinesJs fc, keptLineFile fc l = keptLine23 l := by
      intro l _
      simp [keptLineFile, hfmt]
    refine ⟨rfl, rfl, ?_, ?_, ?_⟩
    · rw [List.countP_congr (fun x hx => by rw [hkept x hx])]
      have hc := foldl_skip_count c23Step LoopState.skippedLines keptLine23
        c23Step_skipped (splitLinesJs fc).enum initState
      rw [countP_enum, List.enum_length] at hc
      have hsk : (parse23andMe fc).debug.skippedLines =
          ((splitLinesJs fc).enum.foldl c23Step initState).skippedLines := rfl
      rw [hsk]
      simpa [initState] using hc
    · intro l hl hk
      rw [hkept l hl] at hk
      simp only [keptLine23, decide_eq_true_eq] at hk
      obtain ⟨h0, hi, hh, hsome⟩ := hk
      obtain ⟨snp, hsnp⟩ := Option.isSome_iff_exists.1 hsome
      refine ⟨snp, hsnp, ?_⟩
      have hd : (parse23andMe fc).data =
          (splitLinesJs fc).enum.foldl
            (fun d p => lineDataEffect parseLine true d p.2) initState.data :=
        foldl_data_proj c23Step LoopState.data _ c23Step_data _ _
      rw [hd]
      obtain ⟨p, hpmem, hpl⟩ := List.mem_map.1 (by rw [List.enum_map_snd]; exact hl)
      refine lineDataEffect_fold_has hpmem ?_ ?_ ?_ ?_
      · rw [hpl]; exact hsnp
      · rw [hpl]; exact h0
      · intro _; rw [hpl]; exact hi
      · rw [hpl]; exact hh
    · intro l hl hreason
      rw [hkept l hl]
      simp only [keptLine23, decide_eq_false_iff_not]
      rintro ⟨h0, hi, hh, hsome⟩
      rcases hreason with hr | hr | hr
      · exact h0 hr
      · exact hh hr
      · rw [parseLine_none_of_reason hr] at hsome
        cases hsome

/-- **C3, witness.**  The theorem applied to the concrete two-line upload
`rs1 1 1 ga` + `# c`: the comment line is not kept, and the skip counter and
kept count partition the line count. -/
theorem c3_parse_total_witness :
    keptLineFile (jstr "rs1\t1\t1\tga\n# c") (jstr "# c") = false ∧
    (parseGeneticFile (jstr "rs1\t1\t1\tga\n# c")).debug.skippedLines
        + (splitLinesJs (jstr "rs1\t1\t1\tga\n# c")).countP
            (keptLineFile (jstr "rs1\t1\t1\tga\n# c"))
      = (splitLinesJs (jstr "rs1\t1\t1\tga\n# c")).length :=
  ⟨(c3_parse_total (jstr "rs1\t1\t1\tga\n# c")).2.2.2.2 (jstr "# c") (by decide)
      (Or.inr (Or.inl (by decide))),
   (c3_parse_total (jstr "rs1\t1\t1\tga\n# c")).2.2.1⟩

theorem mapGet_mapSet_self {α : Type} (d : List (JStr × α)) (k : JStr) (v : α) :
    mapGet (mapSet d k v) k = some v := by
  unfold mapGet mapSet
  split_ifs with h
  · induction d with
    | nil => simp at h
    | cons p t ih =>
      simp only [List.any_cons, Bool.or_eq_true, decide_eq_true_eq] at h
      by_cases hp : p.1 = k
      · rw [List.map_cons, if_pos hp, List.find?_cons_of_pos _ (by simp)]
        rfl
      · rw [List.map_cons, if_neg hp, List.find?_cons_of_neg _ (by simpa using hp)]
        apply ih
        rcases h with h | h
        · exact absurd h hp
        · simpa using h
  · have hnone : List.find? (fun p => decide (p.1 = k)) d = none := by
      rw [List.find?_eq_none]
      intro a ha
      simp only [List.any_eq_true] at h
      push_neg at h
      simpa using h a ha
    rw [List.find?_append, hnone]
    simp

theorem mapGet_mapSet_ne {α : Type} (d : List (JStr × α)) (k k' : JStr) (v : α)
    (h : k' ≠ k) : mapGet (mapSet d k v) k' = mapGet d k' := by
  unfold mapGet mapSet
  have hfind : ∀ t : List (JStr × α),
      List.find? (fun p => decide (p.1 = k'))
          (t.map (fun p => if p.1 = k then (k, v) else p)) =
        List.find? (fun p => decide (p.1 = k')) t := by
    intro t
    induction t with
    | nil => rfl
    | cons p t ih =>
      rw [List.map_cons]
      by_cases hp : p.1 = k
      · rw [if_pos hp, List.find?_cons_of_neg _ (by simpa using Ne.symm h),
          List.find?_cons_of_neg _ (by simp [hp]; exact Ne.symm h)]
        exact ih
      · rw [if_neg hp]
        by_cases hpk : p.1 = k'
        · rw [List.find?_cons_of_pos _ (by simpa using hpk),
            List.find?_cons_of_pos _ (by simpa using hpk)]
        · rw [List.find?_cons_of_neg _ (by simpa using hpk),
            List.find?_cons_of_neg _ (by simpa using hpk)]
          exact ih
  split_ifs with hany
  · rw [hfind]
  · rw [List.find?_append]
    have : List.find? (fun p => decide (p.1 = k')) [(k, v)] = none := by
      simp [Ne.symm h]
    rw [this]
    simp

/-- The deserialization fold leaves keys it never touches alone. -/
theorem deser_fold_lookup_none {k : JStr} :
    ∀ (l : List SerializedGenotype) (m0 : GenotypeMap),
      (∀ s ∈ l, s.rsid ≠ k) →
      mapGet (l.foldl (fun map s =>
        mapSet map s.rsid ⟨s.rsid, [], 0, s.genotype⟩) m0) k = mapGet m0 k := by
  intro l
  induction l with
  | nil => intro m0 _; rfl
  | cons s t ih =>
    intro m0 hall
    rw [List.foldl_cons, ih _ (fun x hx => hall x (List.mem_cons_of_mem s hx)),
      mapGet_mapSet_ne _ _ _ _ (Ne.symm (hall s (List.mem_cons_self s t)))]

/-- The deserialization fold stores `⟨k, "", 0, g⟩` for a key all of whose
serialized occurrences carry genotype `g`. -/
theorem deser_fold_lookup_some {k g : JStr} :
    ∀ (l : List SerializedGenotype) (m0 : GenotypeMap),
      (∀ s ∈ l, s.rsid = k → s.genotype = g) → (∃ s ∈ l, s.rsid = k) →
      mapGet (l.foldl (fun map s =>
        mapSet map s.rsid ⟨s.rsid, [], 0, s.genotype⟩) m0) k =
        some ⟨k, [], 0, g⟩ := by
  intro l
  induction l with
  | nil =>
    intro m0 _ hex
    simp at hex
  | cons s t ih =>
    intro m0 hall hex
    rw [List.foldl_cons]
    by_cases ht : ∃ s' ∈ t, s'.rsid = k
    · exact ih _ (fun x hx => hall x (List.mem_cons_of_mem s hx)) ht
    · have hs : s.rsid = k := by
        rcases hex with ⟨s', hs', hk'⟩
        rcases List.mem_cons.1 hs' with h | h
        · rw [← h]; exact hk'
        · exact absurd ⟨s', h, hk'⟩ ht
      have hg : s.genotype = g := hall s (List.mem_cons_self s t) hs
      push_neg at ht
      rw [deser_fold_lookup_none t _ ht, hs, hg, mapGet_mapSet_self]

/-- Forward characterization of `serializeGenotypes` membership. -/
theorem mem_serializeGenotypes {map : GenotypeMap} {rsids : List JStr}
    {s : SerializedGenotype} (h : s ∈ serializeGenotypes map rsids) :
    ∃ rsid ∈ rsids, getGenotype map rsid = some s.genotype ∧
      s.genotype ≠ [] ∧ s.rsid = jsToLower rsid := by
  obtain ⟨rsid, hmem, hf⟩ := List.mem_filterMap.1 h
  refine ⟨rsid, hmem, ?_⟩
  revert hf
  cases hg : getGenotype map rsid with
  | none => intro hf; cases hf
  | some g =>
    intro hf
    have hf2 : (if g = [] then none
        else some (⟨jsToLower rsid, g⟩ : SerializedGenotype)) = some s := hf
    split_ifs at hf2 with hne
    injection hf2 with hf2
    subst hf2
    exact ⟨rfl, hne, rfl⟩

/-! ## Claim C10 -/

/-- **C10, counterexample.**  The claim quantifies over every genotype map
and every listed rsID present in it.  A map holding the empty genotype for
`rs1` (constructible with `deserializeGenotypes` itself) disagrees with its
round-trip: the original `getGenotype` returns the empty string, but
`serializeGenotypes` drops the falsy empty genotype, so the round-tripped map
returns `null`. -/
theorem c10_counterexample :
    getGenotype (deserializeGenotypes [⟨jstr "rs1", []⟩]) (jstr "rs1") = some [] ∧
    getGenotype (deserializeGenotypes (serializeGenotypes
      (deserializeGenotypes [⟨jstr "rs1", []⟩]) [jstr "rs1"])) (jstr "rs1") = none := by
  constructor <;> rfl

/-- **C10 (amended).**  For every genotype map and rsID list,
`deserializeGenotypes (serializeGenotypes map rsids)` agrees with the
original map on `getGenotype` for every listed rsID whose genotype in the
original map is not the (falsy, hence dropped) empty string; and every entry
of a deserialized map has chromosome `""` and position `0`. -/
theorem c10_serialize_roundtrip :
    (∀ (map : GenotypeMap) (rsids : List JStr) (r : JStr), r ∈ rsids →
      getGenotype map r ≠ some [] →
      getGenotype (deserializeGenotypes (serializeGenotypes map rsids)) r =
        getGenotype map r) ∧
    (∀ (serialized : List SerializedGenotype) (k : JStr) (e : SNPData),
      (k, e) ∈ deserializeGenotypes serialized →
      e.chromosome = [] ∧ e.position = 0) := by
  constructor
  · intro map rsids r hr hne
    unfold getGenotype getSNP
    unfold deserializeGenotypes
    cases hg : mapGet map (jsToLower r) with
    | none =>
      have hnone2 : ∀ s ∈ serializeGenotypes map rsids, s.rsid ≠ jsToLower r := by
        intro s hs hk
        obtain ⟨rsid, _, hgot, hne2, hlow⟩ := mem_serializeGenotypes hs
        rw [hk] at hlow
        unfold getGenotype getSNP at hgot
        rw [← hlow] at hgot
        rw [hg] at hgot
        cases hgot
      rw [deser_fold_lookup_none _ _ hnone2]
      rfl
    | some e =>
      have hgne : e.genotype ≠ [] := by
        intro hcon
        apply hne
        unfold getGenotype getSNP
        rw [hg]
        simp [hcon]
      have hall : ∀ s ∈ serializeGenotypes map rsids,
          s.rsid = jsToLower r → s.genotype = e.genotype := by
        intro s hs hk
        obtain ⟨rsid, _, hgot, hne2, hlow⟩ := mem_serializeGenotypes hs
        rw [hk] at hlow
        unfold getGenotype getSNP at hgot
        rw [← hlow] at hgot
        rw [hg] at hgot
        exact (Option.some.inj hgot).symm
      have hex : ∃ s ∈ serializeGenotypes map rsids, s.rsid = jsToLower r := by
        refine ⟨⟨jsToLower r, e.genotype⟩, ?_, rfl⟩
        apply List.mem_filterMap.2
        refine ⟨r, hr, ?_⟩
        rw [show getGenotype map r = some e.genotype from by
          unfold getGenotype getSNP
          rw [hg]
          rfl]
        simp only [if_neg hgne]
      rw [deser_fold_lookup_some _ _ hall hex]
      rfl
  · intro serialized k e h
    unfold deserializeGenotypes at h
    have hinv := @foldl_inv GenotypeMap SerializedGenotype
      (fun m : GenotypeMap =>
        ∀ p ∈ m, (p.2 : SNPData).chromosome = [] ∧ p.2.position = 0)
      (fun map s => mapSet map s.rsid ⟨s.rsid, [], 0, s.genotype⟩)
      (fun m s hm p hp => by
        rcases mem_mapSet hp with h1 | h1
        · exact hm p h1
        · subst h1
          exact ⟨rfl, rfl⟩)
      serialized [] (by intro p hp; cases hp)
    exact hinv (k, e) h

/-- **C10, witness.**  The round-trip applied to a concrete one-entry map
with the listed rsID `rs1`, and the reset-fields part applied to a concrete
deserialized entry. -/
theorem c10_serialize_roundtrip_witness :
    getGenotype (deserializeGenotypes (serializeGenotypes
        [(jstr "rs1", ⟨jstr "rs1", jstr "1", 1, jstr "AG"⟩)] [jstr "rs1"]))
        (jstr "rs1") =
      getGenotype [(jstr "rs1", ⟨jstr "rs1", jstr "1", 1, jstr "AG"⟩)] (jstr "rs1") ∧
    (⟨jstr "rs1", [], 0, jstr "AG"⟩ : SNPData).chromosome = [] :=
  ⟨c10_serialize_roundtrip.1 [(jstr "rs1", ⟨jstr "rs1", jstr "1", 1, jstr "AG"⟩)]
      [jstr "rs1"] (jstr "rs1") (by decide) (by decide),
   (c10_serialize_roundtrip.2 [⟨jstr "rs1", jstr "AG"⟩] (jstr "rs1")
      ⟨jstr "rs1", [], 0, jstr "AG"⟩ (by decide)).1⟩

/-! ## Claim C4 -/

/-- **C4, counterexample.**  The claim says every stored genotype is an
uppercase *two-character* string.  The input line `rs1 1 1 ATG` is accepted
and stores the three-character genotype `ATG` (normalization leaves strings
longer than two characters unchanged). -/
theorem c4_counterexample :
    getGenotype (parseGeneticFile (jstr "rs1\t1\t1\tATG")).data (jstr "rs1") =
      some (jstr "ATG") ∧ (jstr "ATG").length = 3 := by
  constructor <;> rfl

/-- **C4 (amended).**  Every genotype stored by `parseGeneticFile` is
normalized: it contains no lowercase letter (uppercasing fixes it), it never
has length one (single letters are doubled), and when it has exactly two
characters they are in sorted order (`GA` is stored as `AG`).  Genotypes of
other lengths (e.g. multi-base indels) are stored uppercased as-is. -/
theorem c4_genotype_normalized (fc : JStr) (k : JStr) (e : SNPData)
    (h : (k, e) ∈ (parseGeneticFile fc).data) :
    jsToUpper e.genotype = e.genotype ∧ e.genotype.length ≠ 1 ∧
      ∀ a b, e.genotype = [a, b] → a ≤ b := by
  obtain ⟨t, hp, hk⟩ := parseGeneticFile_data_mem h
  obtain ⟨⟨g, hg⟩, -, -⟩ := parseLine_some_props hp
  rw [hg]
  exact ⟨normalizeGenotype_upper g, normalizeGenotype_length_ne_one g,
    normalizeGenotype_sorted2 g⟩

/-- **C4, witness.**  The theorem applied to the concrete upload
`rs1 1 1 ga`, whose stored genotype is `AG`. -/
theorem c4_genotype_normalized_witness : jsToUpper (jstr "AG") = jstr "AG" :=
  (c4_genotype_normalized (jstr "rs1\t1\t1\tga") (jstr "rs1")
    ⟨jstr "rs1", jstr "1", 1, jstr "AG"⟩ (by decide)).1

/-! ## Claim C8 -/

/-- **C8, counterexample.**  The claim says the returned map never contains
an entry whose genotype is `--`, `00` or empty.  But the no-call check runs
on the *raw* field before normalization: the accepted line `rs1 1 1 0`
stores the normalized genotype `00`. -/
theorem c8_counterexample :
    getGenotype (parseGeneticFile (jstr "rs1\t1\t1\t0")).data (jstr "rs1") =
      some (jstr "00") := by
  rfl

/-- **C8 (amended).**  Raw `--`/`00`/empty genotype fields are skipped, but
normalization can reintroduce `00` (and `--`, and the empty string) from raw
fields such as `0`; what does hold is the key half of the claim: every key of
the returned map is a lowercased rsID beginning with `rs` or `i` (and equals
its record's `rsid`), and `getSNP`/`hasSNP`/`getGenotype` are insensitive to
the case of the queried rsID on every genotype map. -/
theorem c8_key_normalization :
    (∀ (fc k : JStr) (e : SNPData), (k, e) ∈ (parseGeneticFile fc).data →
      k = e.rsid ∧ jsToLower k = k ∧
        (jsStartsWith (jstr "rs") k = true ∨ jsStartsWith (jstr "i") k = true)) ∧
    (∀ (map : GenotypeMap) (rsid : JStr),
      getSNP map rsid = getSNP map (jsToLower rsid) ∧
        hasSNP map rsid = hasSNP map (jsToLower rsid) ∧
        getGenotype map rsid = getGenotype map (jsToLower rsid)) := by
  constructor
  · intro fc k e h
    obtain ⟨t, hp, hk⟩ := parseGeneticFile_data_mem h
    obtain ⟨-, ⟨r, hr⟩, hs⟩ := parseLine_some_props hp
    subst hk
    refine ⟨rfl, ?_, hs⟩
    rw [hr, jsToLower_idem]
  · intro map rsid
    refine ⟨?_, ?_, ?_⟩
    · unfold getSNP
      rw [jsToLower_idem]
    · unfold hasSNP
      rw [jsToLower_idem]
    · unfold getGenotype getSNP
      rw [jsToLower_idem]

/-- **C8, witness.**  The key half applied to the concrete upload
`RS1 1 1 ga` (stored under the lowercased key `rs1`), and the lookup half
applied to a concrete one-entry map queried with uppercase `RS1`. -/
theorem c8_key_normalization_witness :
    jsToLower (jstr "rs1") = jstr "rs1" ∧
      getGenotype [(jstr "rs1", ⟨jstr "rs1", jstr "1", 1, jstr "AG"⟩)] (jstr "RS1") =
        getGenotype [(jstr "rs1", ⟨jstr "rs1", jstr "1", 1, jstr "AG"⟩)]
          (jsToLower (jstr "RS1")) :=
  ⟨(c8_key_normalization.1 (jstr "RS1\t1\t1\tga") (jstr "rs1")
      ⟨jstr "rs1", jstr "1", 1, jstr "AG"⟩ (by decide)).2.1,
   (c8_key_normalization.2 [(jstr "rs1", ⟨jstr "rs1", jstr "1", 1, jstr "AG"⟩)]
      (jstr "RS1")).2.2⟩

/-! ## Codec round-trips -/

theorem b64SextetOf_b64Char : ∀ i, i < 64 → b64SextetOf (b64Char i) = some i := by
  decide

theorem b64SextetOf_61 : b64SextetOf 61 = none := by
  decide

theorem b64Quads_cons4 (x y z w : Nat) (s : List Nat) :
    b64Quads (x :: y :: z :: w :: s) =
      (x * 4 + y / 16) :: (y % 16 * 16 + z / 4) :: (z % 4 * 64 + w) :: b64Quads s := rfl

/-- Base64 round-trip on byte lists. -/
theorem b64Decode_encode : ∀ l : List Nat, (∀ b ∈ l, b < 256) →
    b64Decode (b64Encode l) = l
  | [], _ => rfl
  | [a], h => by
    have ha : a < 256 := h a (List.mem_singleton.2 rfl)
    have h1 : b64SextetOf (b64Char (a / 4)) = some (a / 4) :=
      b64SextetOf_b64Char _ (by omega)
    have h2 : b64SextetOf (b64Char (a % 4 * 16)) = some (a % 4 * 16) :=
      b64SextetOf_b64Char _ (by omega)
    show b64Quads (List.filterMap b64SextetOf
      [b64Char (a / 4), b64Char (a % 4 * 16), 61, 61]) = [a]
    simp only [List.filterMap_cons, h1, h2, b64SextetOf_61, List.filterMap_nil]
    show [a / 4 * 4 + a % 4 * 16 / 16] = [a]
    have : a / 4 * 4 + a % 4 * 16 / 16 = a := by omega
    rw [this]
  | [a, b], h => by
    have ha : a < 256 := h a (by simp)
    have hb : b < 256 := h b (by simp)
    have h1 : b64SextetOf (b64Char (a / 4)) = some (a / 4) :=
      b64SextetOf_b64Char _ (by omega)
    have h2 : b64SextetOf (b64Char (a % 4 * 16 + b / 16)) = some (a % 4 * 16 + b / 16) :=
      b64SextetOf_b64Char _ (by omega)
    have h3 : b64SextetOf (b64Char (b % 16 * 4)) = some (b % 16 * 4) :=
      b64SextetOf_b64Char _ (by omega)
    show b64Quads (List.filterMap b64SextetOf
      [b64Char (a / 4), b64Char (a % 4 * 16 + b / 16), b64Char (b % 16 * 4), 61]) = [a, b]
    simp only [List.filterMap_cons, h1, h2, h3, b64SextetOf_61, List.filterMap_nil]
    show [a / 4 * 4 + (a % 4 * 16 + b / 16) / 16,
      (a % 4 * 16 + b / 16) % 16 * 16 + b % 16 * 4 / 4] = [a, b]
    have e1 : a / 4 * 4 + (a % 4 * 16 + b / 16) / 16 = a := by omega
    have e2 : (a % 4 * 16 + b / 16) % 16 * 16 + b % 16 * 4 / 4 = b := by omega
    rw [e1, e2]
  | a :: b :: c :: rest, h => by
    have ha : a < 256 := h a (by simp)
    have hb : b < 256 := h b (by simp)
    have hc : c < 256 := h c (by simp)
    have ih := b64Decode_encode rest (fun x hx => h x (by simp [hx]))
    have h1 : b64SextetOf (b64Char (a / 4)) = some (a / 4) :=
      b64SextetOf_b64Char _ (by omega)
    have h2 : b64SextetOf (b64Char (a % 4 * 16 + b / 16)) = some (a % 4 * 16 + b / 16) :=
      b64SextetOf_b64Char _ (by omega)
    have h3 : b64SextetOf (b64Char (b % 16 * 4 + c / 64)) = some (b % 16 * 4 + c / 64) :=
      b64SextetOf_b64Char _ (by omega)
    have h4 : b64SextetOf (b64Char (c % 64)) = some (c % 64) :=
      b64SextetOf_b64Char _ (by omega)
    show b64Quads (List.filterMap b64SextetOf
      ([b64Char (a / 4), b64Char (a % 4 * 16 + b / 16), b64Char (b % 16 * 4 + c / 64),
        b64Char (c % 64)] ++ b64Encode rest)) = a :: b :: c :: rest
    rw [List.filterMap_append]
    simp only [List.filterMap_cons, h1, h2, h3, h4, List.filterMap_nil]
    simp only [List.cons_append, List.nil_append]
    rw [b64Quads_cons4]
    have e1 : a / 4 * 4 + (a % 4 * 16 + b / 16) / 16 = a := by omega
    have e2 : (a % 4 * 16 + b / 16) % 16 * 16 + (b % 16 * 4 + c / 64) / 4 = b := by omega
    have e3 : (b % 16 * 4 + c / 64) % 4 * 64 + c % 64 = c := by omega
    rw [e1, e2, e3]
    exact congrArg (fun t => a :: b :: c :: t) ih

/-- Every character emitted by `b64Encode` is padding or an alphabet
character. -/
theorem b64Encode_chars : ∀ l : List Nat, (∀ b ∈ l, b < 256) →
    ∀ c ∈ b64Encode l, c = 61 ∨ ∃ i, i < 64 ∧ c = b64Char i
  | [], _ => by intro c hc; cases hc
  | [a], h => by
    have ha : a < 256 := h a (List.mem_singleton.2 rfl)
    intro c hc
    simp only [b64Encode, List.mem_cons, List.not_mem_nil, or_false] at hc
    rcases hc with rfl | rfl | rfl | rfl
    · exact Or.inr ⟨a / 4, by omega, rfl⟩
    · exact Or.inr ⟨a % 4 * 16, by omega, rfl⟩
    · exact Or.inl rfl
    · exact Or.inl rfl
  | [a, b], h => by
    have ha : a < 256 := h a (by simp)
    have hb : b < 256 := h b (by simp)
    intro c hc
    simp only [b64Encode, List.mem_cons, List.not_mem_nil, or_false] at hc
    rcases hc with rfl | rfl | rfl | rfl
    · exact Or.inr ⟨a / 4, by omega, rfl⟩
    · exact Or.inr ⟨a % 4 * 16 + b / 16, by omega, rfl⟩
    · exact Or.inr ⟨b % 16 * 4, by omega, rfl⟩
    · exact Or.inl rfl
  | a :: b :: c0 :: rest, h => by
    have ha : a < 256 := h a (by simp)
    have hb : b < 256 := h b (by simp)
    have hc0 : c0 < 256 := h c0 (by simp)
    have ih := b64Encode_chars rest (fun x hx => h x (by simp [hx]))
    intro c hc
    simp only [b64Encode] at hc
    rcases List.mem_append.1 hc with hc | hc
    · simp only [List.mem_cons, List.not_mem_nil, or_false] at hc
      rcases hc with rfl | rfl | rfl | rfl
      · exact Or.inr ⟨a / 4, by omega, rfl⟩
      · exact Or.inr ⟨a % 4 * 16 + b / 16, by omega, rfl⟩
      · exact Or.inr ⟨b % 16 * 4 + c0 / 64, by omega, rfl⟩
      · exact Or.inr ⟨c0 % 64, by omega, rfl⟩
    · exact ih c hc

theorem urlOfB64Char_roundchar : ∀ i, i < 64 →
    (urlOfB64Char (b64Char i)).map b64OfUrlChar = some (b64Char i) := by
  decide

theorem urlOfB64Char_61 : urlOfB64Char 61 = none := rfl

/-- The url-safe encode/decode pair of `jwt.server.ts` round-trips on byte
lists. -/
theorem b64UrlDecodeBytes_of_encode (l : List Nat) (h : ∀ b ∈ l, b < 256) :
    b64UrlDecodeBytes (b64UrlOfBytes l) = l := by
  unfold b64UrlDecodeBytes
  have hpad : ∀ s : JStr,
      b64Decode (if 4 - s.length % 4 ≠ 4 then s ++ List.replicate (4 - s.length % 4) 61
        else s) = b64Decode s := by
    intro s
    split_ifs with hp
    · unfold b64Decode
      rw [List.filterMap_append]
      have hrep : List.filterMap b64SextetOf (List.replicate (4 - s.length % 4) 61) = [] := by
        generalize 4 - s.length % 4 = n
        induction n with
        | zero => rfl
        | succ k ihk =>
          rw [List.replicate_succ, List.filterMap_cons, b64SextetOf_61]
          exact ihk
      rw [hrep, List.append_nil]
    · rfl
  rw [hpad]
  have hmap : (((b64UrlOfBytes l).map b64OfUrlChar).filterMap b64SextetOf) =
      ((b64Encode l).filterMap b64SextetOf) := by
    unfold b64UrlOfBytes
    have hchars := b64Encode_chars l h
    generalize b64Encode l = s at hchars ⊢
    induction s with
    | nil => rfl
    | cons c t iht =>
      have hct := hchars c (List.mem_cons_self c t)
      have htail := iht (fun x hx => hchars x (List.mem_cons_of_mem c hx))
      rcases hct with rfl | ⟨i, hi, rfl⟩
      · rw [List.filterMap_cons, urlOfB64Char_61, List.filterMap_cons, b64SextetOf_61]
        exact htail
      · obtain ⟨d, hd1, hd2⟩ := Option.map_eq_some'.1 (urlOfB64Char_roundchar i hi)
        rw [List.filterMap_cons, hd1, List.map_cons, hd2, List.filterMap_cons,
          List.filterMap_cons]
        cases hs : b64SextetOf (b64Char i) with
        | none => exact htail
        | some j => rw [htail]
  show b64Decode ((b64UrlOfBytes l).map b64OfUrlChar) = l
  unfold b64Decode
  rw [hmap]
  exact b64Decode_encode l h

theorem utf8Encode_cons (c : Nat) (t : JStr) :
    utf8Encode (c :: t) = utf8EncodeChar c ++ utf8Encode t := by
  simp [utf8Encode]

/-- Every UTF-8 byte of a valid string is a byte. -/
theorem utf8Encode_lt256 : ∀ s : JStr, (∀ c ∈ s, validScalar c) →
    ∀ b ∈ utf8Encode s, b < 256 := by
  intro s
  induction s with
  | nil => intro _ b hb; cases hb
  | cons c t ih =>
    intro h b hb
    rw [utf8Encode_cons] at hb
    rcases List.mem_append.1 hb with hb | hb
    · have hc := h c (List.mem_cons_self c t)
      unfold validScalar at hc
      unfold utf8EncodeChar at hb
      split_ifs at hb with h1 h2 h3
      · simp only [List.mem_singleton] at hb
        omega
      · simp only [List.mem_cons, List.not_mem_nil, or_false] at hb
        rcases hb with rfl | rfl <;> omega
      · simp only [List.mem_cons, List.not_mem_nil, or_false] at hb
        rcases hb with rfl | rfl | rfl <;> omega
      · simp only [List.mem_cons, List.not_mem_nil, or_false] at hb
        rcases hb with rfl | rfl | rfl | rfl <;> omega
    · exact ih (fun x hx => h x (List.mem_cons_of_mem c hx)) b hb

/-- Every character occupies at least one byte. -/
theorem length_utf8EncodeChar_pos (c : Nat) : 1 ≤ (utf8EncodeChar c).length := by
  unfold utf8EncodeChar
  split_ifs <;> simp

theorem length_le_utf8Encode : ∀ s : JStr, s.length ≤ (utf8Encode s).length := by
  intro s
  induction s with
  | nil => simp [utf8Encode]
  | cons c t ih =>
    rw [utf8Encode_cons]
    simp only [List.length_append, List.length_cons]
    have := length_utf8EncodeChar_pos c
    omega

/-- UTF-8 round-trip on strings of valid scalars, fueled form. -/
theorem utf8DecodeF_encode : ∀ (s : JStr) (fuel : Nat), (∀ c ∈ s, validScalar c) →
    s.length ≤ fuel → utf8DecodeF fuel (utf8Encode s) = some s := by
  intro s
  induction s with
  | nil => intro fuel _ _; cases fuel <;> rfl
  | cons c t ih =>
    intro fuel h hf
    cases fuel with
    | zero => simp only [List.length_cons] at hf; omega
    | succ f =>
      have hc := h c (List.mem_cons_self c t)
      unfold validScalar at hc
      have iht := ih f (fun x hx => h x (List.mem_cons_of_mem c hx))
        (by simp only [List.length_cons] at hf; omega)
      rw [utf8Encode_cons]
      unfold utf8EncodeChar
      by_cases h1 : c < 0x80
      · rw [if_pos h1]
        simp only [List.cons_append, List.nil_append, List.append_eq, utf8DecodeF]
        rw [if_pos h1, iht]
        rfl
      · rw [if_neg h1]
        by_cases h2 : c < 0x800
        · rw [if_pos h2]
          simp only [List.cons_append, List.nil_append, List.append_eq, utf8DecodeF]
          rw [if_neg (by omega), if_pos (by omega : 0xC2 ≤ 192 + c / 64 ∧ 192 + c / 64 < 0xE0),
            if_pos (by omega : 0x80 ≤ 128 + c % 64 ∧ 128 + c % 64 < 0xC0)]
          have hv : (192 + c / 64 - 0xC0) * 64 + (128 + c % 64 - 0x80) = c := by omega
          rw [hv, iht]
          rfl
        · rw [if_neg h2]
          by_cases h3 : c < 0x10000
          · rw [if_pos h3]
            simp only [List.cons_append, List.nil_append, List.append_eq, utf8DecodeF]
            rw [if_neg (by omega),
              if_neg (by omega : ¬ (0xC2 ≤ 224 + c / 4096 ∧ 224 + c / 4096 < 0xE0)),
              if_pos (by omega : 0xE0 ≤ 224 + c / 4096 ∧ 224 + c / 4096 < 0xF0),
              if_pos (by omega : 0x80 ≤ 128 + c / 64 % 64 ∧ 128 + c / 64 % 64 < 0xC0 ∧
                0x80 ≤ 128 + c % 64 ∧ 128 + c % 64 < 0xC0)]
            have hv : (224 + c / 4096 - 0xE0) * 4096 + (128 + c / 64 % 64 - 0x80) * 64 +
                (128 + c % 64 - 0x80) = c := by omega
            rw [hv, if_pos (by omega), iht]
            rfl
          · rw [if_neg h3]
            simp only [List.cons_append, List.nil_append, List.append_eq, utf8DecodeF]
            rw [if_neg (by omega),
              if_neg (by omega : ¬ (0xC2 ≤ 240 + c / 0x40000 ∧ 240 + c / 0x40000 < 0xE0)),
              if_neg (by omega : ¬ (0xE0 ≤ 240 + c / 0x40000 ∧ 240 + c / 0x40000 < 0xF0)),
              if_pos (by omega : 0xF0 ≤ 240 + c / 0x40000 ∧ 240 + c / 0x40000 < 0xF5),
              if_pos (by omega : 0x80 ≤ 128 + c / 4096 % 64 ∧ 128 + c / 4096 % 64 < 0xC0 ∧
                0x80 ≤ 128 + c / 64 % 64 ∧ 128 + c / 64 % 64 < 0xC0 ∧
                0x80 ≤ 128 + c % 64 ∧ 128 + c % 64 < 0xC0)]
            have hv : (240 + c / 0x40000 - 0xF0) * 0x40000 +
                (128 + c / 4096 % 64 - 0x80) * 4096 +
                (128 + c / 64 % 64 - 0x80) * 64 + (128 + c % 64 - 0x80) = c := by omega
            rw [hv, if_pos (by omega), iht]
            rfl

/-- UTF-8 round-trip on strings of valid scalars. -/
theorem utf8Decode_encode (s : JStr) (h : ∀ c ∈ s, validScalar c) :
    utf8Decode (utf8Encode s) = some s :=
  utf8DecodeF_encode s (utf8Encode s).length h (length_le_utf8Encode s)

/-! ## JSON round-trip lemmas -/

theorem skipWs_cons {c : Nat} (r : JStr) (h : isJsonWs c = false) :
    skipWs (c :: r) = c :: r := by
  simp [skipWs, List.dropWhile_cons, h]

theorem digitsVal_append_digit (l : JStr) (d : Nat) :
    digitsVal (l ++ [d]) = digitsVal l * 10 + (d - 48) := by
  simp [digitsVal, List.foldl_append]

/-- Properties of the decimal digit printer: nonempty output, digit code
points, value, and a leading `0` only for zero itself. -/
theorem natDecAux_spec : ∀ (fuel n : Nat), n < fuel →
    natDecAux fuel n ≠ [] ∧ (∀ c ∈ natDecAux fuel n, 48 ≤ c ∧ c ≤ 57) ∧
    digitsVal (natDecAux fuel n) = n ∧
    (∀ t, natDecAux fuel n = 48 :: t → n = 0) := by
  intro fuel
  induction fuel with
  | zero => intro n h; omega
  | succ f ih =>
    intro n h
    by_cases h10 : n < 10
    · refine ⟨by simp [natDecAux, h10], ?_, ?_, ?_⟩
      · intro c hc
        simp only [natDecAux, if_pos h10, List.mem_singleton] at hc
        omega
      · simp [natDecAux, h10, digitsVal]
      · intro t ht
        simp only [natDecAux, if_pos h10] at ht
        have := List.head_eq_of_cons_eq ht
        omega
    · have hrec := ih (n / 10) (by omega)
      rcases hrec with ⟨hne, hdig, hval, hlead⟩
      rw [show natDecAux (f + 1) n = natDecAux f (n / 10) ++ [48 + n % 10] from by
        simp [natDecAux, h10]]
      refine ⟨by simp, ?_, ?_, ?_⟩
      · intro c hc
        rcases List.mem_append.1 hc with hc | hc
        · exact hdig c hc
        · simp only [List.mem_singleton] at hc
          omega
      · rw [digitsVal_append_digit, hval]
        omega
      · intro t ht
        rcases hn : natDecAux f (n / 10) with _ | ⟨c0, t0⟩
        · exact absurd hn hne
        · rw [hn, List.cons_append] at ht
          have hc0 := List.head_eq_of_cons_eq ht
          have := hlead t0 (by rw [hn, hc0])
          omega

theorem natDec_spec (n : Nat) :
    natDec n ≠ [] ∧ (∀ c ∈ natDec n, 48 ≤ c ∧ c ≤ 57) ∧
    digitsVal (natDec n) = n ∧ (∀ t, natDec n = 48 :: t → n = 0) :=
  natDecAux_spec (n + 1) n (by omega)

theorem spanDigits_append : ∀ (a rest : JStr), (∀ c ∈ a, isDigitCp c = true) →
    digitLead rest = false → spanDigits (a ++ rest) = (a, rest) := by
  intro a
  induction a with
  | nil =>
    intro rest _ hr
    cases rest with
    | nil => rfl
    | cons d r =>
      simp only [digitLead] at hr
      simp [spanDigits, hr]
  | cons c t ih =>
    intro rest h hr
    have hc := h c (List.mem_cons_self c t)
    rw [List.cons_append]
    simp only [spanDigits, if_pos hc]
    rw [ih rest (fun x hx => h x (List.mem_cons_of_mem c hx)) hr]

theorem pNat_natDec (n : Nat) (rest : JStr) (hr : digitLead rest = false) :
    pNat (natDec n ++ rest) = some (n, rest) := by
  rcases natDec_spec n with ⟨hne, hdig, hval, hlead⟩
  by_cases hn0 : n = 0
  · subst hn0
    have h0 : natDec 0 = [48] := by decide
    rw [h0, List.cons_append, List.nil_append]
    simp only [pNat, if_pos rfl]
    rw [hr]
    rfl
  · rcases hd : natDec n with _ | ⟨c, t⟩
    · exact absurd hd hne
    · have hc : 48 ≤ c ∧ c ≤ 57 := hdig c (by rw [hd]; exact List.mem_cons_self c t)
      have hc48 : c ≠ 48 := fun h => hn0 (hlead t (by rw [hd, h]))
      have hcdig : isDigitCp c = true := by
        simp only [isDigitCp, decide_eq_true_eq]
        exact hc
      have hspan : spanDigits ((c :: t) ++ rest) = (c :: t, rest) :=
        spanDigits_append (c :: t) rest (fun x hx => by
          have := hdig x (by rw [hd]; exact hx)
          simp only [isDigitCp, decide_eq_true_eq]
          exact this) hr
      have hvct : digitsVal (c :: t) = n := by rw [← hd]; exact hval
      rw [List.cons_append]
      simp only [pNat, if_neg hc48, hcdig, if_true]
      rw [← List.cons_append, hspan]
      simp only [hvct]

theorem intDec_head (n : Int) :
    ∃ c t, intDec n = c :: t ∧ (c = 45 ∨ (48 ≤ c ∧ c ≤ 57)) := by
  rcases natDec_spec n.natAbs with ⟨hne, hdig, -, -⟩
  rcases hd : natDec n.natAbs with _ | ⟨c, t⟩
  · exact absurd hd hne
  · by_cases hneg : n < 0
    · exact ⟨45, natDec n.natAbs, by simp [intDec, hneg], Or.inl rfl⟩
    · refine ⟨c, t, by simp [intDec, hneg, hd], Or.inr ?_⟩
      exact hdig c (by rw [hd]; exact List.mem_cons_self c t)

theorem pNum_intDec (n : Int) (rest : JStr) (hr : digitLead rest = false) :
    pNum (intDec n ++ rest) = some (.num n, rest) := by
  have habs := pNat_natDec n.natAbs rest hr
  rcases natDec_spec n.natAbs with ⟨hne, hdig, -, -⟩
  by_cases hneg : n < 0
  · have h1 : intDec n ++ rest = 45 :: (natDec n.natAbs ++ rest) := by
      simp [intDec, hneg]
    rw [h1]
    simp only [pNum]
    rw [if_pos trivial, habs]
    show some (Json.num (-(n.natAbs : Int)), rest) = some (Json.num n, rest)
    have hv : (-(n.natAbs : Int)) = n := by omega
    rw [hv]
  · have h1 : intDec n = natDec n.natAbs := by simp [intDec, hneg]
    obtain ⟨c, t, hd⟩ : ∃ c t, natDec n.natAbs = c :: t := by
      cases hcc : natDec n.natAbs with
      | nil => exact absurd hcc hne
      | cons a b => exact ⟨a, b, rfl⟩
    have hc : 48 ≤ c ∧ c ≤ 57 := hdig c (by rw [hd]; exact List.mem_cons_self c t)
    rw [h1, hd, List.cons_append]
    simp only [pNum]
    rw [if_neg (by omega : ¬ c = 45), ← List.cons_append, ← hd, habs]
    show some (Json.num ((n.natAbs : Nat) : Int), rest) = some (Json.num n, rest)
    have hv : ((n.natAbs : Nat) : Int) = n := by omega
    rw [hv]

theorem hexVal_hexDigit (x : Nat) (h : x < 16) : hexVal (hexDigit x) = x := by
  unfold hexVal hexDigit
  split_ifs <;> omega

/-- Each escaped character occupies at least one output character. -/
theorem length_jsonEscapeChar_pos (c : Nat) : 1 ≤ (jsonEscapeChar c).length := by
  unfold jsonEscapeChar
  split_ifs <;> simp

theorem length_le_flatMap_escape : ∀ s : JStr,
    s.length ≤ (s.flatMap jsonEscapeChar).length := by
  intro s
  induction s with
  | nil => simp
  | cons c t ih =>
    rw [List.flatMap_cons, List.length_append, List.length_cons]
    have := length_jsonEscapeChar_pos c
    omega

/-- Parsing inverts `JSON.stringify` escaping of string bodies (fueled form). -/
theorem pStrF_escape : ∀ (s : JStr) (fuel : Nat) (rest : JStr), s.length < fuel →
    pStrF fuel (s.flatMap jsonEscapeChar ++ 34 :: rest) = some (s, rest) := by
  intro s
  induction s with
  | nil =>
    intro fuel rest hf
    cases fuel with
    | zero => omega
    | succ f => simp [pStrF]
  | cons c t ih =>
    intro fuel rest hf
    cases fuel with
    | zero => simp only [List.length_cons] at hf; omega
    | succ f =>
    have iht := ih f rest (by simp only [List.length_cons] at hf; omega)
    rw [List.flatMap_cons, List.append_assoc]
    by_cases h1 : c = 34
    · subst h1
      simp [jsonEscapeChar, pStrF, iht]
    · by_cases h2 : c = 92
      · subst h2
        simp [jsonEscapeChar, pStrF, iht]
      · by_cases h3 : c = 8
        · subst h3
          simp [jsonEscapeChar, pStrF, iht]
        · by_cases h4 : c = 9
          · subst h4
            simp [jsonEscapeChar, pStrF, iht]
          · by_cases h5 : c = 10
            · subst h5
              simp [jsonEscapeChar, pStrF, iht]
            · by_cases h6 : c = 12
              · subst h6
                simp [jsonEscapeChar, pStrF, iht]
              · by_cases h7 : c = 13
                · subst h7
                  simp [jsonEscapeChar, pStrF, iht]
                · by_cases h8 : c < 32
                  · rw [show jsonEscapeChar c =
                        [92, 117, 48, 48, hexDigit (c / 16), hexDigit (c % 16)] from by
                      simp only [jsonEscapeChar, if_neg h1, if_neg h2, if_neg h3, if_neg h4,
                        if_neg h5, if_neg h6, if_neg h7, if_pos h8]]
                    have hd1 : c / 16 < 16 := by omega
                    have hd2 : c % 16 < 16 := by omega
                    have hv1 := hexVal_hexDigit (c / 16) hd1
                    have hv2 := hexVal_hexDigit (c % 16) hd2
                    have hval : hexVal 48 * 4096 + hexVal 48 * 256 +
                        hexVal (hexDigit (c / 16)) * 16 + hexVal (hexDigit (c % 16)) = c := by
                      rw [hv1, hv2, show hexVal 48 = 0 from by decide]
                      omega
                    simp [pStrF, iht, hv1, hv2, hd1, hd2, hval,
                      show hexVal 48 = 0 from by decide]
                    omega
                  · rw [show jsonEscapeChar c = [c] from by
                      simp only [jsonEscapeChar, if_neg h1, if_neg h2, if_neg h3, if_neg h4,
                        if_neg h5, if_neg h6, if_neg h7, if_neg h8]]
                    simp only [List.cons_append, List.nil_append, List.append_eq, pStrF]
                    rw [if_neg h1, if_neg h2, if_neg (by omega : ¬ c < 32), iht]
                    rfl

/-- Parsing inverts `JSON.stringify` escaping of string bodies. -/
theorem pStr_escape (s rest : JStr) :
    pStr (s.flatMap jsonEscapeChar ++ 34 :: rest) = some (s, rest) := by
  unfold pStr
  apply pStrF_escape
  have := length_le_flatMap_escape s
  simp only [List.length_append, List.length_cons]
  omega

theorem jsize_pos : ∀ j : Json, 1 ≤ jsize j := by
  intro j
  cases j <;> simp only [jsize] <;> omega

/-- The first character of a serialized JSON value is not whitespace and not a
closing bracket. -/
theorem jsonStr_head (j : Json) :
    ∃ c t, jsonStr false j = c :: t ∧ isJsonWs c = false ∧ c ≠ 93 ∧ c ≠ 125 := by
  cases j with
  | null => exact ⟨110, _, rfl, by decide, by decide, by decide⟩
  | bool b =>
    cases b
    · exact ⟨102, _, rfl, by decide, by decide, by decide⟩
    · exact ⟨116, _, rfl, by decide, by decide, by decide⟩
  | num n =>
    obtain ⟨c, t, hd, hc⟩ := intDec_head n
    refine ⟨c, t, hd, ?_, ?_, ?_⟩
    · rcases hc with rfl | hc
      · decide
      · simp only [isJsonWs, Bool.or_eq_false_iff, beq_eq_false_iff_ne, ne_eq]
        omega
    · rcases hc with rfl | hc <;> omega
    · rcases hc with rfl | hc <;> omega
  | str s => exact ⟨34, _, rfl, by decide, by decide, by decide⟩
  | arrNil => exact ⟨91, _, rfl, by decide, by decide, by decide⟩
  | arrCons hd tl => exact ⟨91, _, rfl, by decide, by decide, by decide⟩
  | objNil => exact ⟨123, _, rfl, by decide, by decide, by decide⟩
  | objCons k v tl => exact ⟨123, _, rfl, by decide, by decide, by decide⟩

/-- The size measure of a well-formed value is bounded by the length of its
serialization. -/
theorem jsize_le_length : ∀ j : Json,
    (jsonValidM 0 j = true → jsize j ≤ (jsonStr false j).length)
    ∧ ((jsonValidM 1 j = true ∨ jsonValidM 2 j = true) →
       jsize j ≤ (jsonStr true j).length) := by
  intro j
  induction j with
  | null => exact ⟨fun _ => by decide, by intro h; simp [jsonValidM] at h⟩
  | bool b =>
    refine ⟨fun _ => ?_, by intro h; cases b <;> simp [jsonValidM] at h⟩
    cases b <;> decide
  | num n =>
    refine ⟨fun _ => ?_, by intro h; simp [jsonValidM] at h⟩
    rcases natDec_spec n.natAbs with ⟨hne, -, -, -⟩
    have hpos : 1 ≤ (natDec n.natAbs).length := List.length_pos.2 hne
    simp only [jsonStr, jsize, intDec]
    split_ifs <;> (try simp only [List.length_cons]) <;> omega
  | str s =>
    refine ⟨fun _ => ?_, by intro h; simp [jsonValidM] at h⟩
    simp [jsonStr, jsize, jsonStrLit]
  | arrNil => exact ⟨fun _ => by decide, fun _ => by decide⟩
  | objNil => exact ⟨fun _ => by decide, fun _ => by decide⟩
  | arrCons hd tl ihhd ihtl =>
    constructor
    · intro hv
      simp only [jsonValidM, Bool.and_eq_true] at hv
      have h1 := ihhd.1 hv.1
      have h2 := ihtl.2 (Or.inl hv.2)
      simp only [jsonStr, jsize, List.length_cons, List.length_append]
      omega
    · intro hv
      have hv1 : jsonValidM 1 (.arrCons hd tl) = true := by
        rcases hv with hv | hv
        · exact hv
        · simp [jsonValidM] at hv
      simp only [jsonValidM, Bool.and_eq_true] at hv1
      have h1 := ihhd.1 hv1.1
      have h2 := ihtl.2 (Or.inl hv1.2)
      simp only [jsonStr, jsize, List.length_cons, List.length_append]
      omega
  | objCons k v tl ihv ihtl =>
    constructor
    · intro hv
      simp only [jsonValidM, Bool.and_eq_true] at hv
      have h1 := ihv.1 hv.1.2
      have h2 := ihtl.2 (Or.inr hv.2)
      simp only [jsonStr, jsize, List.length_cons, List.length_append]
      omega
    · intro hv
      have hv2 : jsonValidM 2 (.objCons k v tl) = true := by
        rcases hv with hv | hv
        · simp [jsonValidM] at hv
        · exact hv
      simp only [jsonValidM, Bool.and_eq_true] at hv2
      have h1 := ihv.1 hv2.1.2
      have h2 := ihtl.2 (Or.inr hv2.2)
      simp only [jsonStr, jsize, List.length_cons, List.length_append]
      omega

/-- The fueled JSON parser inverts `JSON.stringify`: mode 0 on a serialized
value, mode 1 on serialized array items, mode 2 on serialized object
members. -/
theorem pJ_stringify : ∀ fuel : Nat,
    (∀ (j : Json) (rest : JStr), jsize j ≤ fuel → jsonValidM 0 j = true →
      digitLead rest = false →
      pJ fuel 0 (jsonStr false j ++ rest) = some (j, rest))
    ∧ (∀ (hd tl : Json) (rest : JStr), jsize hd + jsize tl ≤ fuel →
      jsonValidM 0 hd = true → jsonValidM 1 tl = true → digitLead rest = false →
      pJ fuel 1 (jsonStr false hd ++ (jsonStr true tl ++ rest)) =
        some (.arrCons hd tl, rest))
    ∧ (∀ (k : JStr) (v tl : Json) (rest : JStr), jsize v + jsize tl ≤ fuel →
      jsonValidM 0 v = true → jsonValidM 2 tl = true → digitLead rest = false →
      pJ fuel 2 (jsonStrLit k ++ (58 :: (jsonStr false v ++ (jsonStr true tl ++ rest)))) =
        some (.objCons k v tl, rest)) := by
  intro fuel
  induction fuel with
  | zero =>
    refine ⟨?_, ?_, ?_⟩
    · intro j rest hsz _ _
      have := jsize_pos j
      omega
    · intro hd tl rest hsz _ _ _
      have := jsize_pos hd
      have := jsize_pos tl
      omega
    · intro k v tl rest hsz _ _ _
      have := jsize_pos v
      have := jsize_pos tl
      omega
  | succ f ih =>
    obtain ⟨ih0, ih1, ih2⟩ := ih
    refine ⟨?_, ?_, ?_⟩
    · intro j rest hsz hval hrest
      cases j with
      | null => simp [jsonStr, pJ, skipWs, isJsonWs]
      | bool b => cases b <;> simp [jsonStr, pJ, skipWs, isJsonWs]
      | num n =>
        obtain ⟨c, t2, hd, hc⟩ := intDec_head n
        have hws : isJsonWs c = false := by
          rcases hc with rfl | hc
          · decide
          · simp only [isJsonWs, Bool.or_eq_false_iff, beq_eq_false_iff_ne, ne_eq]
            omega
        have hnum := pNum_intDec n rest hrest
        rw [show jsonStr false (.num n) = intDec n from rfl, hd, List.cons_append]
        have hsw : skipWs (c :: (t2 ++ rest)) = c :: (t2 ++ rest) := skipWs_cons _ hws
        simp only [pJ, hsw]
        rw [if_neg (by rcases hc with rfl | hc <;> omega : ¬ c = 110),
          if_neg (by rcases hc with rfl | hc <;> omega : ¬ c = 116),
          if_neg (by rcases hc with rfl | hc <;> omega : ¬ c = 102),
          if_neg (by rcases hc with rfl | hc <;> omega : ¬ c = 34),
          if_neg (by rcases hc with rfl | hc <;> omega : ¬ c = 91),
          if_neg (by rcases hc with rfl | hc <;> omega : ¬ c = 123),
          if_pos (show c = 45 ∨ isDigitCp c = true by
            rcases hc with rfl | hc
            · exact Or.inl rfl
            · right
              simp only [isDigitCp, decide_eq_true_eq]
              exact hc)]
        rw [← List.cons_append, ← hd, hnum]
      | str s =>
        rw [show jsonStr false (.str s) ++ rest =
            34 :: (s.flatMap jsonEscapeChar ++ 34 :: rest) from by
          simp [jsonStr, jsonStrLit]]
        have hsw : skipWs (34 :: (s.flatMap jsonEscapeChar ++ 34 :: rest)) =
            34 :: (s.flatMap jsonEscapeChar ++ 34 :: rest) := skipWs_cons _ (by decide)
        simp only [pJ, hsw]
        rw [if_neg (by decide), if_neg (by decide), if_neg (by decide), if_pos trivial,
          pStr_escape]
        rfl
      | arrNil => simp [jsonStr, pJ, skipWs, isJsonWs]
      | objNil => simp [jsonStr, pJ, skipWs, isJsonWs]
      | arrCons hd tl =>
        simp only [jsonValidM, Bool.and_eq_true] at hval
        simp only [jsize] at hsz
        obtain ⟨ch, tt, hhd, hwsch, h93, h125⟩ := jsonStr_head hd
        rw [show jsonStr false (.arrCons hd tl) ++ rest =
            91 :: (jsonStr false hd ++ (jsonStr true tl ++ rest)) from by
          simp [jsonStr, List.append_assoc]]
        have hsw : skipWs (91 :: (jsonStr false hd ++ (jsonStr true tl ++ rest))) =
            91 :: (jsonStr false hd ++ (jsonStr true tl ++ rest)) :=
          skipWs_cons _ (by decide)
        simp only [pJ, hsw]
        rw [if_neg (by decide), if_neg (by decide), if_neg (by decide),
          if_neg (by decide), if_pos trivial]
        rw [hhd, List.cons_append, skipWs_cons _ hwsch]
        rw [if_neg (by simp [h93])]
        rw [← List.cons_append, ← hhd]
        exact ih1 hd tl rest (by omega) hval.1 hval.2 hrest
      | objCons k v tl =>
        simp only [jsonValidM, Bool.and_eq_true] at hval
        simp only [jsize] at hsz
        rw [show jsonStr false (.objCons k v tl) ++ rest =
            123 :: (jsonStrLit k ++ (58 :: (jsonStr false v ++ (jsonStr true tl ++ rest))))
            from by simp [jsonStr, List.append_assoc]]
        have hsw : skipWs (123 :: (jsonStrLit k ++
              (58 :: (jsonStr false v ++ (jsonStr true tl ++ rest))))) =
            123 :: (jsonStrLit k ++ (58 :: (jsonStr false v ++ (jsonStr true tl ++ rest)))) :=
          skipWs_cons _ (by decide)
        simp only [pJ, hsw]
        rw [if_neg (by decide), if_neg (by decide), if_neg (by decide),
          if_neg (by decide), if_neg (by decide), if_pos trivial]
        have hY : jsonStrLit k ++ (58 :: (jsonStr false v ++ (jsonStr true tl ++ rest))) =
            34 :: (k.flatMap jsonEscapeChar ++
              (34 :: (58 :: (jsonStr false v ++ (jsonStr true tl ++ rest))))) := by
          simp [jsonStrLit]
        have hY34 : skipWs (jsonStrLit k ++
            (58 :: (jsonStr false v ++ (jsonStr true tl ++ rest)))) =
            jsonStrLit k ++ (58 :: (jsonStr false v ++ (jsonStr true tl ++ rest))) := by
          rw [hY]
          exact skipWs_cons _ (by decide)
        rw [hY34]
        rw [show (jsonStrLit k ++
            (58 :: (jsonStr false v ++ (jsonStr true tl ++ rest)))).head? = some 34 from by
          rw [hY]; rfl]
        rw [if_neg (by simp)]
        exact ih2 k v tl rest (by omega) hval.1.2 hval.2 hrest
    · intro hd tl rest hsz hv0 hv1 hrest
      have hpv := jsize_pos hd
      have hpt := jsize_pos tl
      cases tl with
      | null => simp [jsonValidM] at hv1
      | bool b => simp [jsonValidM] at hv1
      | num n => simp [jsonValidM] at hv1
      | str s => simp [jsonValidM] at hv1
      | objNil => simp [jsonValidM] at hv1
      | objCons k2 v2 tl2 => simp [jsonValidM] at hv1
      | arrNil =>
        rw [show jsonStr true Json.arrNil ++ rest = 93 :: rest from rfl]
        have h0 := ih0 hd (93 :: rest) (by omega) hv0 rfl
        simp [pJ, skipWs, isJsonWs, h0]
      | arrCons hd2 tl2 =>
        simp only [jsonValidM, Bool.and_eq_true] at hv1
        simp only [jsize] at hsz
        rw [show jsonStr true (Json.arrCons hd2 tl2) ++ rest =
            44 :: (jsonStr false hd2 ++ (jsonStr true tl2 ++ rest)) from by
          simp [jsonStr, List.append_assoc]]
        have h0 := ih0 hd (44 :: (jsonStr false hd2 ++ (jsonStr true tl2 ++ rest)))
          (by omega) hv0 rfl
        have hrec := ih1 hd2 tl2 rest (by omega) hv1.1 hv1.2 hrest
        simp [pJ, skipWs, isJsonWs, h0, hrec]
    · intro k v tl rest hsz hv0 hv2 hrest
      have hpv := jsize_pos v
      have hpt := jsize_pos tl
      cases tl with
      | null => simp [jsonValidM] at hv2
      | bool b => simp [jsonValidM] at hv2
      | num n => simp [jsonValidM] at hv2
      | str s => simp [jsonValidM] at hv2
      | arrNil => simp [jsonValidM] at hv2
      | arrCons hd2 tl2 => simp [jsonValidM] at hv2
      | objNil =>
        rw [show jsonStr true Json.objNil ++ rest = 125 :: rest from rfl]
        rw [show jsonStrLit k ++ (58 :: (jsonStr false v ++ (125 :: rest))) =
            34 :: (k.flatMap jsonEscapeChar ++
              34 :: (58 :: (jsonStr false v ++ (125 :: rest)))) from by
          simp [jsonStrLit]]
        have h0 := ih0 v (125 :: rest) (by omega) hv0 rfl
        simp [pJ, skipWs, isJsonWs, pStr_escape, h0]
      | objCons k2 v2 tl2 =>
        simp only [jsonValidM, Bool.and_eq_true] at hv2
        simp only [jsize] at hsz
        rw [show jsonStr true (Json.objCons k2 v2 tl2) ++ rest =
            44 :: (jsonStrLit k2 ++
              (58 :: (jsonStr false v2 ++ (jsonStr true tl2 ++ rest)))) from by
          simp [jsonStr, List.append_assoc]]
        rw [show jsonStrLit k ++ (58 :: (jsonStr false v ++
            (44 :: (jsonStrLit k2 ++
              (58 :: (jsonStr false v2 ++ (jsonStr true tl2 ++ rest))))))) =
            34 :: (k.flatMap jsonEscapeChar ++
              34 :: (58 :: (jsonStr false v ++
                (44 :: (jsonStrLit k2 ++
                  (58 :: (jsonStr false v2 ++ (jsonStr true tl2 ++ rest)))))))) from by
          simp [jsonStrLit]]
        have h0 := ih0 v (44 :: (jsonStrLit k2 ++
            (58 :: (jsonStr false v2 ++ (jsonStr true tl2 ++ rest)))))
          (by omega) hv0 rfl
        have hrec := ih2 k2 v2 tl2 rest (by omega) hv2.1.2 hv2.2 hrest
        simp [pJ, skipWs, isJsonWs, pStr_escape, h0, hrec]

/-- `JSON.parse` inverts `JSON.stringify` on well-formed values. -/
theorem jsonParse_stringify (j : Json) (h : jsonValid j = true) :
    jsonParse (jsonStringify j) = some j := by
  have hlen := (jsize_le_length j).1 h
  have h0 := (pJ_stringify ((jsonStringify j).length + 1)).1 j [] (by
    simpa [jsonStringify] using Nat.le_succ_of_le hlen) h rfl
  rw [List.append_nil] at h0
  simp only [jsonParse, jsonStringify] at h0 ⊢
  rw [h0]
  rfl

/-! ## Byte-level lemmas for the crypto layer -/

theorem xor_lt_256 {a b : Nat} (ha : a < 256) (hb : b < 256) : a ^^^ b < 256 := by
  have h : a ^^^ b < 2 ^ 8 := Nat.xor_lt_two_pow (by omega) (by omega)
  omega

theorem mem_zipWith_gen {α β γ : Type} (f : α → β → γ) :
    ∀ (a : List α) (b : List β), ∀ c ∈ List.zipWith f a b,
      ∃ x ∈ a, ∃ y ∈ b, c = f x y := by
  intro a
  induction a with
  | nil => intro b c hc; simp at hc
  | cons x xs ih =>
    intro b c hc
    cases b with
    | nil => simp at hc
    | cons y ys =>
      simp only [List.zipWith_cons_cons, List.mem_cons] at hc
      rcases hc with rfl | hc
      · exact ⟨x, List.mem_cons_self x xs, y, List.mem_cons_self y ys, rfl⟩
      · obtain ⟨x', hx', y', hy', rfl⟩ := ih ys c hc
        exact ⟨x', List.mem_cons_of_mem x hx', y', List.mem_cons_of_mem y hy', rfl⟩

theorem getD_cases {α : Type} : ∀ (l : List α) (i : Nat) (d : α),
    l.getD i d ∈ l ∨ l.getD i d = d := by
  intro l
  induction l with
  | nil => intro i d; right; cases i <;> rfl
  | cons a t ih =>
    intro i d
    cases i with
    | zero => left; exact List.mem_cons_self a t
    | succ n =>
      rcases ih n d with h | h
      · left
        exact List.mem_cons_of_mem a h
      · right
        exact h

theorem getD_lt_256 {s : List Nat} (hs : ∀ x ∈ s, x < 256) (i : Nat) :
    s.getD i 0 < 256 := by
  rcases getD_cases s i 0 with h | h
  · exact hs _ h
  · omega

theorem wordsToBytesBE_lt_256 (ws : List Nat) : ∀ b ∈ wordsToBytesBE ws, b < 256 := by
  intro b hb
  simp only [wordsToBytesBE, List.mem_flatMap] at hb
  obtain ⟨w, -, hw⟩ := hb
  simp only [List.mem_cons, List.not_mem_nil, or_false] at hw
  rcases hw with rfl | rfl | rfl | rfl <;> exact Nat.mod_lt _ (by omega)

theorem length_wordsToBytesBE (ws : List Nat) :
    (wordsToBytesBE ws).length = 4 * ws.length := by
  induction ws with
  | nil => rfl
  | cons w t ih =>
    simp only [wordsToBytesBE, List.flatMap_cons, List.length_append] at ih ⊢
    simp only [List.length_cons, List.length_nil]
    omega

theorem bytesOfNatBE_lt_256 : ∀ (n x : Nat), ∀ b ∈ bytesOfNatBE n x, b < 256 := by
  intro n
  induction n with
  | zero => intro x b hb; simp [bytesOfNatBE] at hb
  | succ m ih =>
    intro x b hb
    simp only [bytesOfNatBE, List.mem_append, List.mem_singleton] at hb
    rcases hb with hb | rfl
    · exact ih _ b hb
    · exact Nat.mod_lt _ (by omega)

theorem length_bytesOfNatBE : ∀ (n x : Nat), (bytesOfNatBE n x).length = n := by
  intro n
  induction n with
  | zero => intro x; rfl
  | succ m ih =>
    intro x
    simp only [bytesOfNatBE, List.length_append, ih, List.length_cons, List.length_nil]

set_option maxRecDepth 4096 in
theorem sbox_lt_256 : ∀ b ∈ sbox, b < 256 := by decide

theorem sboxD_lt_256 (b : Nat) : sbox.getD b 0 < 256 :=
  getD_lt_256 sbox_lt_256 b

theorem xtime_lt_256 (b : Nat) : xtime b < 256 := Nat.mod_lt _ (by omega)

set_option maxRecDepth 4096 in
theorem length_sbox : sbox.length = 256 := by decide

theorem length_shiftRows (s : List Nat) : (shiftRows s).length = 16 := rfl

theorem shiftRows_lt_256 {s : List Nat} (hs : ∀ x ∈ s, x < 256) :
    ∀ b ∈ shiftRows s, b < 256 := by
  intro b hb
  simp only [shiftRows, List.mem_cons, List.not_mem_nil, or_false] at hb
  rcases hb with rfl | rfl | rfl | rfl | rfl | rfl | rfl | rfl | rfl | rfl | rfl | rfl |
    rfl | rfl | rfl | rfl <;> exact getD_lt_256 hs _

theorem mixCol_lt_256 {c : List Nat} (hc : ∀ x ∈ c, x < 256) :
    ∀ b ∈ mixCol c, b < 256 := by
  intro b hb
  simp only [mixCol, List.mem_cons, List.not_mem_nil, or_false] at hb
  have hg := getD_lt_256 hc
  rcases hb with rfl | rfl | rfl | rfl
  · exact xor_lt_256 (xor_lt_256 (xor_lt_256 (xtime_lt_256 _)
      (xor_lt_256 (xtime_lt_256 _) (hg 1))) (hg 2)) (hg 3)
  · exact xor_lt_256 (xor_lt_256 (xor_lt_256 (hg 0) (xtime_lt_256 _))
      (xor_lt_256 (xtime_lt_256 _) (hg 2))) (hg 3)
  · exact xor_lt_256 (xor_lt_256 (xor_lt_256 (hg 0) (hg 1)) (xtime_lt_256 _))
      (xor_lt_256 (xtime_lt_256 _) (hg 3))
  · exact xor_lt_256 (xor_lt_256 (xor_lt_256 (xor_lt_256 (xtime_lt_256 _) (hg 0))
      (hg 1)) (hg 2)) (xtime_lt_256 _)

theorem mixColumns_lt_256 {s : List Nat} (hs : ∀ x ∈ s, x < 256) :
    ∀ b ∈ mixColumns s, b < 256 := by
  intro b hb
  simp only [mixColumns, List.mem_flatMap] at hb
  obtain ⟨c, -, hbc⟩ := hb
  refine mixCol_lt_256 (fun x hx => ?_) b hbc
  exact hs x (List.drop_subset _ _ (List.take_subset _ _ hx))

theorem length_mixColumns (s : List Nat) : (mixColumns s).length = 16 := by
  show (mixCol ((s.drop (4 * 0)).take 4) ++ (mixCol ((s.drop (4 * 1)).take 4) ++
    (mixCol ((s.drop (4 * 2)).take 4) ++ (mixCol ((s.drop (4 * 3)).take 4) ++
      [])))).length = 16
  simp [mixCol]

theorem subBytes_lt_256 (s : List Nat) : ∀ b ∈ subBytes s, b < 256 := by
  intro b hb
  simp only [subBytes, List.mem_map] at hb
  obtain ⟨x, -, rfl⟩ := hb
  exact sboxD_lt_256 x

theorem length_subBytes (s : List Nat) : (subBytes s).length = s.length :=
  List.length_map s _

theorem addRoundKey_lt_256 {s rk : List Nat} (hs : ∀ x ∈ s, x < 256)
    (hrk : ∀ x ∈ rk, x < 256) : ∀ b ∈ addRoundKey s rk, b < 256 := by
  intro b hb
  obtain ⟨x, hx, y, hy, rfl⟩ := mem_zipWith_gen _ s rk b hb
  exact xor_lt_256 (hs x hx) (hrk y hy)

theorem length_addRoundKey (s rk : List Nat) :
    (addRoundKey s rk).length = min s.length rk.length := List.length_zipWith _ _ _

theorem roundKeyBytes_lt_256 (ws : List Nat) (r : Nat) :
    ∀ b ∈ roundKeyBytes ws r, b < 256 := wordsToBytesBE_lt_256 _

theorem length_roundKeyBytes {ws : List Nat} {r : Nat} (h : 4 * r + 4 ≤ ws.length) :
    (roundKeyBytes ws r).length = 16 := by
  simp only [roundKeyBytes, length_wordsToBytesBE, List.length_take, List.length_drop]
  omega

theorem length_aesExpandStep (ws : List Nat) (x : Nat) :
    (aesExpandStep ws x).length = ws.length + 1 := by
  simp [aesExpandStep]

theorem length_foldl_aesExpandStep : ∀ (l : List Nat) (init : List Nat),
    (l.foldl aesExpandStep init).length = init.length + l.length := by
  intro l
  induction l with
  | nil => intro init; simp
  | cons x t ih =>
    intro init
    simp only [List.foldl_cons, ih, length_aesExpandStep, List.length_cons]
    omega

theorem length_bytesToWordsBE : ∀ l : List Nat,
    (bytesToWordsBE l).length = l.length / 4
  | [] => by simp [bytesToWordsBE]
  | [_] => by simp [bytesToWordsBE]
  | [_, _] => by simp [bytesToWordsBE]
  | [_, _, _] => by simp [bytesToWordsBE]
  | b0 :: b1 :: b2 :: b3 :: rest => by
    simp only [bytesToWordsBE, List.length_cons, length_bytesToWordsBE rest]
    omega

theorem length_aesExpand (key : List Nat) :
    (aesExpand key).length = key.length / 4 + 52 := by
  simp [aesExpand, length_foldl_aesExpandStep, length_bytesToWordsBE]

/-- One full AES round preserves the 16-byte state invariant. -/
theorem aesRound_inv {ws : List Nat} (hws : 60 ≤ ws.length) {st : List Nat}
    (hlen : st.length = 16) (hb : ∀ x ∈ st, x < 256) (r : Nat) (hr : r ≤ 14) :
    (addRoundKey (mixColumns (shiftRows (subBytes st))) (roundKeyBytes ws r)).length = 16 ∧
    ∀ x ∈ addRoundKey (mixColumns (shiftRows (subBytes st))) (roundKeyBytes ws r), x < 256 := by
  constructor
  · rw [length_addRoundKey, length_mixColumns, length_roundKeyBytes (by omega)]
    omega
  · exact addRoundKey_lt_256
      (mixColumns_lt_256 (shiftRows_lt_256 (subBytes_lt_256 st)))
      (roundKeyBytes_lt_256 ws r)

theorem aesEncBlock_inv {ws : List Nat} (hws : 60 ≤ ws.length) {inp : List Nat}
    (hlen : inp.length = 16) (hb : ∀ x ∈ inp, x < 256) :
    (aesEncBlock ws inp).length = 16 ∧ ∀ x ∈ aesEncBlock ws inp, x < 256 := by
  have hst0len : (addRoundKey inp (roundKeyBytes ws 0)).length = 16 := by
    rw [length_addRoundKey, length_roundKeyBytes (by omega), hlen]
    omega
  have hst0b := addRoundKey_lt_256 hb (roundKeyBytes_lt_256 ws 0)
  have hfold : ∀ (l : List Nat), (∀ i ∈ l, i < 13) → ∀ (st : List Nat),
      st.length = 16 → (∀ x ∈ st, x < 256) →
      ((l.foldl (fun st r =>
          addRoundKey (mixColumns (shiftRows (subBytes st))) (roundKeyBytes ws (r + 1)))
        st).length = 16 ∧
       ∀ x ∈ l.foldl (fun st r =>
          addRoundKey (mixColumns (shiftRows (subBytes st))) (roundKeyBytes ws (r + 1)))
        st, x < 256) := by
    intro l
    induction l with
    | nil => intro _ st h1 h2; exact ⟨h1, h2⟩
    | cons r t ih =>
      intro hmem st h1 h2
      have hr : r + 1 ≤ 14 := by have := hmem r (List.mem_cons_self r t); omega
      obtain ⟨h1', h2'⟩ := aesRound_inv hws h1 h2 (r + 1) hr
      exact ih (fun i hi => hmem i (List.mem_cons_of_mem r hi)) _ h1' h2'
  have hmem13 : ∀ i ∈ List.range 13, i < 13 := fun i hi => List.mem_range.1 hi
  obtain ⟨hn1, hn2⟩ := hfold (List.range 13) hmem13 _ hst0len hst0b
  constructor
  · simp only [aesEncBlock]
    rw [length_addRoundKey, length_shiftRows, length_roundKeyBytes (by omega)]
    omega
  · simp only [aesEncBlock]
    exact addRoundKey_lt_256 (shiftRows_lt_256 (subBytes_lt_256 _))
      (roundKeyBytes_lt_256 ws 14)

theorem length_sha256Compress (H chunk : List Nat) :
    (sha256Compress H chunk).length = 8 := by
  simp [sha256Compress]

theorem length_sha256 (msg : List Nat) : (sha256 msg).length = 32 := by
  have h8 : ((chunksOf 64 (sha256Pad msg)).foldl sha256Compress sha256H0).length = 8 :=
    @foldl_inv (List Nat) (List Nat) (fun H => H.length = 8) sha256Compress
      (fun H c _ => length_sha256Compress H c) (chunksOf 64 (sha256Pad msg)) sha256H0
      (by decide)
  simp [sha256, length_wordsToBytesBE, h8]

theorem sha256_lt_256 (msg : List Nat) : ∀ b ∈ sha256 msg, b < 256 :=
  wordsToBytesBE_lt_256 _

theorem length_hmacSha256 (key msg : List Nat) : (hmacSha256 key msg).length = 32 :=
  length_sha256 _

theorem length_pbkdf2Block (pw salt : List Nat) (iters : Nat) :
    (pbkdf2Block pw salt iters).length = 32 := by
  have h := @foldl_inv (List Nat × List Nat) Nat
    (fun (p : List Nat × List Nat) => p.1.length = 32 ∧ p.2.length = 32)
    (fun (acc : List Nat × List Nat) (_ : Nat) =>
      (List.zipWith (fun a b => a ^^^ b) acc.1 (hmacSha256 pw acc.2), hmacSha256 pw acc.2))
    (fun p x hp => by
      refine ⟨?_, length_hmacSha256 _ _⟩
      rw [List.length_zipWith, hp.1, length_hmacSha256]
      omega)
    (List.range (iters - 1))
    (hmacSha256 pw (salt ++ [0, 0, 0, 1]), hmacSha256 pw (salt ++ [0, 0, 0, 1]))
    ⟨length_hmacSha256 _ _, length_hmacSha256 _ _⟩
  exact h.1

theorem length_deriveKey (userId : JStr) : (deriveKey userId).length = 32 := by
  simp [deriveKey, pbkdf2Sha256, List.length_take, length_pbkdf2Block]

theorem hws_deriveKey (userId : JStr) : 60 ≤ (aesExpand (deriveKey userId)).length := by
  rw [length_aesExpand, length_deriveKey]

theorem gcmKeystream_lt_256 {ws : List Nat} (hws : 60 ≤ ws.length) (j0 n : Nat) :
    ∀ b ∈ gcmKeystream ws j0 n, b < 256 := by
  intro b hb
  have hb' := List.take_subset n _ hb
  simp only [List.mem_flatMap] at hb'
  obtain ⟨i, -, hbi⟩ := hb'
  exact (aesEncBlock_inv hws (length_bytesOfNatBE 16 _)
    (bytesOfNatBE_lt_256 16 _)).2 b hbi

theorem sum_map_len_16 {α : Type} (f : α → List Nat) :
    ∀ l : List α, (∀ x ∈ l, (f x).length = 16) →
      ((l.map f).flatten).length = 16 * l.length := by
  intro l
  induction l with
  | nil => intro _; rfl
  | cons x t ih =>
    intro h
    simp only [List.map_cons, List.flatten_cons, List.length_append,
      h x (List.mem_cons_self x t), ih (fun y hy => h y (List.mem_cons_of_mem x hy)),
      List.length_cons]
    omega

theorem length_gcmKeystream {ws : List Nat} (hws : 60 ≤ ws.length) (j0 n : Nat) :
    (gcmKeystream ws j0 n).length = n := by
  have htot : ((List.range ((n + 15) / 16)).flatMap
      (fun i => aesEncBlock ws (bytesOfNatBE 16 (inc32^[i + 1] j0)))).length =
      16 * ((n + 15) / 16) := by
    rw [List.flatMap_def]
    have hs := sum_map_len_16 (fun i => aesEncBlock ws (bytesOfNatBE 16 (inc32^[i + 1] j0)))
      (List.range ((n + 15) / 16)) (fun i _ =>
        (aesEncBlock_inv hws (length_bytesOfNatBE 16 _) (bytesOfNatBE_lt_256 16 _)).1)
    rw [List.length_range] at hs
    exact hs
  simp only [gcmKeystream, List.length_take, htot]
  omega

theorem zipWith_xor_cancel : ∀ (m ks : List Nat), m.length ≤ ks.length →
    List.zipWith (fun a b => a ^^^ b) (List.zipWith (fun a b => a ^^^ b) m ks) ks = m := by
  intro m
  induction m with
  | nil => intro ks _; simp
  | cons a t ih =>
    intro ks h
    cases ks with
    | nil => simp at h
    | cons k kt =>
      simp only [List.zipWith_cons_cons, List.cons.injEq]
      refine ⟨Nat.xor_cancel_right k a, ih kt ?_⟩
      simp only [List.length_cons] at h
      omega

set_option maxHeartbeats 2000000 in
/-- Authenticated-encryption round-trip at the byte level. -/
theorem decryptData_encryptData (data userId : JStr) (iv : List Nat)
    (hdata : ∀ c ∈ data, validScalar c) (hiv : ∀ b ∈ iv, b < 256) :
    decryptData (encryptData data userId iv) userId = some data := by
  have hws := hws_deriveKey userId
  have hpt := utf8Encode_lt256 data hdata
  have hks := gcmKeystream_lt_256 hws (gcmJ0 (aesExpand (deriveKey userId)) iv)
    (utf8Encode data).length
  have hct : ∀ b ∈ List.zipWith (fun a b => a ^^^ b) (utf8Encode data)
      (gcmKeystream (aesExpand (deriveKey userId))
        (gcmJ0 (aesExpand (deriveKey userId)) iv) (utf8Encode data).length), b < 256 := by
    intro b hb
    obtain ⟨x, hx, y, hy, rfl⟩ := mem_zipWith_gen _ _ _ b hb
    exact xor_lt_256 (hpt x hx) (hks y hy)
  have htag : ∀ b ∈ gcmTag (aesExpand (deriveKey userId))
      (gcmJ0 (aesExpand (deriveKey userId)) iv)
      (List.zipWith (fun a b => a ^^^ b) (utf8Encode data)
        (gcmKeystream (aesExpand (deriveKey userId))
          (gcmJ0 (aesExpand (deriveKey userId)) iv) (utf8Encode data).length)), b < 256 :=
    bytesOfNatBE_lt_256 16 _
  simp only [encryptData, decryptData]
  rw [b64Decode_encode iv hiv, b64Decode_encode _ hct, b64Decode_encode _ htag,
    if_pos rfl]
  have hlct : (List.zipWith (fun a b => a ^^^ b) (utf8Encode data)
      (gcmKeystream (aesExpand (deriveKey userId))
        (gcmJ0 (aesExpand (deriveKey userId)) iv) (utf8Encode data).length)).length =
      (utf8Encode data).length := by
    rw [List.length_zipWith, length_gcmKeystream hws]
    omega
  rw [hlct, zipWith_xor_cancel _ _ (by rw [length_gcmKeystream hws])]
  exact utf8Decode_encode data hdata

theorem jsonEscapeChar_scalars {c : Nat} (hc : validScalar c) :
    ∀ x ∈ jsonEscapeChar c, validScalar x := by
  intro x hx
  unfold jsonEscapeChar at hx
  split_ifs at hx with h1 h2 h3 h4 h5 h6 h7 h8
  · simp only [List.mem_cons, List.not_mem_nil, or_false] at hx
    rcases hx with rfl | rfl <;> decide
  · simp only [List.mem_cons, List.not_mem_nil, or_false] at hx
    rcases hx with rfl | rfl <;> decide
  · simp only [List.mem_cons, List.not_mem_nil, or_false] at hx
    rcases hx with rfl | rfl <;> decide
  · simp only [List.mem_cons, List.not_mem_nil, or_false] at hx
    rcases hx with rfl | rfl <;> decide
  · simp only [List.mem_cons, List.not_mem_nil, or_false] at hx
    rcases hx with rfl | rfl <;> decide
  · simp only [List.mem_cons, List.not_mem_nil, or_false] at hx
    rcases hx with rfl | rfl <;> decide
  · simp only [List.mem_cons, List.not_mem_nil, or_false] at hx
    rcases hx with rfl | rfl <;> decide
  · simp only [List.mem_cons, List.not_mem_nil, or_false] at hx
    rcases hx with rfl | rfl | rfl | rfl | rfl | rfl
    · decide
    · decide
    · decide
    · decide
    · simp only [validScalar, hexDigit]
      split_ifs <;> omega
    · simp only [validScalar, hexDigit]
      split_ifs <;> omega
  · simp only [List.mem_singleton] at hx
    subst hx
    exact hc

theorem jsonStrLit_scalars {k : JStr} (hk : ∀ c ∈ k, validScalar c) :
    ∀ x ∈ jsonStrLit k, validScalar x := by
  intro x hx
  simp only [jsonStrLit, List.mem_cons, List.mem_append, List.mem_flatMap,
    List.mem_singleton, List.not_mem_nil, or_false] at hx
  rcases hx with rfl | ⟨⟨c, hc, hxc⟩ | rfl⟩
  · decide
  · exact jsonEscapeChar_scalars (hk c hc) x hxc
  · decide

theorem natDec_scalars (n : Nat) : ∀ c ∈ natDec n, validScalar c := by
  intro c hc
  have := (natDec_spec n).2.1 c hc
  simp only [validScalar]
  omega

theorem intDec_scalars (n : Int) : ∀ c ∈ intDec n, validScalar c := by
  intro c hc
  unfold intDec at hc
  split_ifs at hc
  · simp only [List.mem_cons] at hc
    rcases hc with rfl | hc
    · decide
    · exact natDec_scalars _ c hc
  · exact natDec_scalars _ c hc

/-- Every character of a serialized well-formed JSON value is a Unicode scalar
value. -/
theorem jsonStr_scalars : ∀ j : Json,
    (jsonValidM 0 j = true → ∀ c ∈ jsonStr false j, validScalar c)
    ∧ ((jsonValidM 1 j = true ∨ jsonValidM 2 j = true) →
       ∀ c ∈ jsonStr true j, validScalar c) := by
  intro j
  induction j with
  | null => exact ⟨fun _ => by decide, by intro h; simp [jsonValidM] at h⟩
  | bool b =>
    refine ⟨fun _ => ?_, by intro h; cases b <;> simp [jsonValidM] at h⟩
    cases b <;> decide
  | num n => exact ⟨fun _ => intDec_scalars n, by intro h; simp [jsonValidM] at h⟩
  | str s =>
    refine ⟨fun h => ?_, by intro h; simp [jsonValidM] at h⟩
    simp only [jsonValidM, List.all_eq_true, decide_eq_true_eq] at h
    exact jsonStrLit_scalars h
  | arrNil => exact ⟨fun _ => by decide, fun _ => by decide⟩
  | objNil => exact ⟨fun _ => by decide, fun _ => by decide⟩
  | arrCons hd tl ihhd ihtl =>
    constructor
    · intro hv c hc
      simp only [jsonValidM, Bool.and_eq_true] at hv
      simp only [jsonStr, List.mem_cons, List.mem_append] at hc
      rcases hc with rfl | hc | hc
      · decide
      · exact ihhd.1 hv.1 c hc
      · exact ihtl.2 (Or.inl hv.2) c hc
    · intro hv c hc
      have hv1 : jsonValidM 1 (.arrCons hd tl) = true := by
        rcases hv with hv | hv
        · exact hv
        · simp [jsonValidM] at hv
      simp only [jsonValidM, Bool.and_eq_true] at hv1
      simp only [jsonStr, List.mem_cons, List.mem_append] at hc
      rcases hc with rfl | hc | hc
      · decide
      · exact ihhd.1 hv1.1 c hc
      · exact ihtl.2 (Or.inl hv1.2) c hc
  | objCons k v tl ihv ihtl =>
    constructor
    · intro hv c hc
      simp only [jsonValidM, Bool.and_eq_true] at hv
      simp only [jsonStr, List.mem_cons, List.mem_append] at hc
      rcases hc with rfl | hc | rfl | hc | hc
      · decide
      · exact jsonStrLit_scalars (by
          have := hv.1.1
          simp only [List.all_eq_true, decide_eq_true_eq] at this
          exact this) c hc
      · decide
      · exact ihv.1 hv.1.2 c hc
      · exact ihtl.2 (Or.inr hv.2) c hc
    · intro hv c hc
      have hv2 : jsonValidM 2 (.objCons k v tl) = true := by
        rcases hv with hv | hv
        · simp [jsonValidM] at hv
        · exact hv
      simp only [jsonValidM, Bool.and_eq_true] at hv2
      simp only [jsonStr, List.mem_cons, List.mem_append] at hc
      rcases hc with rfl | hc | rfl | hc | hc
      · decide
      · exact jsonStrLit_scalars (by
          have := hv2.1.1
          simp only [List.all_eq_true, decide_eq_true_eq] at this
          exact this) c hc
      · decide
      · exact ihv.1 hv2.1.2 c hc
      · exact ihtl.2 (Or.inr hv2.2) c hc

/-- **C1**: symmetric encryption at rest round-trips: for every plaintext
string of Unicode scalar values, every userId and every choice of the 16-byte
random IV, `decryptData(encryptData(data, userId), userId)` returns `data`
exactly; consequently `decryptReport` inverts `encryptReport` for every pair
of well-formed JSON genotype and insight objects under the same userId. -/
theorem c1_encrypt_roundtrip :
    (∀ (data userId : JStr) (iv : List Nat), (∀ c ∈ data, validScalar c) →
      (∀ b ∈ iv, b < 256) →
      decryptData (encryptData data userId iv) userId = some data)
    ∧ (∀ (genotypes insights : Json) (userId : JStr) (iv1 iv2 : List Nat),
      jsonValid genotypes = true → jsonValid insights = true →
      (∀ b ∈ iv1, b < 256) → (∀ b ∈ iv2, b < 256) →
      decryptReport (encryptReport genotypes insights userId iv1 iv2).1
        (encryptReport genotypes insights userId iv1 iv2).2 userId =
        (some genotypes, some insights)) := by
  constructor
  · exact decryptData_encryptData
  · intro g i u iv1 iv2 hg hi h1 h2
    have hgs : ∀ c ∈ jsonStringify g, validScalar c := (jsonStr_scalars g).1 hg
    have his : ∀ c ∈ jsonStringify i, validScalar c := (jsonStr_scalars i).1 hi
    simp only [encryptReport, decryptReport]
    rw [decryptData_encryptData _ _ _ hgs h1, decryptData_encryptData _ _ _ his h2]
    simp only [Option.some_bind]
    rw [jsonParse_stringify g hg, jsonParse_stringify i hi]

theorem c1_encrypt_roundtrip_witness :
    decryptData (encryptData (jstr "hi") (jstr "u") (List.replicate 16 0)) (jstr "u") =
      some (jstr "hi") ∧
    decryptReport
      (encryptReport Json.objNil Json.arrNil (jstr "u")
        (List.replicate 16 0) (List.replicate 16 7)).1
      (encryptReport Json.objNil Json.arrNil (jstr "u")
        (List.replicate 16 0) (List.replicate 16 7)).2 (jstr "u") =
      (some Json.objNil, some Json.arrNil) :=
  ⟨c1_encrypt_roundtrip.1 (jstr "hi") (jstr "u") (List.replicate 16 0)
    (by decide) (by decide),
   c1_encrypt_roundtrip.2 Json.objNil Json.arrNil (jstr "u")
    (List.replicate 16 0) (List.replicate 16 7) (by decide) (by decide)
    (by decide) (by decide)⟩

/-! ## JWT lemmas -/

theorem splitOnCharJs_ne_nil (sep : Nat) : ∀ s : JStr, splitOnCharJs sep s ≠ [] := by
  intro s
  induction s with
  | nil => simp [splitOnCharJs]
  | cons c rest ih =>
    simp only [splitOnCharJs]
    split_ifs
    · simp
    · rcases h : splitOnCharJs sep rest with _ | ⟨a, b⟩
      · simp
      · simp

theorem splitOnCharJs_no_sep (sep : Nat) : ∀ s : JStr, (∀ c ∈ s, c ≠ sep) →
    splitOnCharJs sep s = [s] := by
  intro s
  induction s with
  | nil => intro _; rfl
  | cons c rest ih =>
    intro h
    simp only [splitOnCharJs, if_neg (h c (List.mem_cons_self c rest)),
      ih (fun x hx => h x (List.mem_cons_of_mem c hx))]

theorem splitOnCharJs_append (sep : Nat) : ∀ (a rest : JStr), (∀ c ∈ a, c ≠ sep) →
    splitOnCharJs sep (a ++ sep :: rest) = a :: splitOnCharJs sep rest := by
  intro a
  induction a with
  | nil =>
    intro rest _
    simp [splitOnCharJs]
  | cons c t ih =>
    intro rest h
    rw [List.cons_append]
    simp only [splitOnCharJs, if_neg (h c (List.mem_cons_self c t)),
      ih rest (fun x hx => h x (List.mem_cons_of_mem c hx))]

theorem b64UrlOfBytes_ne_46 {l : List Nat} (hl : ∀ b ∈ l, b < 256) :
    ∀ c ∈ b64UrlOfBytes l, c ≠ 46 := by
  intro c hc
  simp only [b64UrlOfBytes, List.mem_filterMap] at hc
  obtain ⟨c0, hc0, hmap⟩ := hc
  rcases b64Encode_chars l hl c0 hc0 with rfl | ⟨i, hi, rfl⟩
  · simp [urlOfB64Char] at hmap
  · have hfact : ∀ j, j < 64 → (urlOfB64Char (b64Char j)).getD 0 ≠ 46 := by decide
    have hc_eq : c = (urlOfB64Char (b64Char i)).getD 0 := by rw [hmap]; rfl
    rw [hc_eq]
    exact hfact i hi

/-- The three-part split of a well-formed token. -/
theorem split_token (eh ep sig : JStr) (heh : ∀ c ∈ eh, c ≠ 46)
    (hep : ∀ c ∈ ep, c ≠ 46) (hsig : ∀ c ∈ sig, c ≠ 46) :
    splitOnCharJs 46 ((eh ++ 46 :: ep) ++ 46 :: sig) = [eh, ep, sig] := by
  rw [List.append_assoc, List.cons_append, splitOnCharJs_append 46 eh _ heh,
    splitOnCharJs_append 46 ep _ hep, splitOnCharJs_no_sep 46 sig hsig]

set_option maxHeartbeats 1000000 in
/-- A generated token verifies to the expiry check's outcome: the signature
always matches and the payload round-trips. -/
theorem verify_generated (p : JwtPayloadIn) (now now' : Int)
    (hu : p.userId ≠ []) (he : p.email ≠ [])
    (hsu : ∀ c ∈ p.userId, validScalar c) (hse : ∀ c ∈ p.email, validScalar c)
    (hsp : ∀ c ∈ p.plan, validScalar c) :
    jsonValid (jwtPayloadJson p now) = true ∧
    (generateToken p now).map (fun t => verifyToken t now') =
      some (if jwtExpired (jwtPayloadJson p now) now' then
              ⟨false, some (jstr "Token has expired"), none⟩
            else
              ⟨true, none, some ⟨some (.str p.userId), some (.str p.email),
                some (.str p.plan)⟩⟩) := by
  have hvalid : jsonValid (jwtPayloadJson p now) = true := by
    simp only [jwtPayloadJson, jsonValid, jsonValidM, Bool.and_eq_true, List.all_eq_true,
      decide_eq_true_eq]
    refine ⟨⟨by decide, hsu⟩, ⟨by decide, hse⟩, ⟨by decide, hsp⟩, by decide, by decide⟩
  refine ⟨hvalid, ?_⟩
  have hscal : ∀ c ∈ jsonStringify (jwtPayloadJson p now), validScalar c :=
    (jsonStr_scalars _).1 hvalid
  have hbytes : ∀ b ∈ utf8Encode (jsonStringify (jwtPayloadJson p now)), b < 256 :=
    utf8Encode_lt256 _ hscal
  have hep46 : ∀ c ∈ base64UrlEncode (jsonStringify (jwtPayloadJson p now)), c ≠ 46 :=
    b64UrlOfBytes_ne_46 hbytes
  have heh46 : ∀ c ∈ base64UrlEncode (jsonStringify jwtHeaderJson), c ≠ 46 := by decide
  have hsig46 : ∀ c ∈ jwtSig (base64UrlEncode (jsonStringify jwtHeaderJson) ++
      46 :: base64UrlEncode (jsonStringify (jwtPayloadJson p now))), c ≠ 46 :=
    b64UrlOfBytes_ne_46 (sha256_lt_256 _)
  have hgen : generateToken p now =
      some ((base64UrlEncode (jsonStringify jwtHeaderJson) ++
        46 :: base64UrlEncode (jsonStringify (jwtPayloadJson p now))) ++
        46 :: jwtSig (base64UrlEncode (jsonStringify jwtHeaderJson) ++
          46 :: base64UrlEncode (jsonStringify (jwtPayloadJson p now)))) := by
    simp only [generateToken]
    rw [if_neg (by rintro (h | h); exacts [hu h, he h])]
  rw [hgen]
  simp only [Option.map_some']
  have htok : (base64UrlEncode (jsonStringify jwtHeaderJson) ++
      46 :: base64UrlEncode (jsonStringify (jwtPayloadJson p now))) ++
      46 :: jwtSig (base64UrlEncode (jsonStringify jwtHeaderJson) ++
        46 :: base64UrlEncode (jsonStringify (jwtPayloadJson p now))) ≠ [] := by
    simp
  have hsplit := split_token _ _ _ heh46 hep46 hsig46
  have hdec : base64UrlDecode (base64UrlEncode (jsonStringify (jwtPayloadJson p now))) =
      some (jsonStringify (jwtPayloadJson p now)) := by
    simp only [base64UrlDecode, base64UrlEncode]
    rw [b64UrlDecodeBytes_of_encode _ hbytes]
    exact utf8Decode_encode _ hscal
  have hparse := jsonParse_stringify _ hvalid
  simp only [verifyToken]
  rw [if_neg (by exact fun h => htok h)]
  simp only [hsplit]
  rw [if_neg (fun h => h rfl : ¬ ([base64UrlEncode (jsonStringify jwtHeaderJson),
    base64UrlEncode (jsonStringify (jwtPayloadJson p now)),
    jwtSig (base64UrlEncode (jsonStringify jwtHeaderJson) ++
      46 :: base64UrlEncode (jsonStringify (jwtPayloadJson p now)))] :
        List JStr).length ≠ 3)]
  simp only [List.getD_cons_zero, List.getD_cons_succ]
  rw [if_neg (by intro h; exact h rfl)]
  simp only [hdec, hparse]
  have hu1 : jlookup (jwtPayloadJson p now) (jstr "userId") = some (.str p.userId) := rfl
  have hu2 : jlookup (jwtPayloadJson p now) (jstr "email") = some (.str p.email) := rfl
  have hu3 : jlookup (jwtPayloadJson p now) (jstr "plan") = some (.str p.plan) := rfl
  rw [hu1, hu2, hu3]

/-- The attacker-chosen payload with `exp: 0` used to bypass the expiry
check. -/
def c7Payload : Json :=
  .objCons (jstr "userId") (.str (jstr "x"))
    (.objCons (jstr "email") (.str (jstr "e"))
      (.objCons (jstr "plan") (.str (jstr "free"))
        (.objCons (jstr "iat") (.num 0)
          (.objCons (jstr "exp") (.num 0) .objNil))))

/-- A correctly signed token carrying `c7Payload`. -/
def c7Token : JStr :=
  (base64UrlEncode (jsonStringify jwtHeaderJson) ++
    46 :: base64UrlEncode (jsonStringify c7Payload)) ++
  46 :: jwtSig (base64UrlEncode (jsonStringify jwtHeaderJson) ++
    46 :: base64UrlEncode (jsonStringify c7Payload))

/-- **C7 counterexample**: a correctly signed token whose `exp` is `0` — an
epoch time far in the past — verifies successfully, because
`decoded.exp && decoded.exp < now` is falsy for `exp = 0`.  This refutes
"verifyToken returns failure … for every token whose exp is in the past". -/
theorem c7_counterexample :
    jlookup c7Payload (jstr "exp") = some (.num 0) ∧ (0 : Int) < 1700000000 ∧
    verifyToken c7Token 1700000000 =
      ⟨true, none, some ⟨some (.str (jstr "x")), some (.str (jstr "e")),
        some (.str (jstr "free"))⟩⟩ := by
  refine ⟨by decide, by decide, ?_⟩
  have hep46 : ∀ c ∈ base64UrlEncode (jsonStringify c7Payload), c ≠ 46 := by decide
  have heh46 : ∀ c ∈ base64UrlEncode (jsonStringify jwtHeaderJson), c ≠ 46 := by decide
  have hsig46 : ∀ c ∈ jwtSig (base64UrlEncode (jsonStringify jwtHeaderJson) ++
      46 :: base64UrlEncode (jsonStringify c7Payload)), c ≠ 46 :=
    b64UrlOfBytes_ne_46 (sha256_lt_256 _)
  have hsplit := split_token _ _ _ heh46 hep46 hsig46
  have hdec : base64UrlDecode (base64UrlEncode (jsonStringify c7Payload)) =
      some (jsonStringify c7Payload) := by decide
  have hparse : jsonParse (jsonStringify c7Payload) = some c7Payload := by decide
  simp only [c7Token, verifyToken]
  rw [if_neg (by simp)]
  simp only [hsplit]
  rw [if_neg (by decide : ¬ ([base64UrlEncode (jsonStringify jwtHeaderJson),
    base64UrlEncode (jsonStringify c7Payload),
    jwtSig (base64UrlEncode (jsonStringify jwtHeaderJson) ++
      46 :: base64UrlEncode (jsonStringify c7Payload))] : List JStr).length ≠ 3)]
  simp only [List.getD_cons_zero, List.getD_cons_succ]
  rw [if_neg (by intro h; exact h rfl)]
  simp only [hdec, hparse]
  rw [if_neg (by decide : ¬ jwtExpired c7Payload 1700000000 = true)]
  decide

/-- Stripped-padding outputs never contain `=` (61). -/
theorem b64UrlOfBytes_ne_61 (l : List Nat) : ∀ c ∈ b64UrlOfBytes l, c ≠ 61 := by
  intro c hc
  simp only [b64UrlOfBytes, List.mem_filterMap] at hc
  obtain ⟨c0, -, hmap⟩ := hc
  unfold urlOfB64Char at hmap
  split_ifs at hmap
  · simp only [Option.some.injEq] at hmap
    omega
  · simp only [Option.some.injEq] at hmap
    omega
  · simp only [Option.some.injEq] at hmap
    omega

/-- **C7** (amended): the JWT signer round-trips, but expiry has an `exp = 0`
escape hatch (see the counterexample): (1) a generated token with nonempty
userId and email, verified before its expiry, succeeds with exactly the
payload's userId, email and plan; (2) a generated token whose (nonzero)
`exp = now + 604800` lies strictly before the verification time fails with
"Token has expired"; (3) a token that does not split into three dot-separated
parts fails; (4) a token whose third part differs from the HMAC-SHA256
signature of its first two parts fails. -/
theorem c7_token_roundtrip :
    (∀ (p : JwtPayloadIn) (now now' : Int),
      p.userId ≠ [] → p.email ≠ [] →
      (∀ c ∈ p.userId, validScalar c) → (∀ c ∈ p.email, validScalar c) →
      (∀ c ∈ p.plan, validScalar c) → ¬ (now + 604800 < now') →
      (generateToken p now).map (fun t => verifyToken t now') =
        some ⟨true, none, some ⟨some (.str p.userId), some (.str p.email),
          some (.str p.plan)⟩⟩)
    ∧ (∀ (p : JwtPayloadIn) (now now' : Int),
      p.userId ≠ [] → p.email ≠ [] →
      (∀ c ∈ p.userId, validScalar c) → (∀ c ∈ p.email, validScalar c) →
      (∀ c ∈ p.plan, validScalar c) → now + 604800 ≠ 0 → now + 604800 < now' →
      (generateToken p now).map (fun t => verifyToken t now') =
        some ⟨false, some (jstr "Token has expired"), none⟩)
    ∧ (∀ (token : JStr) (now : Int), (splitOnCharJs 46 token).length ≠ 3 →
      (verifyToken token now).success = false)
    ∧ (∀ (token : JStr) (now : Int), token ≠ [] →
      (splitOnCharJs 46 token).length = 3 →
      (splitOnCharJs 46 token).getD 2 [] ≠
        jwtSig ((splitOnCharJs 46 token).getD 0 [] ++
          46 :: (splitOnCharJs 46 token).getD 1 []) →
      (verifyToken token now).success = false) := by
  refine ⟨?_, ?_, ?_, ?_⟩
  · intro p now now' hu he hsu hse hsp hno
    obtain ⟨-, heq⟩ := verify_generated p now now' hu he hsu hse hsp
    rw [heq]
    have hexp : jwtExpired (jwtPayloadJson p now) now' = false := by
      have hl : jlookup (jwtPayloadJson p now) (jstr "exp") =
          some (.num (now + 604800)) := rfl
      simp only [jwtExpired, hl]
      exact decide_eq_false (fun hh => hno hh.2)
    rw [hexp]
    simp
  · intro p now now' hu he hsu hse hsp h0 hlt
    obtain ⟨-, heq⟩ := verify_generated p now now' hu he hsu hse hsp
    rw [heq]
    have hexp : jwtExpired (jwtPayloadJson p now) now' = true := by
      have hl : jlookup (jwtPayloadJson p now) (jstr "exp") =
          some (.num (now + 604800)) := rfl
      simp only [jwtExpired, hl]
      exact decide_eq_true ⟨h0, hlt⟩
    rw [hexp]
    simp
  · intro token now hlen
    by_cases htok : token = []
    · simp [verifyToken, htok]
    · simp only [verifyToken]
      rw [if_neg htok, if_pos hlen]
  · intro token now htok hlen hsig
    simp only [verifyToken]
    rw [if_neg htok, if_neg (fun h => h hlen), if_pos hsig]

theorem c7_token_roundtrip_witness :
    (generateToken ⟨jstr "u1", jstr "e", jstr "free"⟩ 1000).map
        (fun t => verifyToken t 2000) =
      some ⟨true, none, some ⟨some (.str (jstr "u1")), some (.str (jstr "e")),
        some (.str (jstr "free"))⟩⟩ ∧
    (generateToken ⟨jstr "u1", jstr "e", jstr "free"⟩ 1000).map
        (fun t => verifyToken t 99999999) =
      some ⟨false, some (jstr "Token has expired"), none⟩ ∧
    (verifyToken (jstr "abc") 0).success = false ∧
    (verifyToken (jstr "a.b.=") 0).success = false :=
  ⟨c7_token_roundtrip.1 ⟨jstr "u1", jstr "e", jstr "free"⟩ 1000 2000
    (by decide) (by decide) (by decide) (by decide) (by decide) (by decide),
   c7_token_roundtrip.2.1 ⟨jstr "u1", jstr "e", jstr "free"⟩ 1000 99999999
    (by decide) (by decide) (by decide) (by decide) (by decide) (by decide) (by decide),
   c7_token_roundtrip.2.2.1 (jstr "abc") 0 (by decide),
   c7_token_roundtrip.2.2.2 (jstr "a.b.=") 0 (by decide) (by decide)
    (fun heq => b64UrlOfBytes_ne_61 _ 61 (heq ▸ (by decide :
      (61 : Nat) ∈ (splitOnCharJs 46 (jstr "a.b.=")).getD 2 [])) rfl)⟩

/-! ## Magic-link lemmas -/

theorem verify_none_of_no_candidate {db : List MagicLinkRecord} {tok : JStr} {now : Int}
    (h : ∀ r ∈ db, r.tokenHash = hashToken tok → r.used = true ∨ ¬ (now < r.expiresAt)) :
    (verifyMagicLink db tok now).1 = none := by
  have hfind : db.find? (fun r => r.tokenHash == hashToken tok && !r.used &&
      decide (now < r.expiresAt)) = none := by
    rw [List.find?_eq_none]
    intro r hr
    by_cases hh : r.tokenHash = hashToken tok
    · rcases h r hr hh with hu | he
      · simp [hh, hu]
      · simp [hh, he]
    · simp [hh]
  simp only [verifyMagicLink, hfind]

theorem verify_success_elim {db : List MagicLinkRecord} {tok : JStr} {now : Int}
    {id : JStr} (h : (verifyMagicLink db tok now).1 = some id) :
    ∃ r ∈ db, r.tokenHash = hashToken tok ∧ r.used = false ∧
      now < r.expiresAt ∧ r.identifier = id := by
  simp only [verifyMagicLink] at h
  cases hf : db.find? (fun r => r.tokenHash == hashToken tok && !r.used &&
      decide (now < r.expiresAt)) with
  | none => rw [hf] at h; simp at h
  | some link =>
    rw [hf] at h
    simp only [Option.some.injEq] at h
    have hmem := List.mem_of_find?_eq_some hf
    have hpred := List.find?_some hf
    simp only [Bool.and_eq_true, beq_iff_eq, Bool.not_eq_eq_eq_not, Bool.not_true,
      decide_eq_true_eq] at hpred
    exact ⟨link, hmem, hpred.1.1, hpred.1.2, hpred.2, h⟩

theorem verify_marks_used {db : List MagicLinkRecord} {tok : JStr} {now : Int}
    {id : JStr} (h : (verifyMagicLink db tok now).1 = some id) :
    ∀ r ∈ (verifyMagicLink db tok now).2, r.tokenHash = hashToken tok →
      r.used = true := by
  intro r hr hh
  simp only [verifyMagicLink] at h hr
  cases hf : db.find? (fun r => r.tokenHash == hashToken tok && !r.used &&
      decide (now < r.expiresAt)) with
  | none => rw [hf] at h; simp at h
  | some link =>
    rw [hf] at hr
    simp only [List.mem_map] at hr
    obtain ⟨r0, hr0, hmap⟩ := hr
    by_cases hb : r0.tokenHash == hashToken tok
    · rw [if_pos hb] at hmap
      rw [← hmap]
    · rw [if_neg hb] at hmap
      subst hmap
      exact absurd (by simp [hh]) hb

theorem allUsed_applyOp {h : JStr} {db : List MagicLinkRecord} {op : MagicOp}
    (hP : ∀ r ∈ db, r.tokenHash = h → r.used = true) (hop : ¬ opCreatesHash h op) :
    ∀ r ∈ applyOp db op, r.tokenHash = h → r.used = true := by
  cases op with
  | create email token m now =>
    intro r hr hh
    simp only [applyOp, createMagicLink, List.mem_append, List.mem_singleton] at hr
    rcases hr with hr | rfl
    · exact hP r hr hh
    · simp only [opCreatesHash] at hop
      exact absurd hh hop
  | verify token now =>
    intro r hr hh
    simp only [applyOp, verifyMagicLink] at hr
    cases hf : db.find? (fun r => r.tokenHash == hashToken token && !r.used &&
        decide (now < r.expiresAt)) with
    | none =>
      rw [hf] at hr
      exact hP r hr hh
    | some link =>
      rw [hf] at hr
      simp only [List.mem_map] at hr
      obtain ⟨r0, hr0, hmap⟩ := hr
      by_cases hb : r0.tokenHash == hashToken token
      · rw [if_pos hb] at hmap
        rw [← hmap]
      · rw [if_neg hb] at hmap
        subst hmap
        exact hP r0 hr0 hh
  | cleanup now =>
    intro r hr hh
    simp only [applyOp, cleanupExpiredMagicLinks] at hr
    exact hP r (List.mem_filter.1 hr).1 hh

theorem allUsed_runOps {h : JStr} : ∀ (ops : List MagicOp) (db : List MagicLinkRecord),
    (∀ r ∈ db, r.tokenHash = h → r.used = true) →
    (∀ op ∈ ops, ¬ opCreatesHash h op) →
    ∀ r ∈ runOps db ops, r.tokenHash = h → r.used = true := by
  intro ops
  induction ops with
  | nil => intro db hP _; exact hP
  | cons op t ih =>
    intro db hP hops
    exact ih (applyOp db op)
      (allUsed_applyOp hP (hops op (List.mem_cons_self op t)))
      (fun o ho => hops o (List.mem_cons_of_mem op ho))

/-- **C6**: a magic link is single-use: a successful `verifyMagicLink` returns
the identifier of a matching unused unexpired row and marks every row with
that token hash used, so as long as no new link with the same token hash is
created, every subsequent `verifyMagicLink` with the same token returns null;
`verifyMagicLink` also returns null whenever every row with the token's hash
is already used or expired (in particular for unknown tokens). -/
theorem c6_magic_link_single_use :
    (∀ (db : List MagicLinkRecord) (token : JStr) (now : Int) (id : JStr),
      (verifyMagicLink db token now).1 = some id →
      (∃ r ∈ db, r.tokenHash = hashToken token ∧ r.used = false ∧
        now < r.expiresAt ∧ r.identifier = id) ∧
      ∀ r ∈ (verifyMagicLink db token now).2, r.tokenHash = hashToken token →
        r.used = true)
    ∧ (∀ (db : List MagicLinkRecord) (token : JStr) (now now' : Int) (id : JStr)
        (ops : List MagicOp),
      (verifyMagicLink db token now).1 = some id →
      (∀ op ∈ ops, ¬ opCreatesHash (hashToken token) op) →
      (verifyMagicLink (runOps (verifyMagicLink db token now).2 ops) token now').1 =
        none)
    ∧ (∀ (db : List MagicLinkRecord) (token : JStr) (now : Int),
      (∀ r ∈ db, r.tokenHash = hashToken token → r.used = true ∨
        ¬ (now < r.expiresAt)) →
      (verifyMagicLink db token now).1 = none) := by
  refine ⟨?_, ?_, ?_⟩
  · intro db token now id h
    exact ⟨verify_success_elim h, verify_marks_used h⟩
  · intro db token now now' id ops h hops
    have hP := allUsed_runOps ops _ (verify_marks_used h) hops
    exact verify_none_of_no_candidate (fun r hr hh => Or.inl (hP r hr hh))
  · intro db token now h
    exact verify_none_of_no_candidate h

theorem c6_magic_link_single_use_witness :
    ((∃ r ∈ [(⟨jstr "a@b", hashToken (jstr "t"), 10, false⟩ : MagicLinkRecord)],
        r.tokenHash = hashToken (jstr "t") ∧ r.used = false ∧
        (5 : Int) < r.expiresAt ∧ r.identifier = jstr "a@b") ∧
      ∀ r ∈ (verifyMagicLink [⟨jstr "a@b", hashToken (jstr "t"), 10, false⟩]
          (jstr "t") 5).2,
        r.tokenHash = hashToken (jstr "t") → r.used = true) ∧
    (verifyMagicLink
        (runOps (verifyMagicLink [⟨jstr "a@b", hashToken (jstr "t"), 10, false⟩]
          (jstr "t") 5).2 [])
        (jstr "t") 7).1 = none ∧
    (verifyMagicLink [(⟨jstr "a@b", hashToken (jstr "t"), 10, true⟩ : MagicLinkRecord)]
        (jstr "t") 5).1 = none :=
  ⟨c6_magic_link_single_use.1 [⟨jstr "a@b", hashToken (jstr "t"), 10, false⟩]
      (jstr "t") 5 (jstr "a@b")
      (by simp only [verifyMagicLink]
          rw [List.find?_cons_of_pos _ (by simp)]),
   c6_magic_link_single_use.2.1 [⟨jstr "a@b", hashToken (jstr "t"), 10, false⟩]
      (jstr "t") 5 7 (jstr "a@b") []
      (by simp only [verifyMagicLink]
          rw [List.find?_cons_of_pos _ (by simp)])
      (by simp),
   c6_magic_link_single_use.2.2 [⟨jstr "a@b", hashToken (jstr "t"), 10, true⟩]
      (jstr "t") 5
      (by intro r hr hh
          simp only [List.mem_singleton] at hr
          subst hr
          exact Or.inl rfl)⟩

end Geni

